import Mathlib

/-!
# GTU spreadsheet: formula evaluation and dependency recalculation

A shallow embedding of `src/HW2/Cell.cpp` and `src/HW2/Spreadsheet.cpp`, and, in the
namespace `HW1`, of the evaluator of `src/HW1/FormulaParser.cpp` with the parts of
`src/HW1/Spreadsheet.cpp` and `src/HW1/Cell.cpp` it calls.

Modelling conventions.

* `std::string` is a list of characters (`Str`).
* A C++ exception is the `error` side of `Except Exn`; only the exception class is
  kept, the message text is dropped.
* `double` is modelled by exact rationals of unbounded range: rounding, infinities,
  NaN and the negative zero are outside the model.
* `std::stod` / `std::stoi` are modelled on the decimal grammar of the C library
  (leading white space, sign, digits, fraction, decimal exponent); the hexadecimal,
  infinity and NaN spellings are outside the model.
* `ostream << fixed << setprecision(2)` and `std::to_string(double)` are modelled as
  fixed-point rendering of the exact value, ties rounded to even.
* The cell container always holds at least `totalRows x totalCols` slots
  (`Spreadsheet::create` builds it that way), so the accessor `grid.at` never grows
  it in the operations modelled here; the grid is a function from coordinates to
  an optional cell, `none` being the null pointer.
* `Spreadsheet::resizeGrid` and `Dynamic2DVector::resize` are modelled on `SheetStore`
  and `Dynamic2DVector`, which keep the two counters and the extent of the container
  apart; signed overflow and accesses outside an array are faults of the call.
* A file is the text written to it; `FileManager::loadFile` of HW1 is modelled on that
  text, with `std::getline` splitting it at the delimiter.
-/

namespace GTUSpreadsheet

/-- Byte strings of the program. -/
abbrev Str := List Char

/-- Exception classes thrown by the program and by the standard library. -/
inductive Exn where
  | runtime_error
  | invalid_argument
  | out_of_range
  deriving DecidableEq, Repr

deriving instance DecidableEq for Except

/-! ## Character classes of the C locale -/

/-- The C library test `isspace`. -/
def isspace (c : Char) : Bool :=
  c.toNat = 32 || (9 ≤ c.toNat && c.toNat ≤ 13)

/-- The C library test `isdigit`. -/
def isdigit (c : Char) : Bool :=
  48 ≤ c.toNat && c.toNat ≤ 57

/-- The C library test `isalpha`. -/
def isalpha (c : Char) : Bool :=
  (65 ≤ c.toNat && c.toNat ≤ 90) || (97 ≤ c.toNat && c.toNat ≤ 122)

/-! ## Numeric conversions of the standard library -/

/-- Value of a decimal digit character. -/
def digitVal (c : Char) : Nat := c.toNat - 48

/-- Value of a run of decimal digits. -/
def natOfDigits (ds : Str) : Nat :=
  ds.foldl (fun acc d => 10 * acc + digitVal d) 0

/-- Strips an optional sign; the flag is true for a minus sign. -/
def splitSign : Str → Bool × Str
  | '-' :: r => (true, r)
  | '+' :: r => (false, r)
  | s => (false, s)

/-- Decimal exponent suffix read by `strtod`: `e` or `E`, optional sign, digits. -/
def exponentOf : Str → Int
  | c :: r =>
    if c = 'e' ∨ c = 'E' then
      let sr := splitSign r
      let ds := sr.2.takeWhile isdigit
      if ds = [] then 0
      else if sr.1 then -(natOfDigits ds : Int) else (natOfDigits ds : Int)
    else 0
  | [] => 0

/-- Scales a rational by a power of ten. -/
def scale10 (q : ℚ) (e : Int) : ℚ :=
  if 0 ≤ e then q * ((10 ^ e.toNat : Nat) : ℚ) else q / ((10 ^ (-e).toNat : Nat) : ℚ)

/-- The library function `std::stod`: converts the longest decimal prefix, throws
`invalid_argument` when there is none. -/
def stod (str : Str) : Except Exn ℚ :=
  let s0 := splitSign (str.dropWhile isspace)
  let ip := s0.2.takeWhile isdigit
  let s2 := s0.2.dropWhile isdigit
  let fp := match s2 with
    | '.' :: r => r.takeWhile isdigit
    | _ => []
  let s3 := match s2 with
    | '.' :: r => r.dropWhile isdigit
    | _ => s2
  if ip = [] ∧ fp = [] then Except.error Exn.invalid_argument
  else
    let mant : ℚ := (natOfDigits (ip ++ fp) : ℚ) / ((10 ^ fp.length : Nat) : ℚ)
    Except.ok (scale10 (if s0.1 then -mant else mant) (exponentOf s3))

/-- The library function `std::stoi`: converts the longest decimal integer prefix,
throws `invalid_argument` when there is none and `out_of_range` when the value does
not fit a 32-bit `int`. -/
def stoi (str : Str) : Except Exn Int :=
  let s0 := splitSign (str.dropWhile isspace)
  let ds := s0.2.takeWhile isdigit
  if ds = [] then Except.error Exn.invalid_argument
  else
    let v : Int := if s0.1 then -(natOfDigits ds : Int) else (natOfDigits ds : Int)
    if v < -2147483648 ∨ 2147483647 < v then Except.error Exn.out_of_range
    else Except.ok v

/-- The library function `std::to_string(int)`. -/
def intToString (i : Int) : Str :=
  if i < 0 then '-' :: Nat.toDigits 10 i.natAbs else Nat.toDigits 10 i.natAbs

/-- Rounds a non-negative rational to the nearest natural number, ties to even. -/
def roundHalfEven (x : ℚ) : Nat :=
  let fl := x.num.toNat / x.den
  let r : ℚ := x - (fl : ℚ)
  if r < 1 / 2 then fl
  else if 1 / 2 < r then fl + 1
  else if fl % 2 = 0 then fl else fl + 1

/-- Pads a digit string with zeros on the left up to the given width. -/
def padZeros (w : Nat) (ds : Str) : Str :=
  List.replicate (w - ds.length) '0' ++ ds

/-- Fixed-point rendering with `p` fraction digits (`p > 0`). -/
def formatFixed (p : Nat) (q : ℚ) : Str :=
  let n := roundHalfEven (|q| * ((10 ^ p : Nat) : ℚ))
  let body := Nat.toDigits 10 (n / 10 ^ p) ++ '.' :: padZeros p (Nat.toDigits 10 (n % 10 ^ p))
  if q < 0 then '-' :: body else body

/-- Rendering by `ostringstream << fixed << setprecision(2)`. -/
def formatTwoDecimals (q : ℚ) : Str := formatFixed 2 q

/-- The library function `std::to_string(double)` (six fraction digits). -/
def doubleToString (q : ℚ) : Str := formatFixed 6 q

/-- The library function `sqrt` on the rational model: exact on squares of rationals,
truncated to twelve decimals otherwise, zero on negative arguments. -/
def sqrtModel (q : ℚ) : ℚ :=
  if q ≤ 0 then 0
  else (Nat.sqrt (q.num.toNat * q.den * 10 ^ 24) : ℚ) / ((q.den * 10 ^ 12 : Nat) : ℚ)

/-! ## String helpers of `std::string` -/

/-- The member `find(char)`: index of the first occurrence, `none` for `npos`. -/
def findChar (c : Char) : Str → Option Nat
  | [] => none
  | x :: r => if x = c then some 0 else (findChar c r).map (· + 1)

/-- The member `find("..")`: index of the first occurrence of two dots. -/
def findDotDot : Str → Option Nat
  | [] => none
  | [_] => none
  | x :: y :: r =>
    if x = '.' ∧ y = '.' then some 0 else (findDotDot (y :: r)).map (· + 1)

/-- The member `substr(pos, n)`; every call site has `pos` within the string. -/
def substr (s : Str) (pos n : Nat) : Str := (s.drop pos).take n

/-! ## Cells -/

/-- The class hierarchy below `Cell`, as a closed variant. -/
inductive Cell where
  | ValueCell (content : Str)
  | StringValueCell (content : Str)
  | IntValueCell (intValue : Int)
  | DoubleValueCell (doubleValue : ℚ)
  | FormulaCell (formula : Str) (computedValue : Str) (dependencies : List (Int × Int))
  deriving DecidableEq

namespace Cell

/-- The virtual member `getContent`. -/
def getContent : Cell → Str
  | ValueCell v => v
  | StringValueCell v => v
  | IntValueCell i => intToString i
  | DoubleValueCell d => formatTwoDecimals d
  | FormulaCell _ computedValue _ => computedValue

/-- The virtual member `getRawContent`. -/
def getRawContent : Cell → Str
  | ValueCell v => v
  | StringValueCell v => v
  | IntValueCell i => intToString i
  | DoubleValueCell d => doubleToString d
  | FormulaCell formula _ _ => formula

/-- Whether the dynamic type is `FormulaCell`. -/
def isFormula : Cell → Bool
  | FormulaCell _ _ _ => true
  | _ => false

end Cell

/-! ## The spreadsheet -/

/-- State of a `Spreadsheet` object. -/
structure Spreadsheet where
  totalRows : Nat
  totalCols : Nat
  grid : Int → Int → Option Cell

namespace Spreadsheet

/-- The factory `Spreadsheet::create`: every slot holds an empty `ValueCell`. -/
def create (rows cols : Nat) : Spreadsheet :=
  { totalRows := rows, totalCols := cols, grid := fun _ _ => some (Cell.ValueCell []) }

/-- The assignment `grid.at(row, col) = cell`. -/
def setAt (s : Spreadsheet) (row col : Int) (cell : Option Cell) : Spreadsheet :=
  { s with grid := fun r c => if r = row ∧ c = col then cell else s.grid r c }

/-- The member `Spreadsheet::getCell`. -/
def getCell (s : Spreadsheet) (row col : Int) : Option Cell :=
  if 0 ≤ row ∧ row < s.totalRows ∧ 0 ≤ col ∧ col < s.totalCols then s.grid row col
  else none

/-- The splitting loop of `parseCellReference`: letters go to the column label,
digits to the row label, anything else throws. -/
def splitReference : Str → Str → Str → Except Exn (Str × Str)
  | [], colLabel, rowLabel => Except.ok (colLabel, rowLabel)
  | ch :: rest, colLabel, rowLabel =>
    if isalpha ch then splitReference rest (colLabel ++ [ch]) rowLabel
    else if isdigit ch then splitReference rest colLabel (rowLabel ++ [ch])
    else Except.error Exn.runtime_error

/-- The member `Spreadsheet::parseCellReference`, returning `(row, col)`. -/
def parseCellReference (reference : Str) : Except Exn (Int × Int) :=
  match splitReference reference [] [] with
  | Except.error e => Except.error e
  | Except.ok (colLabel, rowLabel) =>
    match colLabel with
    | [] => Except.error Exn.runtime_error
    | c0 :: _ =>
      if rowLabel = [] then Except.error Exn.runtime_error
      else
        match stoi rowLabel with
        | Except.error e => Except.error e
        | Except.ok n => Except.ok (n - 1, (c0.toNat : Int) - 65)

end Spreadsheet

/-! ## Formula cells -/

namespace FormulaCell

open Spreadsheet

/-- The member `FormulaCell::isFunction`. -/
def isFunction (content : Str) : Bool :=
  decide (1 < content.length) && content.head? = some '@'

/-- The member `FormulaCell::parseFunctionAndRange`. The length arguments of `substr`
are computed in 64-bit unsigned arithmetic, as `size_t` does. -/
def parseFunctionAndRange (content : Str) : Except Exn (Str × Str) :=
  match findChar '(' content, findChar ')' content with
  | some openParen, some closeParen =>
    Except.ok (substr content 1 ((openParen + 2 ^ 64 - 1) % 2 ^ 64),
      substr content (openParen + 1) ((closeParen + 2 ^ 64 - openParen - 1) % 2 ^ 64))
  | _, _ => Except.error Exn.runtime_error

/-- The member `FormulaCell::parseRange`. -/
def parseRange (range : Str) : Except Exn (Str × Str) :=
  match findDotDot range with
  | none => Except.error Exn.runtime_error
  | some sep => Except.ok (substr range 0 sep, range.drop (sep + 2))

/-- The integers `lo, lo+1, ..., hi` visited by `for (int i = lo; i <= hi; ++i)`. -/
def intRange (lo hi : Int) : List Int :=
  (List.range (hi + 1 - lo).toNat).map (fun (i : Nat) => lo + (i : Int))

/-- Body of the inner loop of `getValuesFromRange`: the value pushed for one cell,
if any. -/
def valueOfCell (s : Spreadsheet) (r c : Int) : Option ℚ :=
  match s.getCell r c with
  | none => none
  | some cell =>
    if cell.getContent = [] then none
    else
      match stod cell.getContent with
      | Except.ok v => some v
      | Except.error _ => none

/-- The member `FormulaCell::getValuesFromRange`. -/
def getValuesFromRange (s : Spreadsheet) (start stop : Str) : Except Exn (List ℚ) :=
  match parseCellReference start with
  | Except.error e => Except.error e
  | Except.ok (startRow, startCol) =>
    match parseCellReference stop with
    | Except.error e => Except.error e
    | Except.ok (endRow, endCol) =>
      Except.ok ((intRange startRow endRow).flatMap (fun r =>
        (intRange startCol endCol).filterMap (fun c => valueOfCell s r c)))

/-- The member `FormulaCell::calculateSum`. -/
def calculateSum (values : List ℚ) : ℚ :=
  values.foldl (fun sum v => sum + v) 0

/-- The member `FormulaCell::calculateAverage`. -/
def calculateAverage (values : List ℚ) : ℚ :=
  if values.length = 0 then 0 else calculateSum values / (values.length : ℚ)

/-- The member `FormulaCell::calculateMax`. -/
def calculateMax (values : List ℚ) : ℚ :=
  match values with
  | [] => 0
  | v0 :: rest => rest.foldl (fun max v => if v > max then v else max) v0

/-- The member `FormulaCell::calculateMin`. -/
def calculateMin (values : List ℚ) : ℚ :=
  match values with
  | [] => 0
  | v0 :: rest => rest.foldl (fun min v => if v < min then v else min) v0

/-- The member `FormulaCell::calculateStdDev`. -/
def calculateStdDev (values : List ℚ) : ℚ :=
  if values.length ≤ 1 then 0
  else
    let acc := values.foldl (fun (a : ℚ × ℚ) v => (a.1 + v, a.2 + v * v)) (0, 0)
    let mean := acc.1 / (values.length : ℚ)
    sqrtModel (acc.2 / (values.length : ℚ) - mean * mean)

/-- State of the scanning loop of `tokenize`. -/
structure TokState where
  tokens : List Str
  token : Str
  inFunction : Bool
  deriving DecidableEq

/-- Pushes the pending token, if it is non-empty. -/
def flush (tokens : List Str) (token : Str) : List Str :=
  if token ≠ [] then tokens ++ [token] else tokens

/-- One iteration of the loop of `tokenize`. -/
def tokenizeStep (st : TokState) (ch : Char) : TokState :=
  if ch = '@' then
    { tokens := flush st.tokens st.token, token := [ch], inFunction := true }
  else if st.inFunction then
    if ch = ')' then
      { tokens := st.tokens ++ [st.token ++ [ch]], token := [], inFunction := false }
    else { st with token := st.token ++ [ch] }
  else if isspace ch then
    { st with tokens := flush st.tokens st.token, token := [] }
  else if ch = '+' ∨ ch = '-' ∨ ch = '*' ∨ ch = '/' then
    { st with tokens := flush st.tokens st.token ++ [[ch]], token := [] }
  else { st with token := st.token ++ [ch] }

/-- The member `FormulaCell::tokenize`, started on an empty token array. -/
def tokenize (formula : Str) : List Str :=
  let st := formula.foldl tokenizeStep { tokens := [], token := [], inFunction := false }
  flush st.tokens st.token

/-- The member `FormulaCell::isOperator`. -/
def isOperator (token : Str) : Bool :=
  token = ['+'] || token = ['-'] || token = ['*'] || token = ['/']

/-- The member `FormulaCell::isCellReference`. -/
def isCellReference (token : Str) : Bool :=
  if token = [] then false
  else
    let i := (token.takeWhile isalpha).length
    if i = 0 ∨ i ≥ token.length then false
    else ((token.drop i).dropWhile isdigit) = []

/-- The member `FormulaCell::isNumber`. -/
def isNumber (token : Str) : Bool :=
  if token = [] then false
  else
    match stod token with
    | Except.ok _ => true
    | Except.error _ => false

/-- The member `FormulaCell::applyOperator`. -/
def applyOperator (a b : ℚ) (op : Str) : Except Exn ℚ :=
  if op = ['+'] then Except.ok (a + b)
  else if op = ['-'] then Except.ok (a - b)
  else if op = ['*'] then Except.ok (a * b)
  else if op = ['/'] then
    if b = 0 then Except.error Exn.runtime_error else Except.ok (a / b)
  else Except.error Exn.runtime_error

/-- The member `FormulaCell::fetchValueFromReference`. -/
def fetchValueFromReference (s : Spreadsheet) (reference : Str) : Except Exn ℚ :=
  match parseCellReference reference with
  | Except.error e => Except.error e
  | Except.ok (row, col) =>
    match s.getCell row col with
    | none => Except.error Exn.runtime_error
    | some cell =>
      if isNumber cell.getContent then stod cell.getContent
      else Except.error Exn.runtime_error

/-- Value of an operand token in `evaluateExpression`. -/
def operandValue (s : Spreadsheet) (token : Str) : Except Exn ℚ :=
  if isCellReference token then fetchValueFromReference s token else stod token

/-- One iteration of the loop of `evaluateExpression`, on the pair
`(result, currentOp)`. -/
def evaluateStep (s : Spreadsheet) (st : ℚ × Str) (token : Str) : Except Exn (ℚ × Str) :=
  if isOperator token then Except.ok (st.1, token)
  else
    match operandValue s token with
    | Except.error e => Except.error e
    | Except.ok value =>
      if st.2 = [] then Except.ok (value, st.2)
      else
        match applyOperator st.1 value st.2 with
        | Except.error e => Except.error e
        | Except.ok r => Except.ok (r, st.2)

/-- The loop of `evaluateExpression` from a given state. -/
def evaluateLoop (s : Spreadsheet) : ℚ × Str → List Str → Except Exn (ℚ × Str)
  | st, [] => Except.ok st
  | st, token :: rest =>
    match evaluateStep s st token with
    | Except.error e => Except.error e
    | Except.ok st1 => evaluateLoop s st1 rest

/-- The member `FormulaCell::evaluateExpression`. -/
def evaluateExpression (s : Spreadsheet) (tokens : List Str) : Except Exn ℚ :=
  match evaluateLoop s (0, []) tokens with
  | Except.error e => Except.error e
  | Except.ok st => Except.ok st.1

/-- Dispatch on the function name in `evaluate`. -/
def applyFunction (funcName : Str) (values : List ℚ) : Except Exn ℚ :=
  if funcName = "SUM".toList ∨ funcName = "Sum".toList then Except.ok (calculateSum values)
  else if funcName = "AVER".toList ∨ funcName = "Aver".toList then
    Except.ok (calculateAverage values)
  else if funcName = "MAX".toList ∨ funcName = "Max".toList then
    Except.ok (calculateMax values)
  else if funcName = "MIN".toList ∨ funcName = "Min".toList then
    Except.ok (calculateMin values)
  else if funcName = "STDDEV".toList ∨ funcName = "Stddev".toList then
    Except.ok (calculateStdDev values)
  else Except.error Exn.runtime_error

/-- The range-function branch of `evaluate`. -/
def evaluateFunction (s : Spreadsheet) (formula : Str) : Except Exn Str :=
  match parseFunctionAndRange formula with
  | Except.error e => Except.error e
  | Except.ok (funcName, range) =>
    match parseRange range with
    | Except.error e => Except.error e
    | Except.ok (start, stop) =>
      match getValuesFromRange s start stop with
      | Except.error e => Except.error e
      | Except.ok values =>
        match applyFunction funcName values with
        | Except.error e => Except.error e
        | Except.ok result => Except.ok (formatTwoDecimals result)

/-- The body of the `try` block of `evaluate`: the new computed value, or the
exception that leaves the block. -/
def evaluateBody (s : Spreadsheet) (formula : Str) : Except Exn Str :=
  if formula = [] then Except.ok []
  else if isFunction formula then evaluateFunction s formula
  else if formula.head? = some '=' then
    match evaluateExpression s (tokenize (formula.drop 1)) with
    | Except.error e => Except.error e
    | Except.ok result => Except.ok (formatTwoDecimals result)
  else Except.ok formula

/-- The member `FormulaCell::evaluate`: the value cached in `computedValue`;
`catch (...)` turns every exception into the text `#ERROR`. -/
def evaluate (s : Spreadsheet) (formula : Str) : Str :=
  match evaluateBody s formula with
  | Except.ok v => v
  | Except.error _ => "#ERROR".toList

/-- The scanning loop of `updateDependencies` over the tokens. -/
def collectDependencies : List Str → List (Int × Int) → Except Exn (List (Int × Int))
  | [], deps => Except.ok deps
  | token :: rest, deps =>
    if isCellReference token then
      match parseCellReference token with
      | Except.error e => Except.error e
      | Except.ok rc => collectDependencies rest (deps ++ [rc])
    else collectDependencies rest deps

/-- The member `DynamicArray::clear`. -/
def clear {α : Type} (_data : List α) : List α := []

/-- The member `FormulaCell::updateDependencies`, from the current dependency list and
formula: the new dependency list, or the exception thrown by `parseCellReference`. -/
def updateDependencies (dependencies : List (Int × Int)) (formula : Str) :
    Except Exn (List (Int × Int)) :=
  let cleared := clear dependencies
  if formula = [] ∨ (formula.head? ≠ some '=' ∧ formula.head? ≠ some '@') then
    Except.ok cleared
  else collectDependencies (tokenize (formula.drop 1)) cleared

/-- The constructor `FormulaCell::FormulaCell(formula, sheet)`. -/
def new (s : Spreadsheet) (initialFormula : Str) : Except Exn Cell :=
  match updateDependencies [] initialFormula with
  | Except.error e => Except.error e
  | Except.ok deps => Except.ok (Cell.FormulaCell initialFormula (evaluate s initialFormula) deps)

/-- The member `FormulaCell::setContent`; the previous formula, computed value and
dependency list of the cell are the three middle arguments. -/
def setContent (s : Spreadsheet) (_oldFormula _oldComputed : Str)
    (oldDeps : List (Int × Int)) (newContent : Str) : Except Exn Cell :=
  match updateDependencies oldDeps newContent with
  | Except.error e => Except.error e
  | Except.ok deps => Except.ok (Cell.FormulaCell newContent (evaluate s newContent) deps)

end FormulaCell

namespace Spreadsheet

open FormulaCell

/-- The call `formulaCell->evaluate()` on the cell stored at `(r, c)`. -/
def evaluateAt (s : Spreadsheet) (r c : Int) : Spreadsheet :=
  match s.grid r c with
  | some (Cell.FormulaCell formula _ deps) =>
    s.setAt r c (some (Cell.FormulaCell formula (evaluate s formula) deps))
  | _ => s

/-- Body of the inner loop of `recalculateDependencies` at grid position `(r, c)`. -/
def recalculateCell (row col : Int) (s : Spreadsheet) (r c : Int) : Spreadsheet :=
  match s.grid r c with
  | some (Cell.FormulaCell _ _ deps) =>
    if deps.any (fun d => d.1 = row ∧ d.2 = col) then s.evaluateAt r c else s
  | _ => s

/-- The member `Spreadsheet::recalculateDependencies`. -/
def recalculateDependencies (s : Spreadsheet) (row col : Int) : Spreadsheet :=
  (List.range s.totalRows).foldl (fun s1 (r : Nat) =>
    (List.range s.totalCols).foldl
      (fun s2 (c : Nat) => recalculateCell row col s2 (r : Int) (c : Int)) s1) s

/-- The value-cell branch of `setCellContent`: the cell built for a text that is not
a formula. -/
def classifyValue (content : Str) : Cell :=
  if '.' ∈ content then
    match stod content with
    | Except.ok d => Cell.DoubleValueCell d
    | Except.error _ => Cell.StringValueCell content
  else
    match stoi content with
    | Except.ok i => Cell.IntValueCell i
    | Except.error _ =>
      match stod content with
      | Except.ok d => Cell.DoubleValueCell d
      | Except.error _ => Cell.StringValueCell content

/-- The member `Spreadsheet::setCellContent`. -/
def setCellContent (s : Spreadsheet) (row col : Int) (content : Str) :
    Except Exn Spreadsheet :=
  if row < 0 ∨ row ≥ s.totalRows ∨ col < 0 ∨ col ≥ s.totalCols then
    Except.error Exn.out_of_range
  else if content = [] then
    Except.ok ((s.setAt row col none).recalculateDependencies row col)
  else if content.head? = some '@' ∧ ')' ∈ content then
    match FormulaCell.new s content with
    | Except.error e => Except.error e
    | Except.ok formulaCell => Except.ok ((s.setAt row col (some formulaCell)).evaluateAt row col)
  else if content.head? = some '=' then
    match FormulaCell.new s content with
    | Except.error e => Except.error e
    | Except.ok formulaCell =>
      Except.ok (((s.setAt row col (some formulaCell)).evaluateAt row col).recalculateDependencies
        row col)
  else
    Except.ok ((s.setAt row col (some (classifyValue content))).recalculateDependencies row col)

end Spreadsheet

/-! ## Specification-side notions used in the statements -/

namespace FormulaCell

/-- Ordinary arithmetic of one operator token (division unguarded). -/
def arith (op : Str) (a b : ℚ) : ℚ :=
  if op = ['+'] then a + b
  else if op = ['-'] then a - b
  else if op = ['*'] then a * b
  else a / b

/-- The value `(...((v0 op1 v1) op2 v2)... opn vn)`. -/
def leftFold (v0 : ℚ) (rest : List (Str × ℚ)) : ℚ :=
  rest.foldl (fun acc p => arith p.1 acc p.2) v0

/-- A token that is a numeric literal of value `v`: neither an operator nor
reference-shaped, and converted to `v` by `stod`. -/
def IsLiteral (token : Str) (v : ℚ) : Prop :=
  isOperator token = false ∧ isCellReference token = false ∧ stod token = Except.ok v

instance (token : Str) (v : ℚ) : Decidable (IsLiteral token v) := by
  unfold IsLiteral
  infer_instance

/-- The function names accepted by `evaluate`. -/
def recognisedNames : List Str :=
  ["SUM".toList, "Sum".toList, "AVER".toList, "Aver".toList, "MAX".toList, "Max".toList,
    "MIN".toList, "Min".toList, "STDDEV".toList, "Stddev".toList]

/-- A token free of operator characters and of white space. -/
def PlainToken (t : Str) : Prop :=
  ∀ c ∈ t, isspace c = false ∧ c ≠ '+' ∧ c ≠ '-' ∧ c ≠ '*' ∧ c ≠ '/'

/-- The token sequence `t0 op1 t1 ... opn tn`. -/
def interleave (t0 : Str) (rest : List (Str × Str × ℚ)) : List Str :=
  t0 :: rest.flatMap (fun x => [x.1, x.2.1])

/-- The cells of the rectangle spanned by a range text `S..E`, in visiting order. -/
def rangeCells (range : Str) : List (Int × Int) :=
  match parseRange range with
  | Except.error _ => []
  | Except.ok (start, stop) =>
    match Spreadsheet.parseCellReference start, Spreadsheet.parseCellReference stop with
    | Except.ok (startRow, startCol), Except.ok (endRow, endCol) =>
      (intRange startRow endRow).flatMap (fun r => (intRange startCol endCol).map (fun c => (r, c)))
    | _, _ => []

/-- The cells a formula text refers to: the rectangle of a range function, or the
reference-shaped operands of an arithmetic expression. -/
def readCells (formula : Str) : List (Int × Int) :=
  if isFunction formula then
    match parseFunctionAndRange formula with
    | Except.ok (_, range) => rangeCells range
    | Except.error _ => []
  else if formula.head? = some '=' then
    (tokenize (formula.drop 1)).filterMap (fun t =>
      if isCellReference t then (Spreadsheet.parseCellReference t).toOption else none)
  else []

end FormulaCell

namespace Spreadsheet

/-- Displayed content of the cell at a coordinate, `none` for a null or out-of-grid cell. -/
def contentAt (s : Spreadsheet) (p : Int × Int) : Option Str :=
  (s.getCell p.1 p.2).map Cell.getContent

/-- Whether a slot holds a formula cell whose dependency list contains `(row, col)`. -/
def dependsOn (cell : Option Cell) (row col : Int) : Bool :=
  match cell with
  | some (Cell.FormulaCell _ _ deps) => deps.any (fun d => d.1 = row ∧ d.2 = col)
  | _ => false

/-- Whether the cell at an in-grid coordinate is a formula cell. -/
def isFormulaAt (s : Spreadsheet) (p : Int × Int) : Bool :=
  match s.getCell p.1 p.2 with
  | some cell => cell.isFormula
  | none => false

/-- The coordinates of the grid in the row-major order of the recalculation scan. -/
def scanOrder (s : Spreadsheet) : List (Int × Int) :=
  (List.range s.totalRows).flatMap (fun (r : Nat) =>
    (List.range s.totalCols).map (fun (c : Nat) => ((r : Int), (c : Int))))

/-- A sequence of `setCellContent` calls, each edit being `(row, col, text)`. -/
def setAll (s : Spreadsheet) : List (Int × Int × Str) → Except Exn Spreadsheet
  | [] => Except.ok s
  | e :: rest =>
    match s.setCellContent e.1 e.2.1 e.2.2 with
    | Except.error x => Except.error x
    | Except.ok s1 => setAll s1 rest

/-- An observation of the sheet reached from the fresh 21 x 8 sheet of `main` by a
sequence of edits. -/
def observeAfter {α : Type} (edits : List (Int × Int × Str)) (k : Spreadsheet → α) :
    Except Exn α :=
  match setAll (create 21 8) edits with
  | Except.error x => Except.error x
  | Except.ok s => Except.ok (k s)

/-- The sheet with `A1 = 5` and `B1 = "=A1+1"` (cached `6.00`). -/
def sampleDirect : Spreadsheet :=
  ((create 21 8).setAt 0 0 (some (Cell.IntValueCell 5))).setAt 0 1
    (some (Cell.FormulaCell "=A1+1".toList "6.00".toList [(0, 0)]))

/-- The sheet with `A1 = 1`, `B1 = "=A1+1"` (cached `2.00`) and `C1 = "=A1+B1"`
(cached `3.00`). -/
def sampleChain : Spreadsheet :=
  (((create 21 8).setAt 0 0 (some (Cell.IntValueCell 1))).setAt 0 1
    (some (Cell.FormulaCell "=A1+1".toList "2.00".toList [(0, 0)]))).setAt 0 2
    (some (Cell.FormulaCell "=A1+B1".toList "3.00".toList [(0, 0), (0, 1)]))

/-- Strictly earlier in the row-major scan. -/
def scanBefore (p q : Int × Int) : Prop :=
  p.1 < q.1 ∨ (p.1 = q.1 ∧ p.2 < q.2)

instance (p q : Int × Int) : Decidable (scanBefore p q) := by
  unfold scanBefore
  infer_instance

/-- A slot after `evaluate()` has been called on it against the sheet `s`. -/
def reeval (s : Spreadsheet) (cell : Option Cell) : Option Cell :=
  match cell with
  | some (Cell.FormulaCell formula _ deps) =>
    some (Cell.FormulaCell formula (FormulaCell.evaluate s formula) deps)
  | x => x

/-- The sheet `t` differs from `s` at most in cached values of formula cells whose
dependency list contains `(row, col)`. -/
def Frame (row col : Int) (s t : Spreadsheet) : Prop :=
  t.totalRows = s.totalRows ∧ t.totalCols = s.totalCols ∧
  ∀ r c, t.grid r c = s.grid r c ∨
    (dependsOn (s.grid r c) row col = true ∧
      ∃ f cv cv1 deps, s.grid r c = some (Cell.FormulaCell f cv deps) ∧
        t.grid r c = some (Cell.FormulaCell f cv1 deps))

end Spreadsheet

/-! ## Specification-side notions for the range functions -/

namespace FormulaCell

/-- The cells of the rectangle `[startRow..endRow] x [startCol..endCol]`, row by row. -/
def rectangle (startRow startCol endRow endCol : Int) : List (Int × Int) :=
  (intRange startRow endRow).flatMap (fun r => (intRange startCol endCol).map (fun c => (r, c)))

/-- The number the displayed content of a cell parses to, if it parses. -/
def parsedNumber (s : Spreadsheet) (p : Int × Int) : Option ℚ :=
  match s.contentAt p with
  | none => none
  | some ct => (stod ct).toOption

/-- The quantity `mean(x^2) - mean(x)^2` of a list of values. -/
def meanSquareMinusSquareMean (values : List ℚ) : ℚ :=
  (values.map (fun x => x * x)).sum / (values.length : ℚ)
    - (values.sum / (values.length : ℚ)) * (values.sum / (values.length : ℚ))

end FormulaCell


/-! ## Column labels -/

namespace Spreadsheet

/-- The loop of `getColumnLabel`; the first argument bounds the number of iterations. -/
def getColumnLabelLoop : Nat → Int → Str → Str
  | 0, _, label => label
  | fuel + 1, col, label =>
    if col ≥ 0 then
      getColumnLabelLoop fuel (col / 26 - 1) (Char.ofNat ((col % 26).toNat + 65) :: label)
    else label

/-- The member `Spreadsheet::getColumnLabel`. The loop variable strictly decreases while
it is non-negative, so `col + 1` iterations always reach the exit of the loop. -/
def getColumnLabel (col : Int) : Str :=
  getColumnLabelLoop (col.toNat + 1) col []

end Spreadsheet


/-! ## HW1: the first variant of the evaluator

A shallow embedding of `src/HW1/FormulaParser.cpp`, `src/HW1/Cell.cpp` and the parts of
`src/HW1/Spreadsheet.cpp` the evaluator calls. `Cell::getCellContent` evaluates a formula
cell by a fresh `FormulaParser`, which in turn reads cells through `getCellContent`; the
functions of the parser therefore take the displayed-content function `disp` of the cells
as an argument, and `Cell.getCellContent` ties the knot with a bound on the nesting depth.
String lengths are taken to fit an `int`. -/

namespace HW1

/-- Ways in which a call fails to return a value. -/
inductive Fault where
  | exception (e : Exn)
  | unbounded_recursion
  | out_of_bounds
  | signed_overflow
  | not_finite
  deriving DecidableEq, Repr

/-- The enumeration `Cell::CellType`. -/
inductive CellType where
  | EMPTY
  | STRING
  | NUMBER
  | FORMULA
  deriving DecidableEq, Repr

/-- State of a `Cell` object (its position and back pointer apart). -/
structure Cell where
  content : Str
  type : CellType
  computedContent : Str
  deriving DecidableEq

/-- State of a `Spreadsheet` object: a `totalRows x totalCols` vector of vectors. -/
structure Spreadsheet where
  totalRows : Nat
  totalCols : Nat
  grid : Nat → Nat → Cell

/-- Trailing zeros removed. -/
def stripTrailingZeros (ds : Str) : Str :=
  (ds.reverse.dropWhile (fun c => c = '0')).reverse

/-- The decimal exponent `floor(log10 a)` of a positive rational. -/
def decimalExponent (a : ℚ) : Int :=
  if 1 ≤ a then (Nat.log 10 (a.num.toNat / a.den) : Int)
  else -(Nat.clog 10 ((a.den + a.num.toNat - 1) / a.num.toNat) : Int)

/-- Rendering by `ostream << double` with `precision(p)` in the default float format
(`%g`): `p` significant digits, trailing zeros removed, scientific notation when the
decimal exponent is below -4 or at least `p`. -/
def formatGeneral (p : Nat) (q : ℚ) : Str :=
  if q = 0 then ['0']
  else
    let e0 := decimalExponent |q|
    let m0 := roundHalfEven (scale10 |q| ((p : Int) - 1 - e0))
    let m := if m0 = 10 ^ p then 10 ^ (p - 1) else m0
    let x : Int := if m0 = 10 ^ p then e0 + 1 else e0
    let digits := padZeros p (Nat.toDigits 10 m)
    let body :=
      if x < -4 ∨ x ≥ (p : Int) then
        let frac := stripTrailingZeros (digits.drop 1)
        digits.take 1 ++ (if frac = [] then [] else '.' :: frac)
          ++ 'e' :: (if x < 0 then '-' else '+') :: padZeros 2 (Nat.toDigits 10 x.natAbs)
      else if x ≥ 0 then
        let frac := stripTrailingZeros (digits.drop (x.toNat + 1))
        digits.take (x.toNat + 1) ++ (if frac = [] then [] else '.' :: frac)
      else
        '0' :: '.' :: stripTrailingZeros (List.replicate ((-x).toNat - 1) '0' ++ digits)
    if q < 0 then '-' :: body else body

/-- Conversion of an `int` to `size_t`. -/
def toSizeT (i : Int) : Nat := (i % 2 ^ 64).toNat

/-- The member `find(char)` stored in an `int`: the index, or -1 for `npos`. -/
def findCharInt (c : Char) (s : Str) : Int :=
  match findChar c s with
  | some i => (i : Int)
  | none => -1

/-- The member `find("..")` stored in an `int`: the index, or -1 for `npos`. -/
def findDotDotInt (s : Str) : Int :=
  match findDotDot s with
  | some i => (i : Int)
  | none => -1

/-- The member `substr(pos, n)`, which throws `out_of_range` when `pos` exceeds the
length. -/
def substrChecked (s : Str) (pos n : Nat) : Except Fault Str :=
  if pos > s.length then Except.error (Fault.exception Exn.out_of_range)
  else Except.ok ((s.drop pos).take n)

/-- The conversion `std::stod` as a call that may fail. -/
def stodF (s : Str) : Except Fault ℚ :=
  match stod s with
  | Except.ok v => Except.ok v
  | Except.error e => Except.error (Fault.exception e)

/-- The conversion `std::stoi` as a call that may fail. -/
def stoiF (s : Str) : Except Fault Int :=
  match stoi s with
  | Except.ok v => Except.ok v
  | Except.error e => Except.error (Fault.exception e)

namespace Cell

/-- The member `Cell::isFormula`. -/
def isFormula (c : Cell) : Bool :=
  match c.content with
  | ch :: _ => ch = '='
  | [] => false

end Cell

namespace Spreadsheet

/-- The constructor `Spreadsheet::Spreadsheet(row, col)`: every cell is empty. -/
def create (rows cols : Nat) : Spreadsheet :=
  { totalRows := rows, totalCols := cols,
    grid := fun _ _ => { content := [], type := CellType.EMPTY, computedContent := [] } }

/-- The loop of `columnToIndex` in 32-bit `int` arithmetic. -/
def columnToIndexLoop : Str → Int → Except Fault Int
  | [], index => Except.ok index
  | ch :: rest, index =>
    let next := index * 26 + ((ch.toNat : Int) - 65 + 1)
    if next < -2147483648 ∨ 2147483647 < next then Except.error Fault.signed_overflow
    else columnToIndexLoop rest next

/-- The member `Spreadsheet::columnToIndex`. -/
def columnToIndex (column : Str) : Except Fault Int :=
  match columnToIndexLoop column 0 with
  | Except.error f => Except.error f
  | Except.ok index => Except.ok (index - 1)

/-- The member `Spreadsheet::getCellValue`: an unchecked index into the grid. -/
def getCellValue (s : Spreadsheet) (row col : Int) : Except Fault Cell :=
  if 0 ≤ row ∧ row < s.totalRows ∧ 0 ≤ col ∧ col < s.totalCols then
    Except.ok (s.grid row.toNat col.toNat)
  else Except.error Fault.out_of_bounds

/-- The member `Spreadsheet::getCellContentByOperand`. -/
def getCellContentByOperand (disp : Cell → Except Fault Str) (s : Spreadsheet) (operand : Str) :
    Except Fault Str :=
  let column := operand.filter isalpha
  let row_str := operand.filter (fun ch => !isalpha ch && isdigit ch)
  match stoiF row_str with
  | Except.error f => Except.error f
  | Except.ok n =>
    match columnToIndex column with
    | Except.error f => Except.error f
    | Except.ok col =>
      let row := n - 1
      if row ≥ 0 ∧ col ≥ 0 ∧ row < s.totalRows ∧ col < s.totalCols then
        disp (s.grid row.toNat col.toNat)
      else Except.ok "INVALID".toList

end Spreadsheet

namespace FormulaParser

/-- The member `FormulaParser::convertCellReference`: `none` when it returns false. -/
def convertCellReference (ref : Str) : Except Fault (Option (Int × Int)) :=
  let colPart := ref.filter isalpha
  let rowPart := ref.filter (fun ch => !isalpha ch && isdigit ch)
  if colPart = [] ∨ rowPart = [] then Except.ok none
  else
    match Spreadsheet.columnToIndex colPart with
    | Except.error f => Except.error f
    | Except.ok col =>
      match stoiF rowPart with
      | Except.error f => Except.error f
      | Except.ok n =>
        if n - 1 ≥ 0 ∧ col ≥ 0 then Except.ok (some (n - 1, col)) else Except.ok none

/-- The member `FormulaParser::isCellReference`. -/
def isCellReference (token : Str) : Bool :=
  if token = [] then false
  else
    let i := (token.takeWhile isalpha).length
    match token.drop i with
    | [] => false
    | d :: rest => if i = 0 ∨ !isdigit d then false else rest.all isdigit

/-- The scanning loop of `isNumber`; the flag records a decimal point already seen. -/
def isNumberLoop : Str → Bool → Bool
  | [], _ => true
  | c :: rest, decimalPoint =>
    if isdigit c then isNumberLoop rest decimalPoint
    else if c = '.' ∧ decimalPoint = false then isNumberLoop rest true
    else false

/-- The member `FormulaParser::isNumber`. -/
def isNumber (token : Str) : Bool :=
  match token with
  | [] => false
  | c :: rest => if c = '+' ∨ c = '-' then isNumberLoop rest false else isNumberLoop (c :: rest) false

/-- The member `FormulaParser::isOperator`. -/
def isOperator (token : Str) : Bool :=
  token = ['+'] || token = ['-'] || token = ['*'] || token = ['/']

/-- The member `FormulaParser::applyOperator`. -/
def applyOperator (a b : ℚ) (op : Str) : ℚ :=
  if op = ['+'] then a + b
  else if op = ['-'] then a - b
  else if op = ['*'] then a * b
  else if op = ['/'] then
    if b = 0 then 0 else a / b
  else 0

/-- The member `FormulaParser::getNumericValue`. -/
def getNumericValue (disp : Cell → Except Fault Str) (s : Spreadsheet) (token : Str) :
    Except Fault ℚ :=
  if isNumber token then stodF token
  else if isCellReference token then
    match s.getCellContentByOperand disp token with
    | Except.error f => Except.error f
    | Except.ok cellContent =>
      if isNumber cellContent then stodF cellContent else Except.ok 0
  else Except.ok 0

/-- State of the scanning loop of the HW1 `tokenize`: the tokens and the pending token. -/
def tokenizeStep (st : List Str × Str) (ch : Char) : List Str × Str :=
  if isspace ch then
    (if st.2 ≠ [] then st.1 ++ [st.2] else st.1, [])
  else if ch = '+' ∨ ch = '-' ∨ ch = '*' ∨ ch = '/' then
    ((if st.2 ≠ [] then st.1 ++ [st.2] else st.1) ++ [[ch]], [])
  else (st.1, st.2 ++ [ch])

/-- The member `FormulaParser::tokenize`. -/
def tokenize (formula : Str) : List Str :=
  let st := formula.foldl tokenizeStep ([], [])
  if st.2 ≠ [] then st.1 ++ [st.2] else st.1

/-- One iteration of the loop of `evaluateExpression`, on `(result, currentOp)`. -/
def evaluateStep (disp : Cell → Except Fault Str) (s : Spreadsheet) (st : ℚ × Str)
    (token : Str) : Except Fault (ℚ × Str) :=
  if isOperator token then Except.ok (st.1, token)
  else
    match getNumericValue disp s token with
    | Except.error f => Except.error f
    | Except.ok value =>
      if st.2 = [] then Except.ok (value, st.2)
      else Except.ok (applyOperator st.1 value st.2, st.2)

/-- The loop of `evaluateExpression` from a given state. -/
def evaluateLoop (disp : Cell → Except Fault Str) (s : Spreadsheet) :
    ℚ × Str → List Str → Except Fault (ℚ × Str)
  | st, [] => Except.ok st
  | st, token :: rest =>
    match evaluateStep disp s st token with
    | Except.error f => Except.error f
    | Except.ok st1 => evaluateLoop disp s st1 rest

/-- The member `FormulaParser::evaluateExpression`. -/
def evaluateExpression (disp : Cell → Except Fault Str) (s : Spreadsheet) (tokens : List Str) :
    Except Fault ℚ :=
  match evaluateLoop disp s (0, []) tokens with
  | Except.error f => Except.error f
  | Except.ok st => Except.ok st.1

/-- The cells visited by the nested loops of the range functions, in visiting order. -/
def rangeCells (startRow startCol endRow endCol : Int) : List (Int × Int) :=
  (FormulaCell.intRange startRow endRow).flatMap (fun r =>
    (FormulaCell.intRange startCol endCol).map (fun c => (r, c)))

/-- The nested loops of a range function: the state is updated with the displayed
content of each cell of the range in turn. -/
def rangeLoop {σ : Type} (disp : Cell → Except Fault Str) (s : Spreadsheet)
    (step : σ → Str → Except Fault σ) : σ → List (Int × Int) → Except Fault σ
  | st, [] => Except.ok st
  | st, p :: rest =>
    match s.getCellValue p.1 p.2 with
    | Except.error f => Except.error f
    | Except.ok cell =>
      match disp cell with
      | Except.error f => Except.error f
      | Except.ok content =>
        match step st content with
        | Except.error f => Except.error f
        | Except.ok st1 => rangeLoop disp s step st1 rest

/-- The member `FormulaParser::calculateSum`. -/
def calculateSum (disp : Cell → Except Fault Str) (s : Spreadsheet)
    (startRow startCol endRow endCol : Int) : Except Fault ℚ :=
  rangeLoop disp s (fun (sum : ℚ) content =>
      if isNumber content then
        match stodF content with
        | Except.error f => Except.error f
        | Except.ok v => Except.ok (sum + v)
      else Except.ok sum)
    0 (rangeCells startRow startCol endRow endCol)

/-- The member `FormulaParser::calculateMax`. -/
def calculateMax (disp : Cell → Except Fault Str) (s : Spreadsheet)
    (startRow startCol endRow endCol : Int) : Except Fault ℚ :=
  rangeLoop disp s (fun (maxVal : ℚ) content =>
      if isNumber content then
        match stodF content with
        | Except.error f => Except.error f
        | Except.ok v => Except.ok (if maxVal < v then v else maxVal)
      else Except.ok maxVal)
    (-1000000000) (rangeCells startRow startCol endRow endCol)

/-- The member `FormulaParser::calculateMin`. -/
def calculateMin (disp : Cell → Except Fault Str) (s : Spreadsheet)
    (startRow startCol endRow endCol : Int) : Except Fault ℚ :=
  rangeLoop disp s (fun (minVal : ℚ) content =>
      if isNumber content then
        match stodF content with
        | Except.error f => Except.error f
        | Except.ok v => Except.ok (if v < minVal then v else minVal)
      else Except.ok minVal)
    1000000000 (rangeCells startRow startCol endRow endCol)

/-- The member `FormulaParser::calculateStddev`; the state of the loops is
`(sum, sumSq, count)`. -/
def calculateStddev (disp : Cell → Except Fault Str) (s : Spreadsheet)
    (startRow startCol endRow endCol : Int) : Except Fault ℚ :=
  match rangeLoop disp s (fun (st : ℚ × ℚ × Nat) content =>
      if isNumber content then
        match stodF content with
        | Except.error f => Except.error f
        | Except.ok v => Except.ok (st.1 + v, st.2.1 + v * v, st.2.2 + 1)
      else Except.ok st)
    (0, 0, 0) (rangeCells startRow startCol endRow endCol) with
  | Except.error f => Except.error f
  | Except.ok st =>
    if st.2.2 = 0 then Except.ok 0
    else
      let mean := st.1 / (st.2.2 : ℚ)
      Except.ok (sqrtModel (st.2.1 / (st.2.2 : ℚ) - mean * mean))

/-- The member `FormulaParser::countCells`. -/
def countCells (disp : Cell → Except Fault Str) (s : Spreadsheet)
    (startRow startCol endRow endCol : Int) : Except Fault Nat :=
  rangeLoop disp s (fun (count : Nat) content =>
      if content ≠ [] then Except.ok (count + 1) else Except.ok count)
    0 (rangeCells startRow startCol endRow endCol)

/-- Dispatch on the function name in `evaluateFunction`. -/
def applyFunction (disp : Cell → Except Fault Str) (s : Spreadsheet) (functionName : Str)
    (startRow startCol endRow endCol : Int) : Except Fault ℚ :=
  if functionName = "Sum".toList ∨ functionName = "sum".toList then
    calculateSum disp s startRow startCol endRow endCol
  else if functionName = "Aver".toList ∨ functionName = "aver".toList then
    match calculateSum disp s startRow startCol endRow endCol with
    | Except.error f => Except.error f
    | Except.ok sum =>
      match countCells disp s startRow startCol endRow endCol with
      | Except.error f => Except.error f
      | Except.ok count =>
        if count = 0 then Except.error Fault.not_finite else Except.ok (sum / (count : ℚ))
  else if functionName = "Max".toList ∨ functionName = "max".toList then
    calculateMax disp s startRow startCol endRow endCol
  else if functionName = "Min".toList ∨ functionName = "min".toList then
    calculateMin disp s startRow startCol endRow endCol
  else if functionName = "Stddev".toList ∨ functionName = "stddev".toList then
    calculateStddev disp s startRow startCol endRow endCol
  else Except.ok 0

/-- The member `FormulaParser::evaluateFunction`. -/
def evaluateFunction (disp : Cell → Except Fault Str) (s : Spreadsheet) (formula : Str) :
    Except Fault ℚ :=
  let openParen := findCharInt '(' formula
  let closeParen := findCharInt ')' formula
  match substrChecked formula 1 (toSizeT (openParen - 1)) with
  | Except.error f => Except.error f
  | Except.ok functionName =>
    match substrChecked formula (toSizeT (openParen + 1))
        (toSizeT (closeParen - openParen - 1)) with
    | Except.error f => Except.error f
    | Except.ok arguments =>
      let rangeSep := findDotDotInt arguments
      match substrChecked arguments 0 (toSizeT rangeSep) with
      | Except.error f => Except.error f
      | Except.ok startCell =>
        match substrChecked arguments (toSizeT (rangeSep + 2)) (2 ^ 64 - 1) with
        | Except.error f => Except.error f
        | Except.ok endCell =>
          match convertCellReference startCell with
          | Except.error f => Except.error f
          | Except.ok none => Except.ok 0
          | Except.ok (some (startRow, startCol)) =>
            match convertCellReference endCell with
            | Except.error f => Except.error f
            | Except.ok none => Except.ok 0
            | Except.ok (some (endRow, endCol)) =>
              applyFunction disp s functionName startRow startCol endRow endCol

/-- The member `FormulaParser::parseFormula`. -/
def parseFormula (disp : Cell → Except Fault Str) (s : Spreadsheet) (formula : Str) :
    Except Fault ℚ :=
  match formula with
  | [] => Except.ok 0
  | c :: rest =>
    if c = '@' then evaluateFunction disp s formula
    else if c = '=' then evaluateExpression disp s (tokenize rest)
    else evaluateExpression disp s (tokenize formula)

end FormulaParser

namespace Cell

/-- The member `Cell::getCellContent` of a cell of the sheet `s`; the first argument
bounds the depth of nested formula evaluations. -/
def getCellContent : Nat → Spreadsheet → Cell → Except Fault Str
  | 0, _, _ => Except.error Fault.unbounded_recursion
  | fuel + 1, s, cell =>
    if cell.computedContent ≠ [] then Except.ok cell.computedContent
    else if cell.isFormula then
      match FormulaParser.parseFormula (getCellContent fuel s) s cell.content with
      | Except.error f => Except.error f
      | Except.ok result => Except.ok (formatGeneral 6 result)
    else Except.ok cell.content

end Cell

/-- The sheet of `main` (254 x 63) in which the text `-` has been typed into A1. -/
def minusSheet : Spreadsheet :=
  { totalRows := 254, totalCols := 63,
    grid := fun r c =>
      if r = 0 ∧ c = 0 then { content := ['-'], type := CellType.STRING, computedContent := [] }
      else { content := [], type := CellType.EMPTY, computedContent := [] } }

/-- The sheet of `main` with `A1 = 4` and `B1 = "=A1/8"`. -/
def formulaSheet : Spreadsheet :=
  { totalRows := 254, totalCols := 63,
    grid := fun r c =>
      if r = 0 ∧ c = 0 then { content := ['4'], type := CellType.NUMBER, computedContent := [] }
      else if r = 0 ∧ c = 1 then
        { content := "=A1/8".toList, type := CellType.FORMULA, computedContent := [] }
      else { content := [], type := CellType.EMPTY, computedContent := [] } }

end HW1


/-! ## HW2: column indices, the cell container and persistence

Members whose result depends on the range of `int` or on the extent of the cell
container. The ways in which they fail to return are those of `HW1.Fault`: a C++
exception, a signed overflow, an access outside an allocated array. Allocation failure
is outside the model. -/

/-- The C library function `toupper` in the C locale, on character codes. -/
def toupper (c : Char) : Nat :=
  if 97 ≤ c.toNat ∧ c.toNat ≤ 122 then c.toNat - 32 else c.toNat

namespace Spreadsheet

/-- The loop of `Spreadsheet::columnToIndex` (HW2) in 32-bit `int` arithmetic. -/
def columnToIndexLoop : Str → Int → Except HW1.Fault Int
  | [], index => Except.ok index
  | ch :: rest, index =>
    if isalpha ch then
      let next := index * 26 + ((toupper ch : Int) - 65 + 1)
      if next < -2147483648 ∨ 2147483647 < next then Except.error HW1.Fault.signed_overflow
      else columnToIndexLoop rest next
    else Except.error (HW1.Fault.exception Exn.invalid_argument)

/-- The member `Spreadsheet::columnToIndex` (HW2). -/
def columnToIndex (column : Str) : Except HW1.Fault Int :=
  match columnToIndexLoop column 0 with
  | Except.error f => Except.error f
  | Except.ok index => Except.ok (index - 1)

end Spreadsheet

/-- An upper-case letter `A..Z`. -/
def isUpper (c : Char) : Bool :=
  65 ≤ c.toNat && c.toNat ≤ 90

/-- The positional sum `sum over i of (l_i + 1) * 26^(n-1-i)` of a label `l_0 ... l_{n-1}`,
with `A = 0, ..., Z = 25`. -/
def positionalSum : Str → Int
  | [] => 0
  | ch :: rest => ((ch.toNat : Int) - 65 + 1) * 26 ^ rest.length + positionalSum rest

/-- Spreadsheet-style bijective base-26 number of a label. -/
def bijectiveBase26 (label : Str) : Int :=
  positionalSum label - 1

/-- Strictly earlier in the lexicographic order of character codes. -/
def lexBefore : Str → Str → Bool
  | [], [] => false
  | [], _ :: _ => true
  | _ :: _, [] => false
  | x :: xs, y :: ys => decide (x.toNat < y.toNat) || (decide (x = y) && lexBefore xs ys)

/-- Strictly earlier in the length-then-lexicographic order of labels. -/
def labelBefore (a b : Str) : Bool :=
  decide (a.length < b.length) || (decide (a.length = b.length) && lexBefore a b)

/-- State of a `Dynamic2DVector<shared_ptr<Cell>>`: its extent and its slots. -/
structure Dynamic2DVector where
  rows : Int
  cols : Int
  data : Int → Int → Option Cell

namespace Dynamic2DVector

/-- The constructor: a `rows x cols` array of null pointers. -/
def new (initialRows initialCols : Int) : Dynamic2DVector :=
  { rows := initialRows, cols := initialCols, data := fun _ _ => none }

/-- The store `data[i][j] = x`; outside the extent it is an access outside the
allocated arrays. -/
def store (v : Dynamic2DVector) (i j : Int) (x : Option Cell) :
    Except HW1.Fault Dynamic2DVector :=
  if 0 ≤ i ∧ i < v.rows ∧ 0 ≤ j ∧ j < v.cols then
    Except.ok { v with data := fun r c => if r = i ∧ c = j then x else v.data r c }
  else Except.error HW1.Fault.out_of_bounds

/-- The copying loop of `resize`: every slot of `src` is stored at the same index of
`temp`. -/
def copyLoop (src temp : Dynamic2DVector) : Except HW1.Fault Dynamic2DVector :=
  (List.range src.rows.toNat).foldlM (fun t (i : Nat) =>
    (List.range src.cols.toNat).foldlM
      (fun t1 (j : Nat) => t1.store (i : Int) (j : Int) (src.data (i : Int) (j : Int))) t) temp

/-- The member `Dynamic2DVector::resize`. -/
def resize (v : Dynamic2DVector) (newRows newCols : Int) : Except HW1.Fault Dynamic2DVector :=
  if newRows ≤ 0 ∨ newCols ≤ 0 then Except.error (HW1.Fault.exception Exn.invalid_argument)
  else if newRows ≤ v.rows ∧ newCols ≤ v.cols then Except.ok v
  else copyLoop v (new newRows newCols)

/-- The growth check of the non-const member `at(row, col)`: the container after it. -/
def grow (v : Dynamic2DVector) (row col : Int) : Except HW1.Fault Dynamic2DVector :=
  if row ≥ v.rows ∨ col ≥ v.cols then
    if 2147483647 < row + 10 ∨ 2147483647 < col + 5 then
      Except.error HW1.Fault.signed_overflow
    else v.resize (max v.rows (row + 10)) (max v.cols (col + 5))
  else Except.ok v

/-- The assignment `at(row, col) = x` through the non-const member `at`. -/
def assign (v : Dynamic2DVector) (row col : Int) (x : Option Cell) :
    Except HW1.Fault Dynamic2DVector :=
  match v.grow row col with
  | Except.error f => Except.error f
  | Except.ok v1 => v1.store row col x

end Dynamic2DVector

/-- State of a `Spreadsheet` object with the extent of its cell container: the counters
`totalRows`, `totalCols` and the container `grid`. -/
structure SheetStore where
  totalRows : Int
  totalCols : Int
  grid : Dynamic2DVector

namespace SheetStore

/-- The factory `Spreadsheet::create`: a `rows x cols` container whose every slot holds
an empty `ValueCell`. -/
def create (rows cols : Int) : SheetStore :=
  { totalRows := rows, totalCols := cols,
    grid := { rows := rows, cols := cols,
              data := fun i j =>
                if 0 ≤ i ∧ i < rows ∧ 0 ≤ j ∧ j < cols then some (Cell.ValueCell []) else none } }

/-- The initialising loop of `resizeGrid`: a fresh empty cell in every slot outside the
old counters. -/
def initializeNew (oldRows oldCols newRows newCols : Int) (g : Dynamic2DVector) :
    Except HW1.Fault Dynamic2DVector :=
  (List.range newRows.toNat).foldlM (fun g1 (i : Nat) =>
    (List.range newCols.toNat).foldlM (fun g2 (j : Nat) =>
      if (i : Int) ≥ oldRows ∨ (j : Int) ≥ oldCols then
        g2.assign (i : Int) (j : Int) (some (Cell.ValueCell []))
      else Except.ok g2) g1) g

/-- The member `Spreadsheet::resizeGrid`. -/
def resizeGrid (st : SheetStore) (newRows newCols : Int) : Except HW1.Fault SheetStore :=
  if newRows ≤ 0 ∨ newCols ≤ 0 then Except.error (HW1.Fault.exception Exn.invalid_argument)
  else
    match st.grid.resize newRows newCols with
    | Except.error f => Except.error f
    | Except.ok g =>
      match initializeNew st.totalRows st.totalCols newRows newCols g with
      | Except.error f => Except.error f
      | Except.ok g1 => Except.ok { totalRows := newRows, totalCols := newCols, grid := g1 }

/-- The member functions `getTotalRows`, `getTotalCols` and the extent of the container. -/
def dimensions (st : SheetStore) : (Int × Int) × (Int × Int) :=
  ((st.totalRows, st.totalCols), (st.grid.rows, st.grid.cols))

end SheetStore

namespace FileManager

/-- The text written by the inner loop of `FileManager::saveFileAs` (HW2) for row `i`. -/
def rowText (s : Spreadsheet) (i : Int) : Str :=
  (List.range s.totalCols).flatMap (fun (j : Nat) =>
    (match s.getCell i (j : Int) with
      | some cell => cell.getContent
      | none => []) ++
    (if (j : Int) < (s.totalCols : Int) - 1 then [','] else []))

/-- The text written to the file by `FileManager::saveFileAs` (HW2). -/
def saveFileAs (s : Spreadsheet) : Str :=
  (List.range s.totalRows).flatMap (fun (i : Nat) => rowText s (i : Int) ++ ['\n'])

/-- Raw content of the cell at a coordinate, empty for a null cell. -/
def rawAt (s : Spreadsheet) (i j : Int) : Str :=
  match s.getCell i j with
  | some cell => cell.getRawContent
  | none => []

/-- The serialisation of raw contents: for each row the raw content of each cell joined
by `,` and terminated by a newline. -/
def rawSerialisation (s : Spreadsheet) : Str :=
  (List.range s.totalRows).flatMap (fun (i : Nat) =>
    List.intercalate [','] ((List.range s.totalCols).map (fun (j : Nat) => rawAt s (i : Int) (j : Int)))
      ++ ['\n'])

/-- Displayed content of the cell at a coordinate, empty for a null cell. -/
def displayedAt (s : Spreadsheet) (i j : Int) : Str :=
  match s.getCell i j with
  | some cell => cell.getContent
  | none => []

/-- The serialisation of displayed contents, in the same layout. -/
def displayedSerialisation (s : Spreadsheet) : Str :=
  (List.range s.totalRows).flatMap (fun (i : Nat) =>
    List.intercalate [','] ((List.range s.totalCols).map (fun (j : Nat) => displayedAt s (i : Int) (j : Int)))
      ++ ['\n'])

end FileManager

namespace HW1

namespace FileManager

/-- The text written by the inner loop of `FileManager::saveFileAs` (HW1) for row `i`. -/
def rowText (s : Spreadsheet) (i : Nat) : Str :=
  (List.range s.totalCols).flatMap (fun (j : Nat) =>
    (s.grid i j).content ++ (if (j : Int) < (s.totalCols : Int) - 1 then [','] else []))

/-- The text written to the file by `FileManager::saveFileAs` (HW1). -/
def saveFileAs (s : Spreadsheet) : Str :=
  (List.range s.totalRows).flatMap (fun (i : Nat) => rowText s i ++ ['\n'])

end FileManager

end HW1


/-! ## Observations of cells and of the effect of an edit -/

/-- The dynamic type of a cell. -/
inductive CellKind where
  | ValueCell
  | StringValueCell
  | IntValueCell
  | DoubleValueCell
  | FormulaCell
  deriving DecidableEq, Repr

namespace Cell

/-- The dynamic type of a cell object. -/
def kind : Cell → CellKind
  | ValueCell _ => CellKind.ValueCell
  | StringValueCell _ => CellKind.StringValueCell
  | IntValueCell _ => CellKind.IntValueCell
  | DoubleValueCell _ => CellKind.DoubleValueCell
  | FormulaCell _ _ _ => CellKind.FormulaCell

/-- The member `FormulaCell::getDependencies`; a cell of another kind has no dependency
list, which is rendered as the empty list. -/
def getDependencies : Cell → List (Int × Int)
  | FormulaCell _ _ dependencies => dependencies
  | _ => []

end Cell

namespace Spreadsheet

/-- The member `Spreadsheet::setCellContent` with the state it leaves behind: the sheet
when the call is left, and the exception that leaves it, if any. -/
def setCellContentOutcome (s : Spreadsheet) (row col : Int) (content : Str) :
    Spreadsheet × Option Exn :=
  if row < 0 ∨ row ≥ s.totalRows ∨ col < 0 ∨ col ≥ s.totalCols then
    (s, some Exn.out_of_range)
  else if content = [] then
    ((s.setAt row col none).recalculateDependencies row col, none)
  else if content.head? = some '@' ∧ ')' ∈ content then
    match FormulaCell.new s content with
    | Except.error e => (s, some e)
    | Except.ok formulaCell => ((s.setAt row col (some formulaCell)).evaluateAt row col, none)
  else if content.head? = some '=' then
    match FormulaCell.new s content with
    | Except.error e => (s, some e)
    | Except.ok formulaCell =>
      (((s.setAt row col (some formulaCell)).evaluateAt row col).recalculateDependencies
        row col, none)
  else
    ((s.setAt row col (some (classifyValue content))).recalculateDependencies row col, none)

end Spreadsheet


namespace HW1

/-- The sheet of `main` (254 x 63) with `A1 = 1`, `A2 = 2` and the text `x` in A3. -/
def averSheet : Spreadsheet :=
  { totalRows := 254, totalCols := 63,
    grid := fun r c =>
      if r = 0 ∧ c = 0 then { content := ['1'], type := CellType.NUMBER, computedContent := [] }
      else if r = 1 ∧ c = 0 then
        { content := ['2'], type := CellType.NUMBER, computedContent := [] }
      else if r = 2 ∧ c = 0 then
        { content := ['x'], type := CellType.STRING, computedContent := [] }
      else { content := [], type := CellType.EMPTY, computedContent := [] } }

end HW1


namespace HW1

/-- The test `iss >> number && iss.eof()` of `setCellContent` on the text of a cell: a
number in the decimal grammar is read and the reading reaches the end of the text. -/
def streamReadsNumber (content : Str) : Bool :=
  let s0 := splitSign (content.dropWhile isspace)
  let ip := s0.2.takeWhile isdigit
  let s2 := s0.2.dropWhile isdigit
  let fp := match s2 with
    | '.' :: r => r.takeWhile isdigit
    | _ => []
  let s3 := match s2 with
    | '.' :: r => r.dropWhile isdigit
    | _ => s2
  if ip = [] ∧ fp = [] then false
  else
    match s3 with
    | [] => true
    | c :: r =>
      if c = 'e' ∨ c = 'E' then
        decide ((splitSign r).2 ≠ []) && (splitSign r).2.all isdigit
      else false

/-- The pieces returned by the successive calls `getline(stream, piece, delim)` of a
`while` loop on the rest of a stream; `cur` is the piece being read. A last piece that
is not ended by the delimiter is returned only when it is not empty. -/
def getlineLoop (delim : Char) : Str → Str → List Str
  | cur, [] => if cur = [] then [] else [cur]
  | cur, c :: rest =>
    if c = delim then cur :: getlineLoop delim [] rest
    else getlineLoop delim (cur ++ [c]) rest

/-- All pieces read from a text by `while (getline(stream, piece, delim))`. -/
def getlineAll (delim : Char) (text : Str) : List Str :=
  getlineLoop delim [] text

namespace Spreadsheet

/-- The member `Spreadsheet::setCellContent` (HW1): an unchecked index into the grid,
the raw content and the type of the cell are set, its computed content is kept. -/
def setCellContent (s : Spreadsheet) (row col : Int) (content : Str) :
    Except Fault Spreadsheet :=
  if 0 ≤ row ∧ row < s.totalRows ∧ 0 ≤ col ∧ col < s.totalCols then
    Except.ok { s with grid := fun r c =>
      (if r = row.toNat ∧ c = col.toNat then
        { content := content,
          type :=
            (if Cell.isFormula { (s.grid r c) with content := content } then CellType.FORMULA
              else if streamReadsNumber content then CellType.NUMBER
              else CellType.STRING),
          computedContent := (s.grid r c).computedContent }
      else s.grid r c) }
  else Except.error Fault.out_of_bounds

/-- The member `Spreadsheet::clear`: content and type of every cell of the grid are
reset, the computed contents are not touched. -/
def clear (s : Spreadsheet) : Spreadsheet :=
  { s with grid := fun r c =>
      (if r < s.totalRows ∧ c < s.totalCols then
        { content := [], type := CellType.EMPTY,
          computedContent := (s.grid r c).computedContent }
      else s.grid r c) }

end Spreadsheet

namespace FileManager

/-- The inner loop of `loadFile`: the fields of one line are put into the cells of the
row from column `col` on. -/
def loadFields (row : Nat) : Nat → List Str → Spreadsheet → Except Fault Spreadsheet
  | _, [], s => Except.ok s
  | col, cellContent :: rest, s =>
    match s.setCellContent (row : Int) (col : Int) cellContent with
    | Except.error f => Except.error f
    | Except.ok s1 => loadFields row (col + 1) rest s1

/-- The outer loop of `loadFile` from row `row` on. -/
def loadLines : Nat → List Str → Spreadsheet → Except Fault Spreadsheet
  | _, [], s => Except.ok s
  | row, line :: rest, s =>
    match loadFields row 0 (getlineAll ',' line) s with
    | Except.error f => Except.error f
    | Except.ok s1 => loadLines (row + 1) rest s1

/-- The member `FileManager::loadFile` on the text of the file. -/
def loadFile (text : Str) (s : Spreadsheet) : Except Fault Spreadsheet :=
  loadLines 0 (getlineAll '\n' text) s.clear

end FileManager

/-- The 2 x 2 sheet with the text `a,b` in A1. -/
def commaSheet : Spreadsheet :=
  { totalRows := 2, totalCols := 2,
    grid := fun r c =>
      if r = 0 ∧ c = 0 then
        { content := "a,b".toList, type := CellType.STRING, computedContent := [] }
      else { content := [], type := CellType.EMPTY, computedContent := [] } }

/-- The 2 x 2 sheet with `A1 = 1` and the function cell `B1 = "@Sum(A1..A1)"`, whose
computed content `1.00` was set when it was typed. -/
def functionSheet : Spreadsheet :=
  { totalRows := 2, totalCols := 2,
    grid := fun r c =>
      if r = 0 ∧ c = 0 then
        { content := ['1'], type := CellType.NUMBER, computedContent := [] }
      else if r = 0 ∧ c = 1 then
        { content := "@Sum(A1..A1)".toList, type := CellType.FORMULA,
          computedContent := "1.00".toList }
      else { content := [], type := CellType.EMPTY, computedContent := [] } }

/-- The raw contents of the cells of a sheet, row by row. -/
def rawContents (s : Spreadsheet) : List (List Str) :=
  (List.range s.totalRows).map (fun (i : Nat) =>
    (List.range s.totalCols).map (fun (j : Nat) => (s.grid i j).content))

/-- The displayed contents of the cells of a sheet, row by row. -/
def displayedContents (fuel : Nat) (s : Spreadsheet) : List (List (Except Fault Str)) :=
  (List.range s.totalRows).map (fun (i : Nat) =>
    (List.range s.totalCols).map (fun (j : Nat) => Cell.getCellContent fuel s (s.grid i j)))

end HW1

namespace HW1

/-- Two sheets of the same size whose cells inside the grid hold the same raw content
and the same computed content. -/
def SheetAgree (s t : Spreadsheet) : Prop :=
  t.totalRows = s.totalRows ∧ t.totalCols = s.totalCols ∧
  ∀ i j, i < s.totalRows → j < s.totalCols →
    (t.grid i j).content = (s.grid i j).content ∧
    (t.grid i j).computedContent = (s.grid i j).computedContent

/-- No cell of the grid has a comma or a newline in its raw content. -/
def SeparatorFree (s : Spreadsheet) : Prop :=
  ∀ i j, i < s.totalRows → j < s.totalCols →
    ',' ∉ (s.grid i j).content ∧ '\n' ∉ (s.grid i j).content

end HW1


/-! ## Theorems -/

namespace FormulaCell

open Spreadsheet

theorem applyOperator_arith (a b : ℚ) (op : Str) (hop : isOperator op = true)
    (hdiv : op = ['/'] → b ≠ 0) : applyOperator a b op = Except.ok (arith op a b) := by
  unfold applyOperator arith
  by_cases h1 : op = ['+']
  · simp [h1]
  by_cases h2 : op = ['-']
  · simp [h2]
  by_cases h3 : op = ['*']
  · simp [h3]
  by_cases h4 : op = ['/']
  · have hb := hdiv h4
    simp [h4, hb]
  · simp [isOperator, h1, h2, h3, h4] at hop

theorem isOperator_ne_nil (op : Str) (hop : isOperator op = true) : op ≠ [] := by
  intro h
  simp [isOperator, h] at hop

theorem evaluateLoop_pairs (s : Spreadsheet) (rest : List (Str × Str × ℚ))
    (hrest : ∀ x ∈ rest, isOperator x.1 = true ∧ IsLiteral x.2.1 x.2.2 ∧
      (x.1 = ['/'] → x.2.2 ≠ 0)) (acc : ℚ) (cur : Str) :
    ∃ cur1, evaluateLoop s (acc, cur) (rest.flatMap (fun x => [x.1, x.2.1]))
      = Except.ok (leftFold acc (rest.map (fun x => (x.1, x.2.2))), cur1) := by
  induction rest generalizing acc cur with
  | nil => exact ⟨cur, by simp [evaluateLoop, leftFold]⟩
  | cons x xs ih =>
    obtain ⟨hop, ⟨hno, hnr, hv⟩, hdiv⟩ := hrest x (List.mem_cons_self _ _)
    have hxs : ∀ y ∈ xs, isOperator y.1 = true ∧ IsLiteral y.2.1 y.2.2 ∧
        (y.1 = ['/'] → y.2.2 ≠ 0) := fun y hy => hrest y (List.mem_cons_of_mem _ hy)
    obtain ⟨cur1, h1⟩ := ih hxs (arith x.1 acc x.2.2) x.1
    refine ⟨cur1, ?_⟩
    have hne := isOperator_ne_nil x.1 hop
    have happ := applyOperator_arith acc x.2.2 x.1 hop hdiv
    simp only [List.flatMap_cons, List.cons_append, List.nil_append, evaluateLoop, evaluateStep,
      hop, if_true, hno, operandValue, hnr, hv, hne, if_false, happ, List.map_cons, leftFold,
      List.foldl_cons, Bool.false_eq_true]
    simpa [leftFold] using h1

theorem evaluateBody_arith (s : Spreadsheet) (rest : Str) :
    evaluateBody s ('=' :: rest) =
      match evaluateExpression s (tokenize rest) with
      | Except.error e => Except.error e
      | Except.ok result => Except.ok (formatTwoDecimals result) := by
  simp [evaluateBody, isFunction]

theorem evaluate_arith_ok (s : Spreadsheet) (rest : Str) (v : ℚ)
    (h : evaluateExpression s (tokenize rest) = Except.ok v) :
    evaluate s ('=' :: rest) = formatTwoDecimals v := by
  simp [evaluate, evaluateBody_arith, h]

theorem evaluate_arith_error (s : Spreadsheet) (rest : Str) (e : Exn)
    (h : evaluateExpression s (tokenize rest) = Except.error e) :
    evaluate s ('=' :: rest) = "#ERROR".toList := by
  simp [evaluate, evaluateBody_arith, h]

end FormulaCell

namespace Spreadsheet

open FormulaCell

theorem recalculateCell_eq (row col : Int) (s : Spreadsheet) (r c : Int) :
    recalculateCell row col s r c =
      if dependsOn (s.grid r c) row col = true then s.setAt r c (reeval s (s.grid r c))
      else s := by
  unfold recalculateCell dependsOn evaluateAt reeval
  cases h : s.grid r c with
  | none => simp
  | some cell =>
    cases cell <;> simp

theorem Frame.refl (row col : Int) (s : Spreadsheet) : Frame row col s s :=
  ⟨rfl, rfl, fun _ _ => Or.inl rfl⟩

theorem dependsOn_of_frame {row col : Int} {s t : Spreadsheet} (h : Frame row col s t)
    (r c : Int) : dependsOn (t.grid r c) row col = dependsOn (s.grid r c) row col := by
  rcases h.2.2 r c with h1 | ⟨_, f, cv, cv1, deps, hs, ht⟩
  · rw [h1]
  · rw [hs, ht]; rfl

theorem Frame.trans {row col : Int} {s t u : Spreadsheet} (h1 : Frame row col s t)
    (h2 : Frame row col t u) : Frame row col s u := by
  refine ⟨h2.1.trans h1.1, h2.2.1.trans h1.2.1, fun r c => ?_⟩
  rcases h2.2.2 r c with e2 | ⟨d2, f, cv, cv1, deps, ht, hu⟩
  · rw [e2]; exact h1.2.2 r c
  · right
    have hd := dependsOn_of_frame h1 r c
    rw [d2] at hd
    refine ⟨hd.symm, ?_⟩
    rcases h1.2.2 r c with e1 | ⟨_, f0, cv0, cv01, deps0, hs, ht0⟩
    · exact ⟨f, cv, cv1, deps, by rw [← e1]; exact ht, hu⟩
    · rw [ht0] at ht
      cases ht
      exact ⟨f, cv0, cv1, deps, hs, hu⟩

theorem recalculateCell_frame (row col : Int) (s : Spreadsheet) (r c : Int) :
    Frame row col s (recalculateCell row col s r c) := by
  rw [recalculateCell_eq]
  by_cases hd : dependsOn (s.grid r c) row col = true
  · rw [if_pos hd]
    refine ⟨rfl, rfl, fun r1 c1 => ?_⟩
    by_cases hp : r1 = r ∧ c1 = c
    · obtain ⟨rfl, rfl⟩ := hp
      right
      refine ⟨hd, ?_⟩
      cases hg : s.grid r1 c1 with
      | none => rw [hg] at hd; simp [dependsOn] at hd
      | some cell =>
        cases cell with
        | FormulaCell f cv deps =>
          exact ⟨f, cv, evaluate s f, deps, rfl, by simp [setAt, reeval]⟩
        | _ => rw [hg] at hd; simp [dependsOn] at hd
    · left
      simp [setAt, hp]
  · rw [if_neg hd]
    exact Frame.refl row col s

/-- The state of the scan after the coordinates of a list have been visited. -/
theorem scan_frame (row col : Int) (l : List (Int × Int)) (s : Spreadsheet) :
    Frame row col s (l.foldl (fun s1 p => recalculateCell row col s1 p.1 p.2) s) := by
  induction l generalizing s with
  | nil => exact Frame.refl row col s
  | cons p ps ih =>
    exact Frame.trans (recalculateCell_frame row col s p.1 p.2) (ih _)

theorem recalculateCell_other (row col : Int) (s : Spreadsheet) (r c r1 c1 : Int)
    (h : ¬ (r1 = r ∧ c1 = c)) : (recalculateCell row col s r c).grid r1 c1 = s.grid r1 c1 := by
  rw [recalculateCell_eq]
  split
  · simp [setAt, h]
  · rfl

theorem scan_not_mem (row col : Int) (l : List (Int × Int)) (s : Spreadsheet) (q : Int × Int)
    (hq : q ∉ l) :
    (l.foldl (fun s1 p => recalculateCell row col s1 p.1 p.2) s).grid q.1 q.2 = s.grid q.1 q.2 := by
  induction l generalizing s with
  | nil => rfl
  | cons p ps ih =>
    have hne : q ≠ p := fun h => hq (h ▸ List.mem_cons_self _ _)
    have hps : q ∉ ps := fun h => hq (List.mem_cons_of_mem _ h)
    rw [List.foldl_cons, ih _ hps]
    apply recalculateCell_other
    intro h
    exact hne (Prod.ext h.1 h.2)

theorem recalculateDependencies_eq_scan (s : Spreadsheet) (row col : Int) :
    s.recalculateDependencies row col =
      (scanOrder s).foldl (fun s1 p => recalculateCell row col s1 p.1 p.2) s := by
  unfold recalculateDependencies scanOrder
  generalize List.range s.totalRows = rows
  generalize List.range s.totalCols = cols
  generalize s = s0
  induction rows generalizing s0 with
  | nil => rfl
  | cons r rs ih =>
    simp only [List.foldl_cons, List.flatMap_cons, List.foldl_append]
    rw [ih]
    congr 1
    rw [List.foldl_map]

end Spreadsheet

namespace FormulaCell

open Spreadsheet

theorem filterMap_congr_mem {α β : Type} (f g : α → Option β) (l : List α)
    (h : ∀ x ∈ l, f x = g x) : l.filterMap f = l.filterMap g := by
  induction l with
  | nil => rfl
  | cons a as ih =>
    have ha := h a (List.mem_cons_self _ _)
    have has := ih (fun x hx => h x (List.mem_cons_of_mem _ hx))
    simp only [List.filterMap_cons, ha, has]

theorem flatMap_congr_mem {α β : Type} (f g : α → List β) (l : List α)
    (h : ∀ x ∈ l, f x = g x) : l.flatMap f = l.flatMap g := by
  induction l with
  | nil => rfl
  | cons a as ih =>
    have ha := h a (List.mem_cons_self _ _)
    have has := ih (fun x hx => h x (List.mem_cons_of_mem _ hx))
    simp only [List.flatMap_cons, ha, has]

theorem valueOfCell_eq (s : Spreadsheet) (r c : Int) :
    valueOfCell s r c =
      match s.contentAt (r, c) with
      | none => none
      | some ct =>
        if ct = [] then none
        else
          match stod ct with
          | Except.ok v => some v
          | Except.error _ => none := by
  unfold valueOfCell contentAt
  cases s.getCell r c <;> rfl

theorem fetchValueFromReference_eq (s : Spreadsheet) (reference : Str) :
    fetchValueFromReference s reference =
      match parseCellReference reference with
      | Except.error e => Except.error e
      | Except.ok rc =>
        match s.contentAt rc with
        | none => Except.error Exn.runtime_error
        | some ct => if isNumber ct then stod ct else Except.error Exn.runtime_error := by
  unfold fetchValueFromReference contentAt
  cases parseCellReference reference with
  | error e => rfl
  | ok rc =>
    obtain ⟨row, col⟩ := rc
    simp only []
    cases s.getCell row col <;> rfl

theorem getValuesFromRange_congr (s1 s2 : Spreadsheet) (start stop : Str)
    (h : ∀ startRow startCol endRow endCol,
      parseCellReference start = Except.ok (startRow, startCol) →
      parseCellReference stop = Except.ok (endRow, endCol) →
      ∀ r ∈ intRange startRow endRow, ∀ c ∈ intRange startCol endCol,
        s1.contentAt (r, c) = s2.contentAt (r, c)) :
    getValuesFromRange s1 start stop = getValuesFromRange s2 start stop := by
  unfold getValuesFromRange
  cases h1 : parseCellReference start with
  | error e => rfl
  | ok p1 =>
    obtain ⟨startRow, startCol⟩ := p1
    cases h2 : parseCellReference stop with
    | error e => rfl
    | ok p2 =>
      obtain ⟨endRow, endCol⟩ := p2
      simp only
      congr 1
      apply flatMap_congr_mem
      intro r hr
      apply filterMap_congr_mem
      intro c hc
      rw [valueOfCell_eq, valueOfCell_eq, h startRow startCol endRow endCol h1 h2 r hr c hc]

theorem evaluateLoop_congr (s1 s2 : Spreadsheet) (tokens : List Str)
    (h : ∀ t ∈ tokens, operandValue s1 t = operandValue s2 t) (st : ℚ × Str) :
    evaluateLoop s1 st tokens = evaluateLoop s2 st tokens := by
  induction tokens generalizing st with
  | nil => rfl
  | cons t ts ih =>
    have ht := h t (List.mem_cons_self _ _)
    have hts : ∀ u ∈ ts, operandValue s1 u = operandValue s2 u :=
      fun u hu => h u (List.mem_cons_of_mem _ hu)
    have hstep : evaluateStep s1 st t = evaluateStep s2 st t := by
      unfold evaluateStep
      rw [ht]
    unfold evaluateLoop
    rw [hstep]
    cases evaluateStep s2 st t with
    | error e => rfl
    | ok st1 => exact ih hts st1

/-- Locality of evaluation: the cached value depends on the sheet only through the
displayed contents of the cells the formula refers to. -/
theorem evaluate_congr (s1 s2 : Spreadsheet) (formula : Str)
    (h : ∀ q ∈ readCells formula, s1.contentAt q = s2.contentAt q) :
    evaluate s1 formula = evaluate s2 formula := by
  have hbody : evaluateBody s1 formula = evaluateBody s2 formula := by
    unfold evaluateBody
    by_cases h0 : formula = []
    · simp [h0]
    by_cases hf : isFunction formula = true
    · simp only [h0, hf, if_true, if_false]
      unfold evaluateFunction
      cases hp : parseFunctionAndRange formula with
      | error e => rfl
      | ok fr =>
        obtain ⟨funcName, range⟩ := fr
        simp only []
        cases hr : parseRange range with
        | error e => rfl
        | ok se =>
          obtain ⟨start, stop⟩ := se
          have hv : getValuesFromRange s1 start stop = getValuesFromRange s2 start stop := by
            apply getValuesFromRange_congr
            intro startRow startCol endRow endCol h1 h2 r hr1 c hc1
            apply h
            simp only [readCells, hf, if_true, hp, rangeCells, hr, h1, h2, List.mem_flatMap,
              List.mem_map]
            exact ⟨r, hr1, c, hc1, rfl⟩
          simp only [hv]
    · by_cases he : formula.head? = some '='
      · simp only [h0, hf, he, if_true, if_false, Bool.false_eq_true]
        have hl : evaluateExpression s1 (tokenize (formula.drop 1))
            = evaluateExpression s2 (tokenize (formula.drop 1)) := by
          unfold evaluateExpression
          rw [evaluateLoop_congr s1 s2]
          intro t ht
          unfold operandValue
          by_cases hc : isCellReference t = true
          · simp only [hc, if_true]
            rw [fetchValueFromReference_eq, fetchValueFromReference_eq]
            cases hp : parseCellReference t with
            | error e => rfl
            | ok rc =>
              have hq : rc ∈ readCells formula := by
                simp only [readCells, hf, he, if_true, List.mem_filterMap, Bool.false_eq_true,
                  if_false]
                exact ⟨t, ht, by simp [hc, hp, Except.toOption]⟩
              simp only [h rc hq]
          · simp only [hc, if_false, Bool.false_eq_true]
        rw [hl]
      · simp only [h0, hf, he, if_false, Bool.false_eq_true]
  unfold evaluate
  rw [hbody]

end FormulaCell

namespace Spreadsheet

open FormulaCell

theorem scanBefore_irrefl (p : Int × Int) : ¬ scanBefore p p := by
  unfold scanBefore
  omega

theorem scanBefore_asymm (p q : Int × Int) (h : scanBefore p q) : ¬ scanBefore q p := by
  unfold scanBefore at *
  omega

theorem scanOrder_pairwise (s : Spreadsheet) : (scanOrder s).Pairwise scanBefore := by
  unfold scanOrder
  rw [List.pairwise_flatMap]
  constructor
  · intro r _
    rw [List.pairwise_map]
    apply List.Pairwise.imp _ (List.pairwise_lt_range s.totalCols)
    intro a b hab
    right
    refine ⟨rfl, ?_⟩
    show (a : Int) < (b : Int)
    exact_mod_cast hab
  · apply List.Pairwise.imp _ (List.pairwise_lt_range s.totalRows)
    intro a b hab x hx y hy
    simp only [List.mem_map] at hx hy
    obtain ⟨_, _, rfl⟩ := hx
    obtain ⟨_, _, rfl⟩ := hy
    left
    show (a : Int) < (b : Int)
    exact_mod_cast hab

theorem mem_scanOrder (s : Spreadsheet) (r c : Int) :
    (r, c) ∈ scanOrder s ↔ 0 ≤ r ∧ r < s.totalRows ∧ 0 ≤ c ∧ c < s.totalCols := by
  unfold scanOrder
  simp only [List.mem_flatMap, List.mem_map, List.mem_range, Prod.mk.injEq]
  constructor
  · rintro ⟨a, ha, b, hb, rfl, rfl⟩
    omega
  · rintro ⟨h1, h2, h3, h4⟩
    refine ⟨r.toNat, by omega, c.toNat, by omega, by omega, by omega⟩

theorem getCell_eq_some (s : Spreadsheet) (r c : Int) (cell : Cell)
    (h : s.getCell r c = some cell) :
    (0 ≤ r ∧ r < s.totalRows ∧ 0 ≤ c ∧ c < s.totalCols) ∧ s.grid r c = some cell := by
  unfold getCell at h
  split at h
  · exact ⟨by assumption, h⟩
  · cases h

theorem contentAt_congr (s t : Spreadsheet) (q : Int × Int) (hr : t.totalRows = s.totalRows)
    (hc : t.totalCols = s.totalCols) (hg : t.grid q.1 q.2 = s.grid q.1 q.2) :
    s.contentAt q = t.contentAt q := by
  unfold contentAt getCell
  rw [hr, hc, hg]

/-- The cached value a dependent formula cell holds after the scan is its evaluation
over the sheet as it stood when the scan reached it. -/
theorem scan_visit (row col : Int) (l1 l2 : List (Int × Int)) (p : Int × Int) (s : Spreadsheet)
    (h1 : p ∉ l1) (h2 : p ∉ l2) (hd : dependsOn (s.grid p.1 p.2) row col = true) :
    ((l1 ++ p :: l2).foldl (fun s1 q => recalculateCell row col s1 q.1 q.2) s).grid p.1 p.2 =
      reeval (l1.foldl (fun s1 q => recalculateCell row col s1 q.1 q.2) s) (s.grid p.1 p.2) := by
  rw [List.foldl_append, List.foldl_cons, scan_not_mem row col l2 _ p h2]
  have hsp := scan_not_mem row col l1 s p h1
  rw [recalculateCell_eq, hsp, if_pos hd]
  simp [setAt]

/-- Consistency of a dependent after one recalculation pass, under the scan-order
condition on the formula cells it reads. -/
theorem recalculate_consistent (s : Spreadsheet) (row col r c : Int) (f cv : Str)
    (deps : List (Int × Int)) (hcell : s.getCell r c = some (Cell.FormulaCell f cv deps))
    (hdep : (row, col) ∈ deps)
    (hread : ∀ q ∈ readCells f,
      dependsOn (s.getCell q.1 q.2) row col = true → scanBefore q (r, c)) :
    (s.recalculateDependencies row col).grid r c =
      some (Cell.FormulaCell f (evaluate (s.recalculateDependencies row col) f) deps) := by
  obtain ⟨hin, hg⟩ := getCell_eq_some s r c _ hcell
  have hmem : (r, c) ∈ scanOrder s := (mem_scanOrder s r c).2 hin
  obtain ⟨l1, l2, hl⟩ := List.append_of_mem hmem
  have hpw := scanOrder_pairwise s
  rw [hl, List.pairwise_append] at hpw
  obtain ⟨_, hpw2, hpw12⟩ := hpw
  rw [List.pairwise_cons] at hpw2
  have hn1 : (r, c) ∉ l1 := fun hm =>
    scanBefore_irrefl (r, c) (hpw12 (r, c) hm (r, c) (List.mem_cons_self _ _))
  have hn2 : (r, c) ∉ l2 := fun hm => scanBefore_irrefl (r, c) (hpw2.1 (r, c) hm)
  have hd : dependsOn (s.grid r c) row col = true := by
    rw [hg]
    simp only [dependsOn, List.any_eq_true]
    exact ⟨(row, col), hdep, by simp⟩
  have hfin := scan_visit row col l1 l2 (r, c) s hn1 hn2 hd
  rw [recalculateDependencies_eq_scan, hl]
  simp only at hfin
  rw [hfin, hg]
  simp only [reeval]
  congr 2
  apply evaluate_congr
  intro q hq
  have hfr := scan_frame row col ((r, c) :: l2)
    (l1.foldl (fun s1 p => recalculateCell row col s1 p.1 p.2) s)
  rw [← List.foldl_append] at hfr
  have hfr1 := scan_frame row col l1 s
  apply contentAt_congr _ _ q hfr.1 hfr.2.1
  by_cases hq2 : q ∈ (r, c) :: l2
  · have hnb : ¬ scanBefore q (r, c) := by
      rcases List.mem_cons.1 hq2 with heq | hm
      · rw [heq]; exact scanBefore_irrefl _
      · exact scanBefore_asymm _ _ (hpw2.1 q hm)
    have hqin : q ∈ scanOrder s := by
      rw [hl]
      exact List.mem_append_right _ hq2
    have hqg : s.getCell q.1 q.2 = s.grid q.1 q.2 := by
      have := (mem_scanOrder s q.1 q.2).1 hqin
      unfold getCell
      rw [if_pos this]
    have hdq : dependsOn (s.grid q.1 q.2) row col ≠ true := fun hh =>
      hnb (hread q hq (by rw [hqg]; exact hh))
    rcases hfr.2.2 q.1 q.2 with e | ⟨d, _⟩
    · exact e
    · rw [dependsOn_of_frame hfr1] at d
      exact absurd d hdq
  · have := scan_not_mem row col ((r, c) :: l2)
      (l1.foldl (fun s1 p => recalculateCell row col s1 p.1 p.2) s) q hq2
    rw [← List.foldl_append] at this
    exact this

theorem classifyValue_not_formula (content : Str) : (classifyValue content).isFormula = false := by
  unfold classifyValue
  split
  · split <;> rfl
  · split
    · rfl
    · split <;> rfl

theorem setCellContent_value (s : Spreadsheet) (row col : Int) (content : Str)
    (hr0 : 0 ≤ row) (hr1 : row < s.totalRows) (hc0 : 0 ≤ col) (hc1 : col < s.totalCols)
    (hne : content ≠ []) (heq : content.head? ≠ some '=') (hat : content.head? ≠ some '@') :
    s.setCellContent row col content =
      Except.ok ((s.setAt row col (some (classifyValue content))).recalculateDependencies
        row col) := by
  unfold setCellContent
  have hb : ¬ (row < 0 ∨ row ≥ s.totalRows ∨ col < 0 ∨ col ≥ s.totalCols) := by omega
  simp only [hb, hne, heq, hat, if_false, false_and]

theorem recalculateDependencies_frame (s : Spreadsheet) (row col : Int) :
    Frame row col s (s.recalculateDependencies row col) := by
  rw [recalculateDependencies_eq_scan]
  exact scan_frame row col _ s

theorem dependsOn_eq_false_of_not_formula (cell : Option Cell) (row col : Int)
    (h : ∀ c, cell = some c → c.isFormula = false) : dependsOn cell row col = false := by
  cases cell with
  | none => rfl
  | some c =>
    have := h c rfl
    cases c <;> simp_all [dependsOn, Cell.isFormula]

/-- A value edit at `(row, col)` leaves every dependent formula cell consistent with the
sheet after the call, when the formula cells it reads that are themselves refreshed by
the pass come strictly earlier in the scan. -/
theorem setCellContent_value_consistent (s : Spreadsheet) (row col r c : Int)
    (content f cv : Str) (deps : List (Int × Int))
    (hr0 : 0 ≤ row) (hr1 : row < s.totalRows) (hc0 : 0 ≤ col) (hc1 : col < s.totalCols)
    (hne : content ≠ []) (heq : content.head? ≠ some '=') (hat : content.head? ≠ some '@')
    (hcell : s.getCell r c = some (Cell.FormulaCell f cv deps))
    (hother : (r, c) ≠ (row, col))
    (hdep : (row, col) ∈ deps)
    (hread : ∀ q ∈ readCells f, q ≠ (row, col) →
      dependsOn (s.getCell q.1 q.2) row col = true → scanBefore q (r, c)) :
    ∃ s1, s.setCellContent row col content = Except.ok s1 ∧
      s1.getCell r c = some (Cell.FormulaCell f (evaluate s1 f) deps) := by
  refine ⟨_, setCellContent_value s row col content hr0 hr1 hc0 hc1 hne heq hat, ?_⟩
  have hne2 : ¬ (r = row ∧ c = col) := fun h => hother (Prod.ext h.1 h.2)
  have hcell0 : (s.setAt row col (some (classifyValue content))).getCell r c
      = some (Cell.FormulaCell f cv deps) := by
    rw [← hcell]
    simp [getCell, setAt, hne2]
  have hread0 : ∀ q ∈ readCells f,
      dependsOn ((s.setAt row col (some (classifyValue content))).getCell q.1 q.2) row col = true →
      scanBefore q (r, c) := by
    intro q hq hd
    by_cases hqx : q = (row, col)
    · exfalso
      rw [hqx] at hd
      have hb : 0 ≤ row ∧ row < s.totalRows ∧ 0 ≤ col ∧ col < s.totalCols := ⟨hr0, hr1, hc0, hc1⟩
      have : dependsOn (some (classifyValue content)) row col = false :=
        dependsOn_eq_false_of_not_formula _ _ _
          (fun c0 hc => by cases hc; exact classifyValue_not_formula content)
      simp [getCell, setAt, hb, this] at hd
    · apply hread q hq hqx
      have hq2 : ¬ (q.1 = row ∧ q.2 = col) := fun h => hqx (Prod.ext h.1 h.2)
      simpa [getCell, setAt, hq2] using hd
  have hcons := recalculate_consistent _ row col r c f cv deps hcell0 hdep hread0
  have hfr := recalculateDependencies_frame (s.setAt row col (some (classifyValue content))) row col
  obtain ⟨hin, _⟩ := getCell_eq_some _ r c _ hcell0
  rw [← hfr.1, ← hfr.2.1] at hin
  unfold getCell
  rw [if_pos hin]
  exact hcons

end Spreadsheet

namespace FormulaCell

open Spreadsheet

theorem stod_error_of_head (c : Char) (rest : Str) (hs : isspace c = false)
    (hd : isdigit c = false) (hm : c ≠ '-') (hp : c ≠ '+') (hdot : c ≠ '.') :
    stod (c :: rest) = Except.error Exn.invalid_argument := by
  have h1 : (c :: rest).dropWhile isspace = c :: rest := by simp [List.dropWhile, hs]
  have h2 : splitSign (c :: rest) = (false, c :: rest) := by
    unfold splitSign
    split
    · rename_i heq; cases heq; exact absurd rfl hm
    · rename_i heq; cases heq; exact absurd rfl hp
    · rfl
  unfold stod
  simp only [h1, h2]
  have h3 : (c :: rest).takeWhile isdigit = [] := by simp [List.takeWhile, hd]
  have h4 : (c :: rest).dropWhile isdigit = c :: rest := by simp [List.dropWhile, hd]
  rw [h3, h4, if_pos]
  refine ⟨rfl, ?_⟩
  split
  · rename_i heq; cases heq; exact absurd rfl hdot
  · rfl

theorem isNumber_head (content : Str) (h : isNumber content = true) :
    content ≠ [] ∧ content.head? ≠ some '=' ∧ content.head? ≠ some '@' := by
  cases content with
  | nil => simp [isNumber] at h
  | cons c rest =>
    refine ⟨by simp, ?_, ?_⟩
    · intro hc
      simp only [List.head?_cons, Option.some.injEq] at hc
      subst hc
      rw [isNumber, stod_error_of_head _ rest (by decide) (by decide) (by decide) (by decide)
        (by decide)] at h
      simp at h
    · intro hc
      simp only [List.head?_cons, Option.some.injEq] at hc
      subst hc
      rw [isNumber, stod_error_of_head _ rest (by decide) (by decide) (by decide) (by decide)
        (by decide)] at h
      simp at h

theorem collectDependencies_iff (tokens : List Str) (acc deps : List (Int × Int)) :
    collectDependencies tokens acc = Except.ok deps ↔
      ∃ ds, deps = acc ++ ds ∧
        List.Forall₂ (fun t d => parseCellReference t = Except.ok d)
          (tokens.filter isCellReference) ds := by
  induction tokens generalizing acc with
  | nil =>
    simp only [collectDependencies, List.filter_nil, List.forall₂_nil_left_iff, Except.ok.injEq]
    constructor
    · intro h
      exact ⟨[], by simp [h], rfl⟩
    · rintro ⟨ds, h, rfl⟩
      simp [h]
  | cons t ts ih =>
    by_cases hc : isCellReference t = true
    · simp only [collectDependencies, hc, if_true, List.filter_cons_of_pos]
      cases hp : parseCellReference t with
      | error e =>
        simp only [false_iff, not_exists, not_and, reduceCtorEq]
        intro ds _ hf
        cases hf with
        | cons h _ => rw [hp] at h; cases h
      | ok rc =>
        simp only [ih]
        constructor
        · rintro ⟨ds, h, hf⟩
          exact ⟨rc :: ds, by simp [h], List.Forall₂.cons hp hf⟩
        · rintro ⟨ds, h, hf⟩
          cases hf with
          | cons h1 h2 =>
            rename_i d ds1
            rw [hp] at h1
            cases h1
            exact ⟨ds1, by simp [h], h2⟩
    · simp only [collectDependencies, hc, if_false, Bool.false_eq_true]
      rw [List.filter_cons_of_neg hc]
      exact ih acc

theorem flatten_flush (tokens : List Str) (token : Str) :
    (flush tokens token).flatten = tokens.flatten ++ token := by
  unfold flush
  by_cases h : token = []
  · simp [h]
  · simp [h]

theorem mem_flush (tokens : List Str) (token t : Str) (h : t ∈ flush tokens token) :
    t ∈ tokens ∨ (t = token ∧ token ≠ []) := by
  unfold flush at h
  by_cases hn : token = []
  · simp [hn] at h
    exact Or.inl h
  · simp [hn] at h
    rcases h with h | h
    · exact Or.inl h
    · exact Or.inr ⟨h, hn⟩

theorem flush_append (pre tokens : List Str) (token : Str) :
    flush (pre ++ tokens) token = pre ++ flush tokens token := by
  unfold flush
  split <;> simp

/-- Invariant of the scanning loop outside a function call: every pushed token is
non-empty and either an operator or free of operators and white space, and the pending
token is free of operators and white space. -/
theorem tokenizeStep_plain (st : TokState) (ch : Char) (hch : ch ≠ '@')
    (hin : st.inFunction = false)
    (htoks : ∀ t ∈ st.tokens, t ≠ [] ∧ (isOperator t = true ∨ PlainToken t))
    (htok : PlainToken st.token) :
    (tokenizeStep st ch).inFunction = false ∧
    (∀ t ∈ (tokenizeStep st ch).tokens, t ≠ [] ∧ (isOperator t = true ∨ PlainToken t)) ∧
    PlainToken (tokenizeStep st ch).token ∧
    (tokenizeStep st ch).tokens.flatten ++ (tokenizeStep st ch).token
      = st.tokens.flatten ++ st.token ++ (if isspace ch = true then [] else [ch]) := by
  have hflush : ∀ t ∈ flush st.tokens st.token,
      t ≠ [] ∧ (isOperator t = true ∨ PlainToken t) := by
    intro t ht
    rcases mem_flush _ _ _ ht with h | ⟨h, hn⟩
    · exact htoks t h
    · rw [h]; exact ⟨hn, Or.inr htok⟩
  by_cases hs : isspace ch = true
  · have hstep : tokenizeStep st ch
        = { st with tokens := flush st.tokens st.token, token := [] } := by
      simp [tokenizeStep, hch, hin, hs]
    rw [hstep]
    refine ⟨hin, hflush, ?_, ?_⟩
    · intro c hc; cases hc
    · simp [flatten_flush, hs]
  · by_cases hop : ch = '+' ∨ ch = '-' ∨ ch = '*' ∨ ch = '/'
    · have hstep : tokenizeStep st ch
          = { st with tokens := flush st.tokens st.token ++ [[ch]], token := [] } := by
        simp [tokenizeStep, hch, hin, hs, hop]
      rw [hstep]
      refine ⟨hin, ?_, ?_, ?_⟩
      · intro t ht
        rcases List.mem_append.1 ht with h | h
        · exact hflush t h
        · simp only [List.mem_singleton] at h
          rw [h]
          refine ⟨by simp, Or.inl ?_⟩
          rcases hop with h1 | h1 | h1 | h1 <;> simp [isOperator, h1]
      · intro c hc; cases hc
      · simp [flatten_flush, hs]
    · have hstep : tokenizeStep st ch = { st with token := st.token ++ [ch] } := by
        simp [tokenizeStep, hch, hin, hs, hop]
      rw [hstep]
      refine ⟨hin, htoks, ?_, ?_⟩
      · intro c hc
        rcases List.mem_append.1 hc with h | h
        · exact htok c h
        · simp only [List.mem_singleton] at h
          rw [h]
          simp only [not_or] at hop
          exact ⟨by simpa using hs, hop.1, hop.2.1, hop.2.2.1, hop.2.2.2⟩
      · simp [hs]

theorem tokenizeLoop_plain (f : Str) (st : TokState) (hf : '@' ∉ f)
    (hin : st.inFunction = false)
    (htoks : ∀ t ∈ st.tokens, t ≠ [] ∧ (isOperator t = true ∨ PlainToken t))
    (htok : PlainToken st.token) :
    (∀ t ∈ (f.foldl tokenizeStep st).tokens, t ≠ [] ∧ (isOperator t = true ∨ PlainToken t)) ∧
    PlainToken (f.foldl tokenizeStep st).token ∧
    (f.foldl tokenizeStep st).tokens.flatten ++ (f.foldl tokenizeStep st).token
      = st.tokens.flatten ++ st.token ++ f.filter (fun c => !isspace c) := by
  induction f generalizing st with
  | nil => exact ⟨htoks, htok, by simp⟩
  | cons ch rest ih =>
    have hch : ch ≠ '@' := fun h => hf (h ▸ List.mem_cons_self _ _)
    have hrest : '@' ∉ rest := fun h => hf (List.mem_cons_of_mem _ h)
    obtain ⟨h1, h2, h3, h4⟩ := tokenizeStep_plain st ch hch hin htoks htok
    obtain ⟨i1, i2, i3⟩ := ih (tokenizeStep st ch) hrest h1 h2 h3
    refine ⟨i1, i2, ?_⟩
    rw [List.foldl_cons, i3, h4]
    by_cases hs : isspace ch = true
    · simp [hs]
    · simp [hs]

theorem tokenizeLoop_inFunction (body : Str) (tokens : List Str) (token : Str)
    (h1 : '@' ∉ body) (h2 : ')' ∉ body) :
    body.foldl tokenizeStep { tokens := tokens, token := token, inFunction := true }
      = { tokens := tokens, token := token ++ body, inFunction := true } := by
  induction body generalizing token with
  | nil => simp
  | cons ch rest ih =>
    have hch : ch ≠ '@' := fun h => h1 (h ▸ List.mem_cons_self _ _)
    have hcl : ch ≠ ')' := fun h => h2 (h ▸ List.mem_cons_self _ _)
    have hr1 : '@' ∉ rest := fun h => h1 (List.mem_cons_of_mem _ h)
    have hr2 : ')' ∉ rest := fun h => h2 (List.mem_cons_of_mem _ h)
    rw [List.foldl_cons]
    have hstep : tokenizeStep { tokens := tokens, token := token, inFunction := true } ch
        = { tokens := tokens, token := token ++ [ch], inFunction := true } := by
      simp [tokenizeStep, hch, hcl]
    rw [hstep, ih (token ++ [ch]) hr1 hr2]
    simp

theorem tokenizeStep_prefix (pre : List Str) (st : TokState) (ch : Char) :
    tokenizeStep { st with tokens := pre ++ st.tokens } ch
      = { tokenizeStep st ch with tokens := pre ++ (tokenizeStep st ch).tokens } := by
  unfold tokenizeStep
  simp only [flush_append]
  split
  · rfl
  · split
    · split
      · simp
      · rfl
    · split
      · rfl
      · split
        · simp
        · rfl

theorem tokenizeLoop_prefix (pre : List Str) (l : Str) (st : TokState) :
    l.foldl tokenizeStep { st with tokens := pre ++ st.tokens }
      = { l.foldl tokenizeStep st with tokens := pre ++ (l.foldl tokenizeStep st).tokens } := by
  induction l generalizing st with
  | nil => rfl
  | cons ch rest ih =>
    rw [List.foldl_cons, List.foldl_cons, tokenizeStep_prefix]
    exact ih (tokenizeStep st ch)

theorem tokenize_call (body rest : Str) (h1 : '@' ∉ body) (h2 : ')' ∉ body) :
    tokenize ('@' :: body ++ ')' :: rest) = ('@' :: body ++ [')']) :: tokenize rest := by
  unfold tokenize
  have h0 : tokenizeStep { tokens := [], token := [], inFunction := false } '@'
      = { tokens := [], token := ['@'], inFunction := true } := by
    simp [tokenizeStep, flush]
  have hclose : tokenizeStep { tokens := [], token := ['@'] ++ body, inFunction := true } ')'
      = { tokens := ['@' :: body ++ [')']], token := [], inFunction := false } := by
    simp [tokenizeStep]
  have hp := tokenizeLoop_prefix ['@' :: body ++ [')']] rest
    { tokens := [], token := [], inFunction := false }
  simp only [List.append_nil] at hp
  have hl : ('@' :: body ++ ')' :: rest) = '@' :: (body ++ ')' :: rest) := rfl
  rw [hl, List.foldl_cons, h0, List.foldl_append, tokenizeLoop_inFunction body [] ['@'] h1 h2,
    List.foldl_cons, hclose, hp]
  exact flush_append ['@' :: body ++ [')']] _ _

theorem isFunction_ne_nil (f : Str) (hf : isFunction f = true) : f ≠ [] := by
  intro h
  simp [isFunction, h] at hf

theorem evaluate_function (s : Spreadsheet) (f : Str) (hf : isFunction f = true) :
    evaluate s f =
      match evaluateFunction s f with
      | Except.ok v => v
      | Except.error _ => "#ERROR".toList := by
  unfold evaluate evaluateBody
  simp only [isFunction_ne_nil f hf, hf, if_true, if_false]

theorem applyFunction_unknown (funcName : Str) (values : List ℚ)
    (h : funcName ∉ recognisedNames) :
    applyFunction funcName values = Except.error Exn.runtime_error := by
  simp only [recognisedNames, List.mem_cons, List.mem_singleton, not_or, List.not_mem_nil,
    or_false] at h
  obtain ⟨h1, h2, h3, h4, h5, h6, h7, h8, h9, h10⟩ := h
  simp only [applyFunction, h1, h2, h3, h4, h5, h6, h7, h8, h9, h10, or_self, if_false]

theorem evaluate_unknown_function (s : Spreadsheet) (f funcName range : Str)
    (hf : isFunction f = true) (hp : parseFunctionAndRange f = Except.ok (funcName, range))
    (hn : funcName ∉ recognisedNames) : evaluate s f = "#ERROR".toList := by
  rw [evaluate_function s f hf]
  unfold evaluateFunction
  rw [hp]
  simp only []
  cases parseRange range with
  | error e => rfl
  | ok se =>
    obtain ⟨start, stop⟩ := se
    simp only []
    cases getValuesFromRange s start stop with
    | error e => rfl
    | ok values =>
      simp only [applyFunction_unknown funcName values hn]

theorem evaluate_missing_parenthesis (s : Spreadsheet) (f : Str) (hf : isFunction f = true)
    (h : findChar '(' f = none ∨ findChar ')' f = none) : evaluate s f = "#ERROR".toList := by
  rw [evaluate_function s f hf]
  have hp : parseFunctionAndRange f = Except.error Exn.runtime_error := by
    unfold parseFunctionAndRange
    rcases h with h | h
    · rw [h]
    · rw [h]
      cases findChar '(' f <;> rfl
  unfold evaluateFunction
  rw [hp]

theorem evaluate_missing_separator (s : Spreadsheet) (f funcName range : Str)
    (hf : isFunction f = true) (hp : parseFunctionAndRange f = Except.ok (funcName, range))
    (h : findDotDot range = none) : evaluate s f = "#ERROR".toList := by
  rw [evaluate_function s f hf]
  have hr : parseRange range = Except.error Exn.runtime_error := by
    unfold parseRange
    rw [h]
  unfold evaluateFunction
  rw [hp]
  simp only [hr]

theorem evaluate_invalid_range_reference (s : Spreadsheet) (f funcName range start stop : Str)
    (e : Exn) (hf : isFunction f = true)
    (hp : parseFunctionAndRange f = Except.ok (funcName, range))
    (hr : parseRange range = Except.ok (start, stop))
    (h : parseCellReference start = Except.error e ∨ parseCellReference stop = Except.error e) :
    evaluate s f = "#ERROR".toList := by
  rw [evaluate_function s f hf]
  have hv : ∃ e1, getValuesFromRange s start stop = Except.error e1 := by
    unfold getValuesFromRange
    rcases h with h | h
    · rw [h]; exact ⟨e, rfl⟩
    · rw [h]
      cases parseCellReference start with
      | error e1 => exact ⟨e1, rfl⟩
      | ok p => exact ⟨e, rfl⟩
  obtain ⟨e1, hv⟩ := hv
  unfold evaluateFunction
  rw [hp]
  simp only [hr, hv]

theorem evaluateLoop_failing_operand (s : Spreadsheet) (tokens : List Str) (t : Str) (e : Exn)
    (ht : t ∈ tokens) (hop : isOperator t = false) (hv : operandValue s t = Except.error e)
    (st : ℚ × Str) : ∃ e1, evaluateLoop s st tokens = Except.error e1 := by
  induction tokens generalizing st with
  | nil => cases ht
  | cons u us ih =>
    unfold evaluateLoop
    cases hstep : evaluateStep s st u with
    | error e1 => exact ⟨e1, rfl⟩
    | ok st1 =>
      rcases List.mem_cons.1 ht with h | h
      · subst h
        simp [evaluateStep, hop, hv] at hstep
      · exact ih h st1

theorem evaluate_failing_operand (s : Spreadsheet) (rest t : Str) (e : Exn)
    (ht : t ∈ tokenize rest) (hop : isOperator t = false)
    (hv : operandValue s t = Except.error e) :
    evaluate s ('=' :: rest) = "#ERROR".toList := by
  obtain ⟨e1, h⟩ := evaluateLoop_failing_operand s (tokenize rest) t e ht hop hv (0, [])
  apply evaluate_arith_error s rest e1
  unfold evaluateExpression
  rw [h]

theorem operandValue_missing_or_text (s : Spreadsheet) (t : Str) (row col : Int)
    (hc : isCellReference t = true) (hp : parseCellReference t = Except.ok (row, col))
    (h : s.getCell row col = none ∨
      ∃ cell, s.getCell row col = some cell ∧ isNumber cell.getContent = false) :
    operandValue s t = Except.error Exn.runtime_error := by
  unfold operandValue fetchValueFromReference
  rw [if_pos hc, hp]
  rcases h with h | ⟨cell, h, hn⟩
  · simp only [h]
  · simp only [h, hn, Bool.false_eq_true, if_false]

theorem operandValue_operator (s : Spreadsheet) (t : Str) (hop : isOperator t = true) :
    operandValue s t = Except.error Exn.invalid_argument := by
  simp only [isOperator, Bool.or_eq_true, decide_eq_true_eq] at hop
  rcases hop with ((h | h) | h) | h <;> subst h <;>
    (unfold operandValue; rw [if_neg (by decide)]; decide)

theorem evaluateLoop_append (s : Spreadsheet) (xs ys : List Str) (st : ℚ × Str) :
    evaluateLoop s st (xs ++ ys) =
      match evaluateLoop s st xs with
      | Except.error e => Except.error e
      | Except.ok st1 => evaluateLoop s st1 ys := by
  induction xs generalizing st with
  | nil => rfl
  | cons x xs ih =>
    simp only [List.cons_append, evaluateLoop]
    cases evaluateStep s st x with
    | error e => rfl
    | ok st1 => exact ih st1

theorem evaluate_division_by_zero (s : Spreadsheet) (rest : Str) (pre : List Str) (t : Str)
    (post : List Str) (htok : tokenize rest = pre ++ ['/'] :: t :: post)
    (hv : operandValue s t = Except.ok 0) : evaluate s ('=' :: rest) = "#ERROR".toList := by
  have hop : isOperator t = false := by
    cases h : isOperator t with
    | false => rfl
    | true => rw [operandValue_operator s t h] at hv; cases hv
  have hloop : ∃ e1, evaluateLoop s (0, []) (tokenize rest) = Except.error e1 := by
    rw [htok, evaluateLoop_append]
    cases evaluateLoop s (0, []) pre with
    | error e => exact ⟨e, rfl⟩
    | ok st1 =>
      refine ⟨Exn.runtime_error, ?_⟩
      have hslash : isOperator ['/'] = true := by decide
      simp [evaluateLoop, evaluateStep, hslash, hop, hv, applyOperator]
  obtain ⟨e1, h⟩ := hloop
  apply evaluate_arith_error s rest e1
  unfold evaluateExpression
  rw [h]

end FormulaCell

namespace Spreadsheet

open FormulaCell

/-- Every dependent cell is re-evaluated by the pass, against a sheet that differs from
the initial one at most in cached values of other dependents. -/
theorem recalculate_visits_dependent (s : Spreadsheet) (row col r c : Int) (f cv : Str)
    (deps : List (Int × Int)) (hcell : s.getCell r c = some (Cell.FormulaCell f cv deps))
    (hdep : (row, col) ∈ deps) :
    ∃ sv, Frame row col s sv ∧
      (s.recalculateDependencies row col).grid r c
        = some (Cell.FormulaCell f (evaluate sv f) deps) := by
  obtain ⟨hin, hg⟩ := getCell_eq_some s r c _ hcell
  have hmem : (r, c) ∈ scanOrder s := (mem_scanOrder s r c).2 hin
  obtain ⟨l1, l2, hl⟩ := List.append_of_mem hmem
  have hpw := scanOrder_pairwise s
  rw [hl, List.pairwise_append] at hpw
  obtain ⟨_, hpw2, hpw12⟩ := hpw
  rw [List.pairwise_cons] at hpw2
  have hn1 : (r, c) ∉ l1 := fun hm =>
    scanBefore_irrefl (r, c) (hpw12 (r, c) hm (r, c) (List.mem_cons_self _ _))
  have hn2 : (r, c) ∉ l2 := fun hm => scanBefore_irrefl (r, c) (hpw2.1 (r, c) hm)
  have hd : dependsOn (s.grid r c) row col = true := by
    rw [hg]
    simp only [dependsOn, List.any_eq_true]
    exact ⟨(row, col), hdep, by simp⟩
  have hfin := scan_visit row col l1 l2 (r, c) s hn1 hn2 hd
  refine ⟨l1.foldl (fun s1 p => recalculateCell row col s1 p.1 p.2) s,
    scan_frame row col l1 s, ?_⟩
  rw [recalculateDependencies_eq_scan, hl]
  simp only at hfin
  rw [hfin, hg]
  rfl

end Spreadsheet

namespace FormulaCell

open Spreadsheet

theorem mem_intRange (lo hi x : Int) : x ∈ intRange lo hi ↔ lo ≤ x ∧ x ≤ hi := by
  unfold intRange
  simp only [List.mem_map, List.mem_range]
  constructor
  · rintro ⟨i, hi1, rfl⟩
    omega
  · rintro ⟨h1, h2⟩
    exact ⟨(x - lo).toNat, by omega, by omega⟩

theorem intRange_pairwise (lo hi : Int) : (intRange lo hi).Pairwise (· < ·) := by
  unfold intRange
  rw [List.pairwise_map]
  apply List.Pairwise.imp _ (List.pairwise_lt_range _)
  intro a b hab
  show lo + (a : Int) < lo + (b : Int)
  omega

theorem mem_rectangle (sr sc er ec : Int) (p : Int × Int) :
    p ∈ rectangle sr sc er ec ↔ (sr ≤ p.1 ∧ p.1 ≤ er) ∧ (sc ≤ p.2 ∧ p.2 ≤ ec) := by
  unfold rectangle
  simp only [List.mem_flatMap, List.mem_map, mem_intRange]
  constructor
  · rintro ⟨r, hr, c, hc, rfl⟩
    exact ⟨hr, hc⟩
  · rintro ⟨hr, hc⟩
    exact ⟨p.1, hr, p.2, hc, rfl⟩

theorem rectangle_pairwise (sr sc er ec : Int) :
    (rectangle sr sc er ec).Pairwise Spreadsheet.scanBefore := by
  unfold rectangle
  rw [List.pairwise_flatMap]
  constructor
  · intro r _
    rw [List.pairwise_map]
    apply List.Pairwise.imp _ (intRange_pairwise sc ec)
    intro a b hab
    exact Or.inr ⟨rfl, hab⟩
  · apply List.Pairwise.imp _ (intRange_pairwise sr er)
    intro a b hab x hx y hy
    simp only [List.mem_map] at hx hy
    obtain ⟨_, _, rfl⟩ := hx
    obtain ⟨_, _, rfl⟩ := hy
    exact Or.inl hab

theorem rectangle_nodup (sr sc er ec : Int) : (rectangle sr sc er ec).Nodup := by
  apply List.Pairwise.imp _ (rectangle_pairwise sr sc er ec)
  intro p q h heq
  subst heq
  unfold Spreadsheet.scanBefore at h
  omega

theorem stod_nil : stod [] = Except.error Exn.invalid_argument := by decide

theorem valueOfCell_eq_parsedNumber (s : Spreadsheet) (r c : Int) :
    valueOfCell s r c = parsedNumber s (r, c) := by
  unfold valueOfCell parsedNumber Spreadsheet.contentAt
  cases s.getCell r c with
  | none => rfl
  | some cell =>
    simp only [Option.map_some']
    by_cases h : cell.getContent = []
    · simp [h, stod_nil, Except.toOption]
    · simp only [h, if_false]
      cases stod cell.getContent <;> rfl

theorem getValuesFromRange_eq (s : Spreadsheet) (start stop : Str) (sr sc er ec : Int)
    (h1 : parseCellReference start = Except.ok (sr, sc))
    (h2 : parseCellReference stop = Except.ok (er, ec)) :
    getValuesFromRange s start stop
      = Except.ok ((rectangle sr sc er ec).filterMap (parsedNumber s)) := by
  unfold getValuesFromRange rectangle
  rw [h1, h2]
  simp only []
  congr 1
  generalize intRange sr er = rows
  induction rows with
  | nil => rfl
  | cons r rs ih =>
    simp only [List.flatMap_cons, List.filterMap_append, ih, List.filterMap_map]
    congr 1
    apply filterMap_congr_mem
    intro c _
    exact valueOfCell_eq_parsedNumber s r c

theorem calculateSum_eq_sum (values : List ℚ) : calculateSum values = values.sum := by
  unfold calculateSum
  rw [List.sum_eq_foldl]

theorem sum_filterMap_eq (f : Int × Int → Option ℚ) (l : List (Int × Int)) :
    (l.filterMap f).sum = (l.map (fun p => (f p).getD 0)).sum := by
  induction l with
  | nil => rfl
  | cons a as ih =>
    cases h : f a with
    | none => simp [List.filterMap_cons, h, ih]
    | some v => simp [List.filterMap_cons, h, ih]

theorem length_filterMap_eq (f : Int × Int → Option ℚ) (l : List (Int × Int)) :
    (l.filterMap f).length = (l.filter (fun p => (f p).isSome)).length := by
  induction l with
  | nil => rfl
  | cons a as ih =>
    cases h : f a with
    | none => simp [List.filterMap_cons, h, ih]
    | some v => simp [List.filterMap_cons, h, ih]

theorem filterMap_eq_nil_of_none (f : Int × Int → Option ℚ) (l : List (Int × Int))
    (h : ∀ p ∈ l, f p = none) : l.filterMap f = [] := by
  induction l with
  | nil => rfl
  | cons a as ih =>
    have ha := h a (List.mem_cons_self _ _)
    simp [List.filterMap_cons, ha, ih (fun p hp => h p (List.mem_cons_of_mem _ hp))]

theorem calculateMax_foldl (l : List ℚ) (v0 : ℚ) :
    (l.foldl (fun max v => if v > max then v else max) v0 ∈ v0 :: l) ∧
    (∀ x ∈ v0 :: l, x ≤ l.foldl (fun max v => if v > max then v else max) v0) := by
  induction l generalizing v0 with
  | nil => simp
  | cons a as ih =>
    simp only [List.foldl_cons]
    obtain ⟨h1, h2⟩ := ih (if a > v0 then a else v0)
    constructor
    · rcases List.mem_cons.1 h1 with h | h
      · rw [h]
        split
        · simp
        · simp
      · exact List.mem_cons_of_mem _ (List.mem_cons_of_mem _ h)
    · intro x hx
      have hstep : v0 ≤ (if a > v0 then a else v0) ∧ a ≤ (if a > v0 then a else v0) := by
        split
        · rename_i h; exact ⟨le_of_lt h, le_refl _⟩
        · rename_i h; exact ⟨le_refl _, not_lt.1 h⟩
      have hm := h2 _ (List.mem_cons_self _ _)
      rcases List.mem_cons.1 hx with h | h
      · rw [h]; exact le_trans hstep.1 hm
      · rcases List.mem_cons.1 h with h | h
        · rw [h]; exact le_trans hstep.2 hm
        · exact h2 x (List.mem_cons_of_mem _ h)

theorem calculateMin_foldl (l : List ℚ) (v0 : ℚ) :
    (l.foldl (fun min v => if v < min then v else min) v0 ∈ v0 :: l) ∧
    (∀ x ∈ v0 :: l, l.foldl (fun min v => if v < min then v else min) v0 ≤ x) := by
  induction l generalizing v0 with
  | nil => simp
  | cons a as ih =>
    simp only [List.foldl_cons]
    obtain ⟨h1, h2⟩ := ih (if a < v0 then a else v0)
    constructor
    · rcases List.mem_cons.1 h1 with h | h
      · rw [h]
        split
        · simp
        · simp
      · exact List.mem_cons_of_mem _ (List.mem_cons_of_mem _ h)
    · intro x hx
      have hstep : (if a < v0 then a else v0) ≤ v0 ∧ (if a < v0 then a else v0) ≤ a := by
        split
        · rename_i h; exact ⟨le_of_lt h, le_refl _⟩
        · rename_i h; exact ⟨le_refl _, not_lt.1 h⟩
      have hm := h2 _ (List.mem_cons_self _ _)
      rcases List.mem_cons.1 hx with h | h
      · rw [h]; exact le_trans hm hstep.1
      · rcases List.mem_cons.1 h with h | h
        · rw [h]; exact le_trans hm hstep.2
        · exact h2 x (List.mem_cons_of_mem _ h)

end FormulaCell


theorem sqrtModel_nonneg (q : ℚ) : 0 ≤ sqrtModel q := by
  unfold sqrtModel
  split
  · exact le_refl 0
  · positivity

theorem sqrtModel_of_nonpos (q : ℚ) (h : q ≤ 0) : sqrtModel q = 0 := by
  unfold sqrtModel
  rw [if_pos h]

theorem sqrtModel_radicand (q : ℚ) (h : 0 < q) :
    q = ((q.num.toNat * q.den * 10 ^ 24 : Nat) : ℚ)
      / (((q.den * 10 ^ 12 : Nat) : ℚ) * ((q.den * 10 ^ 12 : Nat) : ℚ)) := by
  have hnum : 0 < q.num := Rat.num_pos.2 h
  have hden : (q.den : ℚ) ≠ 0 := by exact_mod_cast q.den_nz
  have hcast : ((q.num.toNat : Nat) : ℚ) = (q.num : ℚ) := by
    have : ((q.num.toNat : Nat) : Int) = q.num := Int.toNat_of_nonneg (le_of_lt hnum)
    exact_mod_cast congrArg (fun z : Int => (z : ℚ)) this
  have key : ∀ n d : ℚ, d ≠ 0 →
      n / d = (n * d * 10 ^ 24) / ((d * 10 ^ 12) * (d * 10 ^ 12)) := by
    intro n d hd
    field_simp
    ring
  calc q = (q.num : ℚ) / (q.den : ℚ) := (Rat.num_div_den q).symm
    _ = ((q.num : ℚ) * (q.den : ℚ) * 10 ^ 24)
          / (((q.den : ℚ) * 10 ^ 12) * ((q.den : ℚ) * 10 ^ 12)) := key _ _ hden
    _ = ((q.num.toNat * q.den * 10 ^ 24 : Nat) : ℚ)
          / (((q.den * 10 ^ 12 : Nat) : ℚ) * ((q.den * 10 ^ 12 : Nat) : ℚ)) := by
      push_cast
      rw [hcast]
      norm_num

/-- The modelled square root is the non-negative root truncated to a multiple of
`1 / (den * 10^12)`: its square is at most the argument, and the next multiple
overshoots. -/
theorem sqrtModel_bounds (q : ℚ) (h : 0 ≤ q) :
    sqrtModel q * sqrtModel q ≤ q ∧
    q < (sqrtModel q + 1 / 10 ^ 12) * (sqrtModel q + 1 / 10 ^ 12) := by
  rcases eq_or_lt_of_le h with h0 | hpos
  · rw [← h0, sqrtModel_of_nonpos 0 (le_refl 0)]
    norm_num
  · have hrad := sqrtModel_radicand q hpos
    have hD : (0 : ℚ) < ((q.den * 10 ^ 12 : Nat) : ℚ) := by
      have : 0 < q.den * 10 ^ 12 := Nat.mul_pos q.den_pos (by positivity)
      exact_mod_cast this
    have hD1 : (1 : ℚ) ≤ ((q.den : Nat) : ℚ) := by exact_mod_cast q.den_pos
    have hle := Nat.sqrt_le (q.num.toNat * q.den * 10 ^ 24)
    have hlt := Nat.lt_succ_sqrt (q.num.toNat * q.den * 10 ^ 24)
    have hs : sqrtModel q
        = (Nat.sqrt (q.num.toNat * q.den * 10 ^ 24) : ℚ) / ((q.den * 10 ^ 12 : Nat) : ℚ) := by
      unfold sqrtModel
      rw [if_neg (not_le.2 hpos)]
    set m := Nat.sqrt (q.num.toNat * q.den * 10 ^ 24) with hm
    set N := q.num.toNat * q.den * 10 ^ 24 with hN
    set D : ℚ := ((q.den * 10 ^ 12 : Nat) : ℚ) with hDdef
    have hleq : ((m * m : Nat) : ℚ) ≤ (N : ℚ) := by exact_mod_cast hle
    have hltq : (N : ℚ) < (((m + 1) * (m + 1) : Nat) : ℚ) := by
      exact_mod_cast hlt
    constructor
    · rw [hs, hrad, div_mul_div_comm]
      apply div_le_div_of_nonneg_right _ (le_of_lt (mul_pos hD hD))
      simpa using hleq
    · have hstep : (m : ℚ) / D + 1 / 10 ^ 12 ≥ ((m : ℚ) + 1) / D := by
        have h1 : (1 : ℚ) / D ≤ 1 / 10 ^ 12 := by
          apply one_div_le_one_div_of_le (by positivity)
          rw [hDdef]
          push_cast
          nlinarith [hD1]
        have : ((m : ℚ) + 1) / D = (m : ℚ) / D + 1 / D := by ring
        rw [this]
        linarith
      have hpos1 : (0 : ℚ) ≤ ((m : ℚ) + 1) / D := by positivity
      have hsq : q < (((m : ℚ) + 1) / D) * (((m : ℚ) + 1) / D) := by
        rw [div_mul_div_comm]
        conv_lhs => rw [hrad]
        apply div_lt_div_of_pos_right _ (mul_pos hD hD)
        simpa using hltq
      rw [hs]
      calc q < (((m : ℚ) + 1) / D) * (((m : ℚ) + 1) / D) := hsq
        _ ≤ ((m : ℚ) / D + 1 / 10 ^ 12) * ((m : ℚ) / D + 1 / 10 ^ 12) :=
          mul_le_mul hstep hstep hpos1 (le_trans hpos1 hstep)

/-- The modelled square root is exact on squares of rationals. -/
theorem sqrtModel_mul_self (t : ℚ) (ht : 0 ≤ t) : sqrtModel (t * t) = t := by
  rcases eq_or_lt_of_le ht with h0 | hpos
  · rw [← h0]
    exact sqrtModel_of_nonpos _ (by norm_num)
  · have hnum : 0 < t.num := Rat.num_pos.2 hpos
    have hden : (t.den : ℚ) ≠ 0 := by exact_mod_cast t.den_nz
    have hsq : 0 < t * t := mul_pos hpos hpos
    unfold sqrtModel
    rw [if_neg (not_le.2 hsq), Rat.mul_self_num, Rat.mul_self_den]
    have hN : (t.num * t.num).toNat * (t.den * t.den) * 10 ^ 24
        = (t.num.toNat * t.den * 10 ^ 12) * (t.num.toNat * t.den * 10 ^ 12) := by
      have : (t.num * t.num).toNat = t.num.toNat * t.num.toNat := by
        have h1 : ((t.num.toNat : Nat) : Int) = t.num := Int.toNat_of_nonneg (le_of_lt hnum)
        apply Int.ofNat.inj
        show (((t.num * t.num).toNat : Nat) : Int) = ((t.num.toNat * t.num.toNat : Nat) : Int)
        rw [Int.toNat_of_nonneg (le_of_lt (mul_pos hnum hnum))]
        push_cast
        rw [h1]
      rw [this]
      ring
    rw [hN, Nat.sqrt_eq]
    have hcast : ((t.num.toNat : Nat) : ℚ) = (t.num : ℚ) := by
      have : ((t.num.toNat : Nat) : Int) = t.num := Int.toNat_of_nonneg (le_of_lt hnum)
      exact_mod_cast congrArg (fun z : Int => (z : ℚ)) this
    have key : ∀ n d : ℚ, d ≠ 0 → (n * d * 10 ^ 12) / (d * d * 10 ^ 12) = n / d := by
      intro n d hd
      field_simp
      ring
    calc ((t.num.toNat * t.den * 10 ^ 12 : Nat) : ℚ) / ((t.den * t.den * 10 ^ 12 : Nat) : ℚ)
        = ((t.num : ℚ) * (t.den : ℚ) * 10 ^ 12) / ((t.den : ℚ) * (t.den : ℚ) * 10 ^ 12) := by
          push_cast
          rw [hcast]
          norm_num
      _ = (t.num : ℚ) / (t.den : ℚ) := key _ _ hden
      _ = t := Rat.num_div_den t

namespace FormulaCell

theorem stdDev_foldl (values : List ℚ) (a : ℚ × ℚ) :
    values.foldl (fun (a : ℚ × ℚ) v => (a.1 + v, a.2 + v * v)) a
      = (a.1 + values.sum, a.2 + (values.map (fun x => x * x)).sum) := by
  induction values generalizing a with
  | nil => simp
  | cons v vs ih =>
    simp only [List.foldl_cons, ih, List.sum_cons, List.map_cons]
    ext <;> simp <;> ring

theorem calculateStdDev_eq (values : List ℚ) (h : 2 ≤ values.length) :
    calculateStdDev values = sqrtModel (meanSquareMinusSquareMean values) := by
  unfold calculateStdDev meanSquareMinusSquareMean
  rw [if_neg (by omega)]
  simp only [stdDev_foldl, zero_add]

theorem sum_sq_sub (values : List ℚ) (c : ℚ) :
    (values.map (fun x => (x - c) * (x - c))).sum
      = (values.map (fun x => x * x)).sum - 2 * c * values.sum
        + (values.length : ℚ) * (c * c) := by
  induction values with
  | nil => simp
  | cons v vs ih =>
    simp only [List.map_cons, List.sum_cons, ih, List.length_cons]
    push_cast
    ring

theorem sum_sq_nonneg (values : List ℚ) (c : ℚ) :
    0 ≤ (values.map (fun x => (x - c) * (x - c))).sum := by
  apply List.sum_nonneg
  intro x hx
  simp only [List.mem_map] at hx
  obtain ⟨y, _, rfl⟩ := hx
  exact mul_self_nonneg _

theorem meanSquareMinusSquareMean_nonneg (values : List ℚ) :
    0 ≤ meanSquareMinusSquareMean values := by
  unfold meanSquareMinusSquareMean
  by_cases hn : values.length = 0
  · simp [hn]
  · have hpos : (0 : ℚ) < (values.length : ℚ) := by
      exact_mod_cast Nat.pos_of_ne_zero hn
    have h1 := sum_sq_sub values (values.sum / (values.length : ℚ))
    have h2 := sum_sq_nonneg values (values.sum / (values.length : ℚ))
    rw [h1] at h2
    have hne : (values.length : ℚ) ≠ 0 := ne_of_gt hpos
    have key : (values.map (fun x => x * x)).sum / (values.length : ℚ)
        - values.sum / (values.length : ℚ) * (values.sum / (values.length : ℚ))
        = ((values.map (fun x => x * x)).sum
            - 2 * (values.sum / (values.length : ℚ)) * values.sum
            + (values.length : ℚ) * (values.sum / (values.length : ℚ)
              * (values.sum / (values.length : ℚ)))) / (values.length : ℚ) := by
      field_simp
      ring
    rw [key]
    exact div_nonneg h2 (le_of_lt hpos)

end FormulaCell

namespace Spreadsheet

theorem observeAfter_ok {α : Type} (edits : List (Int × Int × Str)) (k : Spreadsheet → α)
    (v : α) (h : observeAfter edits k = Except.ok v) :
    ∃ s, setAll (create 21 8) edits = Except.ok s ∧ k s = v := by
  unfold observeAfter at h
  cases hs : setAll (create 21 8) edits with
  | error x => rw [hs] at h; cases h
  | ok s =>
    rw [hs] at h
    simp only [Except.ok.injEq] at h
    exact ⟨s, rfl, h⟩

theorem observeAfter_of_setAll {α : Type} (edits : List (Int × Int × Str))
    (k : Spreadsheet → α) (s : Spreadsheet) (h : setAll (create 21 8) edits = Except.ok s) :
    observeAfter edits k = Except.ok (k s) := by
  unfold observeAfter
  rw [h]

end Spreadsheet

namespace FormulaCell

theorem evaluate_of_values (s : Spreadsheet) (f funcName range start stop : Str)
    (values : List ℚ) (result : ℚ) (hf : isFunction f = true)
    (hp : parseFunctionAndRange f = Except.ok (funcName, range))
    (hr : parseRange range = Except.ok (start, stop))
    (hv : getValuesFromRange s start stop = Except.ok values)
    (ha : applyFunction funcName values = Except.ok result) :
    evaluate s f = formatTwoDecimals result := by
  rw [evaluate_function s f hf]
  unfold evaluateFunction
  rw [hp]
  simp only [hr, hv, ha]

end FormulaCell


theorem findChar_append_of_not_mem (c : Char) (pre rest : Str) (h : c ∉ pre) :
    findChar c (pre ++ rest) = (findChar c rest).map (· + pre.length) := by
  induction pre with
  | nil => simp
  | cons x xs ih =>
    have hx : x ≠ c := fun e => h (e ▸ List.mem_cons_self _ _)
    have hxs : c ∉ xs := fun e => h (List.mem_cons_of_mem _ e)
    show findChar c (x :: (xs ++ rest)) = _
    rw [findChar, if_neg hx, ih hxs]
    cases findChar c rest with
    | none => rfl
    | some k =>
      simp only [Option.map_some', Option.some.injEq, List.length_cons]
      omega

namespace FormulaCell

open Spreadsheet

theorem parseFunctionAndRange_name (name body : Str) (h1 : '(' ∉ name)
    (hlen : ('@' :: name ++ '(' :: body).length < 2 ^ 64) :
    parseFunctionAndRange ('@' :: name ++ '(' :: body) = Except.error Exn.runtime_error ∨
    ∃ range, parseFunctionAndRange ('@' :: name ++ '(' :: body) = Except.ok (name, range) := by
  have hopen : findChar '(' ('@' :: name ++ '(' :: body) = some (name.length + 1) := by
    have hn : '(' ∉ '@' :: name := by
      simp only [List.mem_cons, not_or]
      exact ⟨by decide, h1⟩
    have := findChar_append_of_not_mem '(' ('@' :: name) ('(' :: body) hn
    rw [this]
    simp [findChar]
  unfold parseFunctionAndRange
  rw [hopen]
  cases findChar ')' ('@' :: name ++ '(' :: body) with
  | none => exact Or.inl rfl
  | some closeParen =>
    right
    have hl : name.length < 2 ^ 64 := by
      simp only [List.length_cons, List.length_append] at hlen
      omega
    have hcount : (name.length + 1 + 2 ^ 64 - 1) % 2 ^ 64 = name.length := by
      have : name.length + 1 + 2 ^ 64 - 1 = name.length + 2 ^ 64 := by omega
      rw [this, Nat.add_mod_right, Nat.mod_eq_of_lt hl]
    have hname : substr ('@' :: name ++ '(' :: body) 1
        ((name.length + 1 + 2 ^ 64 - 1) % 2 ^ 64) = name := by
      rw [hcount]
      simp [substr]
    simp only []
    rw [hname]
    exact ⟨_, rfl⟩

theorem evaluate_unknown_name (s : Spreadsheet) (name body : Str) (h1 : '(' ∉ name)
    (hlen : ('@' :: name ++ '(' :: body).length < 2 ^ 64) (hn : name ∉ recognisedNames) :
    evaluate s ('@' :: name ++ '(' :: body) = "#ERROR".toList := by
  have hf : isFunction ('@' :: name ++ '(' :: body) = true := by
    simp [isFunction]
  rcases parseFunctionAndRange_name name body h1 hlen with h | ⟨range, h⟩
  · rw [evaluate_function s _ hf]
    unfold evaluateFunction
    rw [h]
  · exact evaluate_unknown_function s _ name range hf h hn

/-- Two function names of the same length without parentheses that select the same
calculation give the same cached value on every range text. -/
theorem evaluate_same_function (s : Spreadsheet) (n1 n2 body : Str)
    (hlen : n1.length = n2.length) (ho1 : '(' ∉ n1) (hc1 : ')' ∉ n1) (ho2 : '(' ∉ n2)
    (hc2 : ')' ∉ n2) (hsmall : n1.length < 2 ^ 64)
    (happ : ∀ values, applyFunction n1 values = applyFunction n2 values) :
    evaluate s ('@' :: n1 ++ '(' :: body) = evaluate s ('@' :: n2 ++ '(' :: body) := by
  have hparse : ∀ n : Str, '(' ∉ n → ')' ∉ n → n.length < 2 ^ 64 →
      parseFunctionAndRange ('@' :: n ++ '(' :: body) =
        match findChar ')' body with
        | none => Except.error Exn.runtime_error
        | some k => Except.ok (n,
            body.take ((k + 1 + (n.length + 1) + 2 ^ 64 - (n.length + 1) - 1) % 2 ^ 64)) := by
    intro n ho hc hl
    have hno : '(' ∉ '@' :: n := by
      simp only [List.mem_cons, not_or]
      exact ⟨by decide, ho⟩
    have hnc : ')' ∉ '@' :: n := by
      simp only [List.mem_cons, not_or]
      exact ⟨by decide, hc⟩
    have h1 := findChar_append_of_not_mem '(' ('@' :: n) ('(' :: body) hno
    have h2 := findChar_append_of_not_mem ')' ('@' :: n) ('(' :: body) hnc
    have hcount : (n.length + 1 + 2 ^ 64 - 1) % 2 ^ 64 = n.length := by
      have : n.length + 1 + 2 ^ 64 - 1 = n.length + 2 ^ 64 := by omega
      rw [this, Nat.add_mod_right, Nat.mod_eq_of_lt hl]
    unfold parseFunctionAndRange
    rw [h1, h2]
    cases hk : findChar ')' body with
    | none => simp [findChar, hk]
    | some k =>
      simp only [findChar, hk, if_true, Option.map_some', List.length_cons, zero_add,
        show ('(' : Char) = ')' ↔ False from by decide, if_false]
      simp only [Except.ok.injEq, Prod.mk.injEq]
      constructor
      · rw [hcount]
        simp [substr]
      · simp [substr]
  have hf1 : isFunction ('@' :: n1 ++ '(' :: body) = true := by simp [isFunction]
  have hf2 : isFunction ('@' :: n2 ++ '(' :: body) = true := by simp [isFunction]
  rw [evaluate_function s _ hf1, evaluate_function s _ hf2]
  unfold evaluateFunction
  rw [hparse n1 ho1 hc1 hsmall, hparse n2 ho2 hc2 (hlen ▸ hsmall), hlen]
  cases findChar ')' body with
  | none => rfl
  | some k =>
    simp only []
    cases parseRange _ with
    | error e => rfl
    | ok se =>
      obtain ⟨start, stop⟩ := se
      simp only []
      cases getValuesFromRange s start stop with
      | error e => rfl
      | ok values =>
        simp only [happ values]

theorem isCellReference_not_operator (t : Str) (h : isCellReference t = true) :
    isOperator t = false := by
  cases ho : isOperator t with
  | false => rfl
  | true =>
    simp only [isOperator, Bool.or_eq_true, decide_eq_true_eq] at ho
    rcases ho with ((e | e) | e) | e <;> subst e <;> revert h <;> decide

theorem evaluateLoop_division_reached (s : Spreadsheet) (pre : List Str) (t : Str)
    (post : List Str) (st0 st : ℚ × Str) (hpre : evaluateLoop s st0 pre = Except.ok st)
    (hv : operandValue s t = Except.ok 0) :
    evaluateLoop s st0 (pre ++ ['/'] :: t :: post) = Except.error Exn.runtime_error := by
  have hop : isOperator t = false := by
    cases h : isOperator t with
    | false => rfl
    | true => rw [operandValue_operator s t h] at hv; cases hv
  have hslash : isOperator ['/'] = true := by decide
  rw [evaluateLoop_append, hpre]
  simp [evaluateLoop, evaluateStep, hslash, hop, hv, applyOperator]

end FormulaCell


theorem natOfDigits_foldl (ds : Str) (acc : Nat) :
    ds.foldl (fun acc d => 10 * acc + digitVal d) acc
      = acc * 10 ^ ds.length + natOfDigits ds := by
  unfold natOfDigits
  induction ds generalizing acc with
  | nil => simp
  | cons d ds ih =>
    simp only [List.foldl_cons, List.length_cons]
    rw [ih (10 * acc + digitVal d), ih (10 * 0 + digitVal d)]
    ring

theorem natOfDigits_cons (d : Char) (ds : Str) :
    natOfDigits (d :: ds) = digitVal d * 10 ^ ds.length + natOfDigits ds := by
  have h := natOfDigits_foldl ds (10 * 0 + digitVal d)
  unfold natOfDigits at h ⊢
  simp only [List.foldl_cons]
  rw [h]
  simp

theorem digitChar_isdigit (k : Nat) (hk : k < 10) :
    isdigit (Nat.digitChar k) = true ∧ digitVal (Nat.digitChar k) = k := by
  interval_cases k <;> decide

theorem toDigitsCore_spec (fuel n : Nat) (ds : Str) (hfuel : n < fuel)
    (hds : ∀ c ∈ ds, isdigit c = true) :
    (∀ c ∈ Nat.toDigitsCore 10 fuel n ds, isdigit c = true) ∧
    Nat.toDigitsCore 10 fuel n ds ≠ [] ∧
    natOfDigits (Nat.toDigitsCore 10 fuel n ds) = n * 10 ^ ds.length + natOfDigits ds := by
  induction fuel generalizing n ds with
  | zero => omega
  | succ fuel ih =>
    have hd := digitChar_isdigit (n % 10) (Nat.mod_lt _ (by decide))
    have hcons : ∀ c ∈ Nat.digitChar (n % 10) :: ds, isdigit c = true := by
      intro c hc
      rcases List.mem_cons.1 hc with h | h
      · rw [h]; exact hd.1
      · exact hds c h
    unfold Nat.toDigitsCore
    by_cases h0 : n / 10 = 0
    · simp only [h0, if_true]
      refine ⟨hcons, by simp, ?_⟩
      rw [natOfDigits_cons, hd.2]
      have : n % 10 = n := Nat.mod_eq_of_lt (by omega)
      rw [this]
    · simp only [h0, if_false]
      have hlt : n / 10 < fuel := by omega
      obtain ⟨i1, i2, i3⟩ := ih (n / 10) (Nat.digitChar (n % 10) :: ds) hlt hcons
      refine ⟨i1, i2, ?_⟩
      rw [i3, natOfDigits_cons, hd.2, List.length_cons]
      have hn : n = 10 * (n / 10) + n % 10 := (Nat.div_add_mod n 10).symm
      generalize n / 10 = q at hn ⊢
      generalize n % 10 = r at hn ⊢
      rw [hn]
      ring

theorem toDigits_spec (n : Nat) :
    (∀ c ∈ Nat.toDigits 10 n, isdigit c = true) ∧ Nat.toDigits 10 n ≠ [] ∧
    natOfDigits (Nat.toDigits 10 n) = n := by
  obtain ⟨h1, h2, h3⟩ := toDigitsCore_spec (n + 1) n [] (by omega) (fun c hc => by cases hc)
  refine ⟨h1, h2, ?_⟩
  unfold Nat.toDigits
  rw [h3]
  simp [natOfDigits]

theorem isdigit_not_alpha_space (c : Char) (h : isdigit c = true) :
    isalpha c = false ∧ isspace c = false ∧ c ≠ '-' ∧ c ≠ '+' := by
  simp only [isdigit, Bool.and_eq_true, decide_eq_true_eq] at h
  refine ⟨?_, ?_, ?_, ?_⟩
  · simp only [isalpha, Bool.or_eq_false_iff, Bool.and_eq_false_iff, decide_eq_false_iff_not]
    omega
  · simp only [isspace, Bool.or_eq_false_iff, Bool.and_eq_false_iff, decide_eq_false_iff_not]
    omega
  · intro e
    rw [e] at h
    revert h
    decide
  · intro e
    rw [e] at h
    revert h
    decide

theorem takeWhile_eq_self_of_all (p : Char → Bool) (l : Str) (h : ∀ c ∈ l, p c = true) :
    l.takeWhile p = l := by
  induction l with
  | nil => rfl
  | cons a as ih =>
    rw [List.takeWhile_cons, h a (List.mem_cons_self _ _),
      ih (fun c hc => h c (List.mem_cons_of_mem _ hc))]
    rfl

theorem stoi_digits (ds : Str) (hne : ds ≠ []) (hds : ∀ c ∈ ds, isdigit c = true)
    (hmax : natOfDigits ds ≤ 2147483647) : stoi ds = Except.ok (natOfDigits ds : Int) := by
  cases ds with
  | nil => exact absurd rfl hne
  | cons d rest =>
    obtain ⟨_, hsp, hm, hp⟩ := isdigit_not_alpha_space d (hds d (List.mem_cons_self _ _))
    have h1 : (d :: rest).dropWhile isspace = d :: rest := by simp [List.dropWhile, hsp]
    have h2 : splitSign (d :: rest) = (false, d :: rest) := by
      unfold splitSign
      split
      · rename_i heq; cases heq; exact absurd rfl hm
      · rename_i heq; cases heq; exact absurd rfl hp
      · rfl
    unfold stoi
    simp only [h1, h2, takeWhile_eq_self_of_all isdigit (d :: rest) hds]
    rw [if_neg (by simp)]
    simp only [Bool.false_eq_true, if_false]
    rw [if_neg (by omega)]

namespace Spreadsheet

theorem splitReference_digits (ds colLabel rowLabel : Str)
    (hds : ∀ c ∈ ds, isdigit c = true) :
    splitReference ds colLabel rowLabel = Except.ok (colLabel, rowLabel ++ ds) := by
  induction ds generalizing rowLabel with
  | nil => simp [splitReference]
  | cons d rest ih =>
    have hd := hds d (List.mem_cons_self _ _)
    have ha := (isdigit_not_alpha_space d hd).1
    unfold splitReference
    simp only [ha, hd, if_true, Bool.false_eq_true, if_false]
    rw [ih _ (fun c hc => hds c (List.mem_cons_of_mem _ hc))]
    simp

theorem getColumnLabel_single (col : Int) (h0 : 0 ≤ col) (h1 : col < 26) :
    getColumnLabel col = [Char.ofNat (col.toNat + 65)] := by
  unfold getColumnLabel
  have hd : col / 26 - 1 = -1 := by omega
  have hm : col % 26 = col := by omega
  cases hf : col.toNat with
  | zero =>
    simp only [getColumnLabelLoop, h0, ge_iff_le, if_true, hd, hm, hf]
  | succ k =>
    simp only [getColumnLabelLoop, h0, ge_iff_le, if_true, hd, hm, hf]
    rw [if_neg (by omega)]

end Spreadsheet


namespace HW1

namespace FormulaParser

theorem applyOperator_zero_divisor (a : ℚ) : applyOperator a 0 ['/'] = 0 := by
  simp [applyOperator]

theorem evaluateLoop_append_hw1 (disp : Cell → Except Fault Str) (s : Spreadsheet)
    (xs ys : List Str) (st : ℚ × Str) :
    evaluateLoop disp s st (xs ++ ys) =
      match evaluateLoop disp s st xs with
      | Except.error f => Except.error f
      | Except.ok st1 => evaluateLoop disp s st1 ys := by
  induction xs generalizing st with
  | nil => rfl
  | cons x xs ih =>
    simp only [List.cons_append, evaluateLoop]
    cases evaluateStep disp s st x with
    | error f => rfl
    | ok st1 => exact ih st1

theorem evaluateLoop_final_division (disp : Cell → Except Fault Str) (s : Spreadsheet)
    (pre : List Str) (t : Str) (st0 st : ℚ × Str)
    (hpre : evaluateLoop disp s st0 pre = Except.ok st) (hop : isOperator t = false)
    (hv : getNumericValue disp s t = Except.ok 0) :
    evaluateLoop disp s st0 (pre ++ [['/'], t]) = Except.ok (0, ['/']) := by
  have hslash : isOperator ['/'] = true := by decide
  rw [evaluateLoop_append_hw1, hpre]
  simp [evaluateLoop, evaluateStep, hslash, hop, hv, applyOperator]

theorem parseFormula_final_division (disp : Cell → Except Fault Str) (s : Spreadsheet)
    (rest : Str) (pre : List Str) (t : Str) (st : ℚ × Str)
    (htok : tokenize rest = pre ++ [['/'], t])
    (hpre : evaluateLoop disp s (0, []) pre = Except.ok st) (hop : isOperator t = false)
    (hv : getNumericValue disp s t = Except.ok 0) :
    parseFormula disp s ('=' :: rest) = Except.ok 0 := by
  have hl := evaluateLoop_final_division disp s pre t (0, []) st hpre hop hv
  unfold parseFormula
  simp only [show ('=' : Char) = '@' ↔ False from by decide, if_false, if_true]
  unfold evaluateExpression
  rw [htok, hl]

theorem getNumericValue_literal (disp : Cell → Except Fault Str) (s : Spreadsheet)
    (token : Str) (v : ℚ) (hn : isNumber token = true) (hv : stod token = Except.ok v) :
    getNumericValue disp s token = Except.ok v := by
  unfold getNumericValue stodF
  rw [if_pos hn, hv]

end FormulaParser

end HW1


theorem isalpha_not_digit (c : Char) (h : isalpha c = true) : isdigit c = false := by
  cases hd : isdigit c with
  | false => rfl
  | true => rw [(isdigit_not_alpha_space c hd).1] at h; cases h

theorem stoi_digits_eq (ds : Str) (hne : ds ≠ []) (hds : ∀ c ∈ ds, isdigit c = true) :
    stoi ds = if 2147483647 < natOfDigits ds then Except.error Exn.out_of_range
      else Except.ok (natOfDigits ds : Int) := by
  by_cases hbig : 2147483647 < natOfDigits ds
  · rw [if_pos hbig]
    cases ds with
    | nil => exact absurd rfl hne
    | cons d rest =>
      obtain ⟨_, hsp, hm, hp⟩ := isdigit_not_alpha_space d (hds d (List.mem_cons_self _ _))
      have h1 : (d :: rest).dropWhile isspace = d :: rest := by simp [List.dropWhile, hsp]
      have h2 : splitSign (d :: rest) = (false, d :: rest) := by
        unfold splitSign
        split
        · rename_i heq; cases heq; exact absurd rfl hm
        · rename_i heq; cases heq; exact absurd rfl hp
        · rfl
      unfold stoi
      simp only [h1, h2, takeWhile_eq_self_of_all isdigit (d :: rest) hds]
      rw [if_neg (by simp)]
      simp only [Bool.false_eq_true, if_false]
      rw [if_pos (by omega)]
  · rw [if_neg hbig]
    exact stoi_digits ds hne hds (by omega)

namespace Spreadsheet

theorem splitReference_eq (ref colLabel rowLabel : Str) :
    splitReference ref colLabel rowLabel =
      if ref.all (fun ch => isalpha ch || isdigit ch) = true then
        Except.ok (colLabel ++ ref.filter isalpha, rowLabel ++ ref.filter isdigit)
      else Except.error Exn.runtime_error := by
  induction ref generalizing colLabel rowLabel with
  | nil => simp [splitReference]
  | cons ch rest ih =>
    unfold splitReference
    cases ha : isalpha ch with
    | true =>
      have hd := isalpha_not_digit ch ha
      simp [ih, ha, hd, List.filter_cons]
    | false =>
      cases hd : isdigit ch with
      | true => simp [ih, ha, hd, List.filter_cons]
      | false => simp [ha, hd]

theorem filter_isdigit_all (ref : Str) : ∀ c ∈ ref.filter isdigit, isdigit c = true := by
  intro c hc
  exact (List.mem_filter.1 hc).2

theorem parseCellReference_eq (ref : Str) :
    parseCellReference ref =
      if ref.all (fun ch => isalpha ch || isdigit ch) = true then
        match ref.filter isalpha with
        | [] => Except.error Exn.runtime_error
        | c0 :: _ =>
          if ref.filter isdigit = [] then Except.error Exn.runtime_error
          else if 2147483647 < natOfDigits (ref.filter isdigit) then
            Except.error Exn.out_of_range
          else Except.ok ((natOfDigits (ref.filter isdigit) : Int) - 1, (c0.toNat : Int) - 65)
      else Except.error Exn.runtime_error := by
  unfold parseCellReference
  rw [splitReference_eq]
  by_cases hall : ref.all (fun ch => isalpha ch || isdigit ch) = true
  · simp only [hall, if_true, List.nil_append]
    cases hcol : ref.filter isalpha with
    | nil => rfl
    | cons c0 cs =>
      simp only []
      by_cases hrow : ref.filter isdigit = []
      · simp only [hrow, if_true]
      · simp only [hrow, if_false]
        rw [stoi_digits_eq _ hrow (filter_isdigit_all ref)]
        by_cases hbig : 2147483647 < natOfDigits (ref.filter isdigit)
        · simp only [hbig, if_true]
        · simp only [hbig, if_false]
  · simp only [hall, if_false, Bool.false_eq_true]

theorem isUpper_isalpha (c : Char) (h : isUpper c = true) : isalpha c = true := by
  simp only [isUpper, Bool.and_eq_true, decide_eq_true_eq] at h
  simp only [isalpha, Bool.or_eq_true, Bool.and_eq_true, decide_eq_true_eq]
  exact Or.inl h

theorem isUpper_letter (k : Nat) (hk : k < 26) :
    isUpper (Char.ofNat (k + 65)) = true ∧ (Char.ofNat (k + 65)).toNat = k + 65 := by
  interval_cases k <;> decide

theorem getColumnLabelLoop_upper (fuel : Nat) (col : Int) (label : Str)
    (h : ∀ ch ∈ label, isUpper ch = true) :
    ∀ ch ∈ getColumnLabelLoop fuel col label, isUpper ch = true := by
  induction fuel generalizing col label with
  | zero => simpa [getColumnLabelLoop] using h
  | succ fuel ih =>
    unfold getColumnLabelLoop
    by_cases hc : col ≥ 0
    · rw [if_pos hc]
      apply ih
      intro ch hch
      rcases List.mem_cons.1 hch with rfl | hch
      · exact (isUpper_letter (col % 26).toNat (by omega)).1
      · exact h ch hch
    · rw [if_neg hc]
      exact h

theorem getColumnLabelLoop_ne_nil (fuel : Nat) (col : Int) (label : Str)
    (h : label ≠ [] ∨ (0 ≤ col ∧ 0 < fuel)) :
    getColumnLabelLoop fuel col label ≠ [] := by
  induction fuel generalizing col label with
  | zero =>
    rcases h with h | ⟨_, h⟩
    · simpa [getColumnLabelLoop] using h
    · omega
  | succ fuel ih =>
    unfold getColumnLabelLoop
    by_cases hc : col ≥ 0
    · rw [if_pos hc]
      exact ih _ _ (Or.inl (List.cons_ne_nil _ _))
    · rw [if_neg hc]
      rcases h with h | ⟨h, _⟩
      · exact h
      · omega

theorem getColumnLabel_upper (col : Int) (h0 : 0 ≤ col) :
    getColumnLabel col ≠ [] ∧ ∀ ch ∈ getColumnLabel col, isUpper ch = true :=
  ⟨getColumnLabelLoop_ne_nil _ _ _ (Or.inr ⟨h0, by omega⟩),
    getColumnLabelLoop_upper _ _ _ (by simp)⟩

theorem getColumnLabelLoop_length (fuel : Nat) (col : Int) (label : Str)
    (h26 : 26 ≤ col) (hfuel : col < fuel) :
    label.length + 2 ≤ (getColumnLabelLoop fuel col label).length := by
  cases fuel with
  | zero => omega
  | succ fuel =>
    unfold getColumnLabelLoop
    rw [if_pos (by omega)]
    cases fuel with
    | zero => omega
    | succ fuel =>
      unfold getColumnLabelLoop
      rw [if_pos (by omega)]
      have hmono : ∀ (f : Nat) (c : Int) (l : Str), l.length ≤ (getColumnLabelLoop f c l).length := by
        intro f
        induction f with
        | zero => intro c l; simp [getColumnLabelLoop]
        | succ f ih =>
          intro c l
          unfold getColumnLabelLoop
          by_cases hc : c ≥ 0
          · rw [if_pos hc]
            exact le_trans (by simp) (ih _ _)
          · rw [if_neg hc]
      exact le_trans (by simp) (hmono _ _ _)

theorem parseCellReference_label (label : Str) (c0 : Char) (cs : Str) (hl : label = c0 :: cs)
    (hup : ∀ ch ∈ label, isUpper ch = true) :
    parseCellReference (label ++ ['1']) = Except.ok (0, (c0.toNat : Int) - 65) := by
  have halpha : ∀ ch ∈ label, isalpha ch = true := fun ch hch => isUpper_isalpha ch (hup ch hch)
  have hdig : ∀ ch ∈ label, isdigit ch = false := fun ch hch => isalpha_not_digit ch (halpha ch hch)
  have h1 : (label ++ ['1']).all (fun ch => isalpha ch || isdigit ch) = true := by
    rw [List.all_eq_true]
    intro ch hch
    rcases List.mem_append.1 hch with h | h
    · rw [halpha ch h]; rfl
    · rw [List.mem_singleton.1 h]; decide
  have h2 : (label ++ ['1']).filter isalpha = label := by
    rw [List.filter_append, List.filter_eq_self.2 halpha]
    simp [List.filter, show isalpha '1' = false from by decide]
  have h3 : (label ++ ['1']).filter isdigit = ['1'] := by
    rw [List.filter_append, List.filter_eq_nil_iff.2 (fun ch hch => by rw [hdig ch hch]; simp)]
    simp [List.filter, show isdigit '1' = true from by decide]
  rw [parseCellReference_eq, if_pos h1, h2, h3, hl]
  simp only []
  rw [if_neg (by simp), if_neg (by decide)]
  have : natOfDigits ['1'] = 1 := by decide
  rw [this]
  rfl

end Spreadsheet

theorem findDotDot_of_decomposition (pre post : Str) :
    ∃ k, findDotDot (pre ++ '.' :: '.' :: post) = some k ∧ k ≤ pre.length := by
  induction pre with
  | nil => exact ⟨0, by simp [findDotDot], le_refl _⟩
  | cons x pre ih =>
    obtain ⟨k, hk, hle⟩ := ih
    cases hrest : pre ++ '.' :: '.' :: post with
    | nil => cases pre <;> simp at hrest
    | cons y r =>
      rw [hrest] at hk
      by_cases hc : x = '.' ∧ y = '.'
      · exact ⟨0, by simp [List.cons_append, hrest, findDotDot, hc], Nat.zero_le _⟩
      · refine ⟨k + 1, ?_, by simp; omega⟩
        simp only [List.cons_append, hrest, findDotDot, if_neg hc, hk, Option.map_some']

theorem findDotDot_some (t : Str) (k : Nat) (h : findDotDot t = some k) :
    t = t.take k ++ '.' :: '.' :: t.drop (k + 2) := by
  induction t generalizing k with
  | nil => simp [findDotDot] at h
  | cons x t ih =>
    cases t with
    | nil => simp [findDotDot] at h
    | cons y r =>
      by_cases hc : x = '.' ∧ y = '.'
      · simp only [findDotDot, if_pos hc, Option.some.injEq] at h
        subst h
        simp [hc.1, hc.2]
      · simp only [findDotDot, if_neg hc] at h
        cases hk : findDotDot (y :: r) with
        | none => rw [hk] at h; simp at h
        | some k1 =>
          rw [hk] at h
          simp only [Option.map_some', Option.some.injEq] at h
          subst h
          have := ih k1 hk
          have h2 : List.drop (k1 + 2) (y :: r) = List.drop (k1 + 1) r := rfl
          rw [h2] at this
          simp only [List.take_succ_cons, List.drop_succ_cons, List.cons_append]
          rw [← this]

theorem findDotDot_spec (t : Str) :
    (findDotDot t = none ∧ ¬ List.IsInfix ['.', '.'] t) ∨
    ∃ k, findDotDot t = some k ∧ t.take k ++ ['.', '.'] ++ t.drop (k + 2) = t ∧
      k ≤ t.length ∧
      (∀ pre post : Str, pre ++ ['.', '.'] ++ post = t → k ≤ pre.length) := by
  cases h : findDotDot t with
  | none =>
    left
    refine ⟨rfl, ?_⟩
    rintro ⟨pre, post, hpp⟩
    obtain ⟨k, hk, _⟩ := findDotDot_of_decomposition pre post
    have : pre ++ '.' :: '.' :: post = t := by rw [← hpp]; simp
    rw [this, h] at hk
    cases hk
  | some k =>
    right
    have hd := findDotDot_some t k h
    refine ⟨k, rfl, ?_, ?_, ?_⟩
    · conv_rhs => rw [hd]
      simp
    · have hl := congrArg List.length hd
      simp only [List.length_append, List.length_cons, List.length_take, List.length_drop] at hl
      omega
    · intro pre post hpp
      obtain ⟨k1, hk1, hle⟩ := findDotDot_of_decomposition pre post
      have : pre ++ '.' :: '.' :: post = t := by rw [← hpp]; simp
      rw [this, h] at hk1
      cases hk1
      exact hle

namespace FormulaCell

open Spreadsheet

theorem intRange_eq_nil (lo hi : Int) (h : hi < lo) : intRange lo hi = [] := by
  unfold intRange
  have : (hi + 1 - lo).toNat = 0 := by omega
  rw [this]
  rfl

theorem rectangle_eq_nil (sr sc er ec : Int) (h : er < sr ∨ ec < sc) :
    rectangle sr sc er ec = [] := by
  unfold rectangle
  rcases h with h | h
  · rw [intRange_eq_nil sr er h]; rfl
  · rw [intRange_eq_nil sc ec h]; simp

end FormulaCell


theorem isUpper_bounds (c : Char) (h : isUpper c = true) : 65 ≤ c.toNat ∧ c.toNat ≤ 90 := by
  simpa [isUpper] using h

theorem toupper_upper (c : Char) (h : isUpper c = true) : toupper c = c.toNat := by
  have := isUpper_bounds c h
  unfold toupper
  rw [if_neg (by omega)]

theorem pow26_pos (m : Nat) : (1 : Int) ≤ 26 ^ m :=
  one_le_pow₀ (by norm_num)

theorem positionalSum_bounds (label : Str) (hup : ∀ ch ∈ label, isUpper ch = true) :
    (26 : Int) ^ label.length ≤ 25 * positionalSum label + 1 ∧
    25 * positionalSum label + 26 ≤ 26 ^ (label.length + 1) := by
  induction label with
  | nil => simp [positionalSum]
  | cons ch rest ih =>
    obtain ⟨h1, h2⟩ := ih (fun c hc => hup c (List.mem_cons_of_mem _ hc))
    have hb := isUpper_bounds ch (hup ch (List.mem_cons_self _ _))
    have hP := pow26_pos rest.length
    simp only [positionalSum, List.length_cons, pow_succ] at *
    have hd1 : (1 : Int) ≤ (ch.toNat : Int) - 65 + 1 := by omega
    have hd2 : (ch.toNat : Int) - 65 + 1 ≤ 26 := by omega
    constructor
    · nlinarith
    · nlinarith

theorem positionalSum_nonneg (label : Str) (hup : ∀ ch ∈ label, isUpper ch = true) :
    0 ≤ positionalSum label := by
  have := (positionalSum_bounds label hup).1
  have := pow26_pos label.length
  omega

theorem positionalSum_short (label : Str) (hup : ∀ ch ∈ label, isUpper ch = true)
    (hlen : label.length ≤ 6) : positionalSum label ≤ 321272406 := by
  have h := (positionalSum_bounds label hup).2
  have hp : (26 : Int) ^ (label.length + 1) ≤ 26 ^ 7 :=
    pow_le_pow_right₀ (by norm_num) (by omega)
  norm_num at hp
  omega

theorem positionalSum_lt_of_length (a b : Str) (ha : ∀ ch ∈ a, isUpper ch = true)
    (hb : ∀ ch ∈ b, isUpper ch = true) (h : a.length < b.length) :
    positionalSum a < positionalSum b := by
  have h1 := (positionalSum_bounds a ha).2
  have h2 := (positionalSum_bounds b hb).1
  have hp : (26 : Int) ^ (a.length + 1) ≤ 26 ^ b.length :=
    pow_le_pow_right₀ (by norm_num) (by omega)
  omega

theorem positionalSum_lt_of_lex (a b : Str) (ha : ∀ ch ∈ a, isUpper ch = true)
    (hb : ∀ ch ∈ b, isUpper ch = true) (hlen : a.length = b.length)
    (h : lexBefore a b = true) : positionalSum a < positionalSum b := by
  induction a generalizing b with
  | nil =>
    cases b with
    | nil => simp [lexBefore] at h
    | cons y ys => simp at hlen
  | cons x xs ih =>
    cases b with
    | nil => simp at hlen
    | cons y ys =>
      have hlen1 : xs.length = ys.length := by simpa using hlen
      have hxs : ∀ ch ∈ xs, isUpper ch = true := fun c hc => ha c (List.mem_cons_of_mem _ hc)
      have hys : ∀ ch ∈ ys, isUpper ch = true := fun c hc => hb c (List.mem_cons_of_mem _ hc)
      simp only [lexBefore, Bool.or_eq_true, Bool.and_eq_true, decide_eq_true_eq] at h
      simp only [positionalSum, ← hlen1]
      rcases h with h | ⟨h, hl⟩
      · have b1 := (positionalSum_bounds xs hxs).2
        have b2 := (positionalSum_bounds ys hys).1
        rw [← hlen1] at b2
        have hP := pow26_pos xs.length
        simp only [pow_succ] at b1
        have hd : (x.toNat : Int) - 65 + 1 + 1 ≤ (y.toNat : Int) - 65 + 1 := by omega
        nlinarith
      · subst h
        have := ih ys hxs hys hlen1 hl
        omega

theorem positionalSum_lt_of_labelBefore (a b : Str) (ha : ∀ ch ∈ a, isUpper ch = true)
    (hb : ∀ ch ∈ b, isUpper ch = true) (h : labelBefore a b = true) :
    positionalSum a < positionalSum b := by
  simp only [labelBefore, Bool.or_eq_true, Bool.and_eq_true, decide_eq_true_eq] at h
  rcases h with h | ⟨hlen, h⟩
  · exact positionalSum_lt_of_length a b ha hb h
  · exact positionalSum_lt_of_lex a b ha hb hlen h

namespace Spreadsheet

theorem columnToIndexLoop_eq (label : Str) (hup : ∀ ch ∈ label, isUpper ch = true)
    (index : Int) (h0 : 0 ≤ index) (hmax : index ≤ 2147483647) :
    columnToIndexLoop label index =
      if index * 26 ^ label.length + positionalSum label ≤ 2147483647 then
        Except.ok (index * 26 ^ label.length + positionalSum label)
      else Except.error HW1.Fault.signed_overflow := by
  induction label generalizing index with
  | nil => simp [columnToIndexLoop, positionalSum, hmax]
  | cons ch rest ih =>
    have hrest : ∀ c ∈ rest, isUpper c = true := fun c hc => hup c (List.mem_cons_of_mem _ hc)
    have hch := hup ch (List.mem_cons_self _ _)
    have hb := isUpper_bounds ch hch
    have hP := pow26_pos rest.length
    have hps := positionalSum_nonneg rest hrest
    have hfinal : index * 26 ^ (ch :: rest).length + positionalSum (ch :: rest)
        = (index * 26 + ((ch.toNat : Int) - 65 + 1)) * 26 ^ rest.length + positionalSum rest := by
      simp only [positionalSum, List.length_cons, pow_succ]
      ring
    rw [hfinal]
    have hnext0 : 0 ≤ index * 26 + ((ch.toNat : Int) - 65 + 1) := by omega
    have hge : index * 26 + ((ch.toNat : Int) - 65 + 1)
        ≤ (index * 26 + ((ch.toNat : Int) - 65 + 1)) * 26 ^ rest.length + positionalSum rest := by
      nlinarith
    unfold columnToIndexLoop
    simp only [isUpper_isalpha ch hch, if_true, toupper_upper ch hch]
    by_cases hov : 2147483647 < index * 26 + ((ch.toNat : Int) - 65 + 1)
    · rw [if_pos (Or.inr hov), if_neg (by omega)]
    · rw [if_neg (by omega), ih hrest _ hnext0 (by omega)]

theorem columnToIndex_eq (label : Str) (hup : ∀ ch ∈ label, isUpper ch = true) :
    columnToIndex label =
      if positionalSum label ≤ 2147483647 then Except.ok (bijectiveBase26 label)
      else Except.error HW1.Fault.signed_overflow := by
  unfold columnToIndex
  rw [columnToIndexLoop_eq label hup 0 (le_refl _) (by norm_num)]
  simp only [zero_mul, zero_add]
  by_cases h : positionalSum label ≤ 2147483647
  · simp only [h, if_true, bijectiveBase26]
  · simp only [h, if_false]

end Spreadsheet

namespace HW1

namespace Spreadsheet

theorem columnToIndexLoop_eq_hw1 (label : Str) (hup : ∀ ch ∈ label, isUpper ch = true)
    (index : Int) (h0 : 0 ≤ index) (hmax : index ≤ 2147483647) :
    columnToIndexLoop label index =
      if index * 26 ^ label.length + positionalSum label ≤ 2147483647 then
        Except.ok (index * 26 ^ label.length + positionalSum label)
      else Except.error Fault.signed_overflow := by
  induction label generalizing index with
  | nil => simp [columnToIndexLoop, positionalSum, hmax]
  | cons ch rest ih =>
    have hrest : ∀ c ∈ rest, isUpper c = true := fun c hc => hup c (List.mem_cons_of_mem _ hc)
    have hch := hup ch (List.mem_cons_self _ _)
    have hb := isUpper_bounds ch hch
    have hP := pow26_pos rest.length
    have hps := positionalSum_nonneg rest hrest
    have hfinal : index * 26 ^ (ch :: rest).length + positionalSum (ch :: rest)
        = (index * 26 + ((ch.toNat : Int) - 65 + 1)) * 26 ^ rest.length + positionalSum rest := by
      simp only [positionalSum, List.length_cons, pow_succ]
      ring
    rw [hfinal]
    have hnext0 : 0 ≤ index * 26 + ((ch.toNat : Int) - 65 + 1) := by omega
    have hge : index * 26 + ((ch.toNat : Int) - 65 + 1)
        ≤ (index * 26 + ((ch.toNat : Int) - 65 + 1)) * 26 ^ rest.length + positionalSum rest := by
      nlinarith
    unfold columnToIndexLoop
    simp only []
    by_cases hov : 2147483647 < index * 26 + ((ch.toNat : Int) - 65 + 1)
    · rw [if_pos (Or.inr hov), if_neg (by omega)]
    · rw [if_neg (by omega), ih hrest _ hnext0 (by omega)]

theorem columnToIndex_eq_hw1 (label : Str) (hup : ∀ ch ∈ label, isUpper ch = true) :
    columnToIndex label =
      if positionalSum label ≤ 2147483647 then Except.ok (bijectiveBase26 label)
      else Except.error Fault.signed_overflow := by
  unfold columnToIndex
  rw [columnToIndexLoop_eq_hw1 label hup 0 (le_refl _) (by norm_num)]
  simp only [zero_mul, zero_add]
  by_cases h : positionalSum label ≤ 2147483647
  · simp only [h, if_true, bijectiveBase26]
  · simp only [h, if_false]

end Spreadsheet

end HW1


theorem stod_ok_of_stoi_ok (str : Str) (i : Int) (h : stoi str = Except.ok i) :
    ∃ d, stod str = Except.ok d := by
  unfold stoi at h
  unfold stod
  simp only [] at h ⊢
  by_cases hds : (splitSign (str.dropWhile isspace)).2.takeWhile isdigit = []
  · rw [if_pos hds] at h
    cases h
  · rw [if_neg (fun hh => hds hh.1)]
    exact ⟨_, rfl⟩

namespace Spreadsheet

theorem classifyValue_string_iff (content : Str) :
    classifyValue content = Cell.StringValueCell content ↔
      ∃ e, stod content = Except.error e := by
  unfold classifyValue
  by_cases hdot : '.' ∈ content
  · rw [if_pos hdot]
    cases hd : stod content with
    | ok d => simp
    | error e => simp
  · rw [if_neg hdot]
    cases hi : stoi content with
    | ok i =>
      obtain ⟨d, hd⟩ := stod_ok_of_stoi_ok content i hi
      simp [hd]
    | error e =>
      cases hd : stod content with
      | ok d => simp
      | error e1 => simp

end Spreadsheet

namespace SheetStore

theorem resizeGrid_counters (st : SheetStore) (newRows newCols : Int) :
    (st.resizeGrid newRows newCols).map (fun st1 => (st1.totalRows, st1.totalCols))
      = (st.resizeGrid newRows newCols).map (fun _ => (newRows, newCols)) := by
  unfold resizeGrid
  by_cases h : newRows ≤ 0 ∨ newCols ≤ 0
  · rw [if_pos h]; rfl
  · rw [if_neg h]
    cases st.grid.resize newRows newCols with
    | error f => rfl
    | ok g =>
      simp only []
      cases initializeNew st.totalRows st.totalCols newRows newCols g with
      | error f => rfl
      | ok g1 => rfl

end SheetStore

namespace FileManager

theorem intercalate_snoc {α : Type} (f : Nat → List α) (sep : List α) (l : List Nat) (x : Nat) :
    List.intercalate sep ((l ++ [x]).map f) = l.flatMap (fun j => f j ++ sep) ++ f x := by
  induction l with
  | nil => simp [List.intercalate]
  | cons a l ih =>
    cases l with
    | nil => simp [List.intercalate, List.intersperse]
    | cons b l =>
      simp only [List.intercalate] at ih ⊢
      simp only [List.cons_append, List.map_cons, List.intersperse_cons_cons, List.flatten_cons,
        List.flatMap_cons, List.append_assoc] at ih ⊢
      rw [ih]

theorem rowText_eq (s : Spreadsheet) (i : Int) :
    rowText s i = List.intercalate [','] ((List.range s.totalCols).map
      (fun (j : Nat) => displayedAt s i (j : Int))) := by
  unfold rowText
  cases hn : s.totalCols with
  | zero => rfl
  | succ n =>
    rw [List.range_succ, intercalate_snoc, List.flatMap_append]
    congr 1
    · apply FormulaCell.flatMap_congr_mem
      intro j hj
      have hj1 : j < n := List.mem_range.1 hj
      rw [if_pos (by push_cast; omega)]
      rfl
    · simp only [List.flatMap_cons, List.flatMap_nil, List.append_nil]
      rw [if_neg (by push_cast; omega)]
      simp [displayedAt]

theorem saveFileAs_eq (s : Spreadsheet) : saveFileAs s = displayedSerialisation s := by
  unfold saveFileAs displayedSerialisation
  apply FormulaCell.flatMap_congr_mem
  intro i _
  rw [rowText_eq]

end FileManager


namespace Spreadsheet

open FormulaCell

theorem recalculate_visits_dependent_at (s : Spreadsheet) (row col r c : Int) (f cv : Str)
    (deps : List (Int × Int)) (hcell : s.getCell r c = some (Cell.FormulaCell f cv deps))
    (hdep : (row, col) ∈ deps) :
    ∃ sv, Frame row col s sv ∧ sv.grid r c = s.grid r c ∧
      (s.recalculateDependencies row col).grid r c
        = some (Cell.FormulaCell f (evaluate sv f) deps) := by
  obtain ⟨hin, hg⟩ := getCell_eq_some s r c _ hcell
  have hmem : (r, c) ∈ scanOrder s := (mem_scanOrder s r c).2 hin
  obtain ⟨l1, l2, hl⟩ := List.append_of_mem hmem
  have hpw := scanOrder_pairwise s
  rw [hl, List.pairwise_append] at hpw
  obtain ⟨_, hpw2, hpw12⟩ := hpw
  rw [List.pairwise_cons] at hpw2
  have hn1 : (r, c) ∉ l1 := fun hm =>
    scanBefore_irrefl (r, c) (hpw12 (r, c) hm (r, c) (List.mem_cons_self _ _))
  have hn2 : (r, c) ∉ l2 := fun hm => scanBefore_irrefl (r, c) (hpw2.1 (r, c) hm)
  have hd : dependsOn (s.grid r c) row col = true := by
    rw [hg]
    simp only [dependsOn, List.any_eq_true]
    exact ⟨(row, col), hdep, by simp⟩
  have hfin := scan_visit row col l1 l2 (r, c) s hn1 hn2 hd
  refine ⟨l1.foldl (fun s1 p => recalculateCell row col s1 p.1 p.2) s,
    scan_frame row col l1 s, scan_not_mem row col l1 s (r, c) hn1, ?_⟩
  rw [recalculateDependencies_eq_scan, hl]
  simp only at hfin
  rw [hfin, hg]
  rfl

theorem setAt_grid_self (s : Spreadsheet) (row col : Int) (cell : Option Cell) :
    (s.setAt row col cell).grid row col = cell := by
  simp [setAt]

theorem setAt_setAt (s : Spreadsheet) (row col : Int) (c1 c2 : Option Cell) :
    (s.setAt row col c1).setAt row col c2 = s.setAt row col c2 := by
  unfold setAt
  simp only
  congr 1
  funext r c
  by_cases h : r = row ∧ c = col
  · simp [h]
  · simp [h]

theorem setCellContent_formula (s : Spreadsheet) (row col : Int) (f : Str)
    (deps : List (Int × Int))
    (hr0 : 0 ≤ row) (hr1 : row < s.totalRows) (hc0 : 0 ≤ col) (hc1 : col < s.totalCols)
    (hf : f.head? = some '=') (hdeps : updateDependencies [] f = Except.ok deps) :
    s.setCellContent row col f = Except.ok
      ((s.setAt row col (some (Cell.FormulaCell f
          (evaluate (s.setAt row col (some (Cell.FormulaCell f (evaluate s f) deps))) f)
          deps))).recalculateDependencies row col) := by
  have hb : ¬ (row < 0 ∨ row ≥ s.totalRows ∨ col < 0 ∨ col ≥ s.totalCols) := by omega
  have hne : f ≠ [] := by
    intro h
    rw [h] at hf
    cases hf
  have hat : ¬ (f.head? = some '@' ∧ ')' ∈ f) := by
    rintro ⟨h, _⟩
    rw [hf] at h
    cases h
  unfold setCellContent
  rw [if_neg hb, if_neg hne, if_neg hat, if_pos hf]
  unfold FormulaCell.new
  rw [hdeps]
  simp only []
  unfold evaluateAt
  rw [setAt_grid_self]
  simp only []
  rw [setAt_setAt]

theorem setCellContent_outcome (s : Spreadsheet) (row col : Int) (content : Str) :
    s.setCellContent row col content =
      match (s.setCellContentOutcome row col content).2 with
      | none => Except.ok (s.setCellContentOutcome row col content).1
      | some e => Except.error e := by
  unfold setCellContent setCellContentOutcome
  by_cases h1 : row < 0 ∨ row ≥ s.totalRows ∨ col < 0 ∨ col ≥ s.totalCols
  · simp only [h1, if_true]
  · simp only [h1, if_false]
    by_cases h2 : content = []
    · simp only [h2, if_true]
    · simp only [h2, if_false]
      by_cases h3 : content.head? = some '@' ∧ ')' ∈ content
      · simp only [h3, and_self, if_true]
        cases FormulaCell.new s content <;> rfl
      · simp only [h3, if_false]
        by_cases h4 : content.head? = some '='
        · simp only [h4, if_true]
          cases FormulaCell.new s content <;> rfl
        · simp only [h4, if_false]

theorem drop_length_takeWhile (p : Char → Bool) (l : Str) :
    l.drop (l.takeWhile p).length = l.dropWhile p := by
  induction l with
  | nil => rfl
  | cons x xs ih =>
    by_cases hx : p x = true
    · simp [List.takeWhile_cons, List.dropWhile_cons, hx, ih]
    · simp [List.takeWhile_cons, List.dropWhile_cons, hx]

theorem isCellReference_parts (t : Str) (h : isCellReference t = true) :
    t.all (fun ch => isalpha ch || isdigit ch) = true ∧ t.filter isalpha ≠ [] ∧
      t.filter isdigit ≠ [] := by
  unfold isCellReference at h
  by_cases hnil : t = []
  · rw [if_pos hnil] at h; cases h
  · rw [if_neg hnil] at h
    simp only [] at h
    by_cases hi : (t.takeWhile isalpha).length = 0 ∨ (t.takeWhile isalpha).length ≥ t.length
    · rw [if_pos hi] at h; cases h
    · rw [if_neg hi] at h
      have hdrop : t.drop (t.takeWhile isalpha).length = t.dropWhile isalpha :=
        drop_length_takeWhile isalpha t
      rw [hdrop] at h
      have hdig : ∀ c ∈ t.dropWhile isalpha, isdigit c = true := by
        have := of_decide_eq_true h
        rw [List.dropWhile_eq_nil_iff] at this
        exact this
      have hsplit := List.takeWhile_append_dropWhile isalpha t
      have htake : ∀ c ∈ t.takeWhile isalpha, isalpha c = true :=
        fun c hc => List.mem_takeWhile_imp hc
      have hlen : (t.takeWhile isalpha).length + (t.dropWhile isalpha).length = t.length := by
        conv_rhs => rw [← hsplit]
        rw [List.length_append]
      refine ⟨?_, ?_, ?_⟩
      · rw [List.all_eq_true]
        intro c hc
        rw [← hsplit] at hc
        rcases List.mem_append.1 hc with hc | hc
        · rw [htake c hc]; rfl
        · rw [hdig c hc]; simp
      · intro hnone
        have hne : t.takeWhile isalpha ≠ [] := by
          intro h0
          apply hi
          left
          rw [h0]; rfl
        obtain ⟨c, cs, hcs⟩ := List.exists_cons_of_ne_nil hne
        have hc : c ∈ t.takeWhile isalpha := by rw [hcs]; exact List.mem_cons_self _ _
        have hmem : c ∈ t.filter isalpha :=
          List.mem_filter.2 ⟨(List.takeWhile_sublist _).subset hc, htake c hc⟩
        rw [hnone] at hmem
        cases hmem
      · intro hnone
        have hne : t.dropWhile isalpha ≠ [] := by
          intro h0
          apply hi
          right
          rw [h0] at hlen
          simp at hlen
          omega
        obtain ⟨c, cs, hcs⟩ := List.exists_cons_of_ne_nil hne
        have hc : c ∈ t.dropWhile isalpha := by rw [hcs]; exact List.mem_cons_self _ _
        have hmem : c ∈ t.filter isdigit :=
          List.mem_filter.2 ⟨(List.dropWhile_sublist _).subset hc, hdig c hc⟩
        rw [hnone] at hmem
        cases hmem

theorem parseCellReference_error_of_reference (t : Str) (e : Exn)
    (h : isCellReference t = true) (he : parseCellReference t = Except.error e) :
    e = Exn.out_of_range := by
  obtain ⟨h1, h2, h3⟩ := isCellReference_parts t h
  rw [parseCellReference_eq, if_pos h1] at he
  obtain ⟨c0, cs, hcs⟩ := List.exists_cons_of_ne_nil h2
  rw [hcs] at he
  simp only [] at he
  rw [if_neg h3] at he
  by_cases hbig : 2147483647 < natOfDigits (t.filter isdigit)
  · rw [if_pos hbig] at he
    injection he with he
    exact he.symm
  · rw [if_neg hbig] at he
    cases he

theorem collectDependencies_error (tokens : List Str) (acc : List (Int × Int)) (e : Exn)
    (h : collectDependencies tokens acc = Except.error e) : e = Exn.out_of_range := by
  induction tokens generalizing acc with
  | nil => simp [collectDependencies] at h
  | cons t ts ih =>
    unfold collectDependencies at h
    by_cases hc : isCellReference t = true
    · rw [if_pos hc] at h
      cases hp : parseCellReference t with
      | error e1 =>
        rw [hp] at h
        simp only [] at h
        injection h with h
        rw [← h]
        exact parseCellReference_error_of_reference t e1 hc hp
      | ok rc =>
        rw [hp] at h
        exact ih _ h
    · rw [if_neg hc] at h
      exact ih _ h

theorem new_error (s : Spreadsheet) (content : Str) (e : Exn)
    (h : FormulaCell.new s content = Except.error e) : e = Exn.out_of_range := by
  unfold FormulaCell.new at h
  cases hu : updateDependencies [] content with
  | error e1 =>
    rw [hu] at h
    simp only [] at h
    injection h with h
    rw [← h]
    unfold updateDependencies at hu
    simp only [] at hu
    split at hu
    · cases hu
    · exact collectDependencies_error _ _ e1 hu
  | ok deps =>
    rw [hu] at h
    cases h

theorem setCellContentOutcome_raise (s : Spreadsheet) (row col : Int) (content : Str) (e : Exn)
    (h : (s.setCellContentOutcome row col content).2 = some e) :
    (s.setCellContentOutcome row col content).1 = s ∧ e = Exn.out_of_range := by
  unfold setCellContentOutcome at h ⊢
  by_cases h1 : row < 0 ∨ row ≥ s.totalRows ∨ col < 0 ∨ col ≥ s.totalCols
  · rw [if_pos h1] at h ⊢
    injection h with h
    exact ⟨rfl, h.symm⟩
  · rw [if_neg h1] at h ⊢
    by_cases h2 : content = []
    · rw [if_pos h2] at h
      cases h
    · rw [if_neg h2] at h ⊢
      by_cases h3 : content.head? = some '@' ∧ ')' ∈ content
      · rw [if_pos h3] at h ⊢
        cases hn : FormulaCell.new s content with
        | error e1 =>
          rw [hn] at h
          injection h with h
          exact ⟨rfl, h ▸ new_error s content e1 hn⟩
        | ok fc =>
          rw [hn] at h
          cases h
      · rw [if_neg h3] at h ⊢
        by_cases h4 : content.head? = some '='
        · rw [if_pos h4] at h ⊢
          cases hn : FormulaCell.new s content with
          | error e1 =>
            rw [hn] at h
            injection h with h
            exact ⟨rfl, h ▸ new_error s content e1 hn⟩
          | ok fc =>
            rw [hn] at h
            cases h
        · rw [if_neg h4] at h
          cases h

end Spreadsheet

namespace FormulaCell

open Spreadsheet

/-- The scanning loop has met an `@`: a pushed token or the pending token starts with it. -/
theorem tokenizeStep_at (st : TokState) (ch : Char)
    (h : ch = '@' ∨ (∃ t ∈ st.tokens, t.head? = some '@') ∨ st.token.head? = some '@') :
    (∃ t ∈ (tokenizeStep st ch).tokens, t.head? = some '@') ∨
      (tokenizeStep st ch).token.head? = some '@' := by
  have hflush : ∀ extra : List Str,
      ((∃ t ∈ st.tokens, t.head? = some '@') ∨ st.token.head? = some '@') →
      ∃ t ∈ flush st.tokens st.token ++ extra, t.head? = some '@' := by
    intro extra hh
    rcases hh with ⟨t, ht, hh⟩ | hh
    · refine ⟨t, ?_, hh⟩
      unfold flush
      split
      · simp [ht]
      · simp [ht]
    · have hne : st.token ≠ [] := by
        intro h0
        rw [h0] at hh
        cases hh
      refine ⟨st.token, ?_, hh⟩
      unfold flush
      rw [if_pos hne]
      simp
  have hhead : ∀ (tok : Str) (c : Char), tok.head? = some '@' →
      (tok ++ [c]).head? = some '@' := by
    intro tok c hh
    cases tok with
    | nil => cases hh
    | cons x xs => simpa using hh
  unfold tokenizeStep
  by_cases h1 : ch = '@'
  · rw [if_pos h1]
    right
    rw [h1]
    rfl
  · rw [if_neg h1]
    have h' : (∃ t ∈ st.tokens, t.head? = some '@') ∨ st.token.head? = some '@' := by
      rcases h with h | h
      · exact absurd h h1
      · exact h
    by_cases h2 : st.inFunction = true
    · rw [if_pos h2]
      by_cases h3 : ch = ')'
      · rw [if_pos h3]
        left
        rcases h' with ⟨t, ht, hh⟩ | hh
        · exact ⟨t, by simp [ht], hh⟩
        · exact ⟨st.token ++ [ch], by simp, hhead _ _ hh⟩
      · rw [if_neg h3]
        rcases h' with hh | hh
        · exact Or.inl hh
        · exact Or.inr (hhead _ _ hh)
    · rw [if_neg h2]
      by_cases h3 : isspace ch = true
      · rw [if_pos h3]
        left
        simpa using hflush [] h'
      · rw [if_neg h3]
        by_cases h4 : ch = '+' ∨ ch = '-' ∨ ch = '*' ∨ ch = '/'
        · rw [if_pos h4]
          left
          exact hflush [[ch]] h'
        · rw [if_neg h4]
          rcases h' with hh | hh
          · exact Or.inl hh
          · exact Or.inr (hhead _ _ hh)

theorem tokenizeLoop_at (l : Str) (st : TokState)
    (h : '@' ∈ l ∨ (∃ t ∈ st.tokens, t.head? = some '@') ∨ st.token.head? = some '@') :
    (∃ t ∈ (l.foldl tokenizeStep st).tokens, t.head? = some '@') ∨
      (l.foldl tokenizeStep st).token.head? = some '@' := by
  induction l generalizing st with
  | nil =>
    rcases h with h | h
    · cases h
    · exact h
  | cons c r ih =>
    rw [List.foldl_cons]
    apply ih
    rcases h with h | h
    · rcases List.mem_cons.1 h with h | h
      · exact Or.inr (tokenizeStep_at st c (Or.inl h.symm))
      · exact Or.inl h
    · exact Or.inr (tokenizeStep_at st c (Or.inr h))

theorem tokenize_at (rest : Str) (h : '@' ∈ rest) :
    ∃ t ∈ tokenize rest, t.head? = some '@' := by
  unfold tokenize
  simp only []
  rcases tokenizeLoop_at rest { tokens := [], token := [], inFunction := false } (Or.inl h)
    with ⟨t, ht, hh⟩ | hh
  · refine ⟨t, ?_, hh⟩
    unfold flush
    split
    · simp [ht]
    · exact ht
  · refine ⟨_, ?_, hh⟩
    unfold flush
    rw [if_pos (by intro h0; rw [h0] at hh; cases hh)]
    simp

theorem operandValue_at (s : Spreadsheet) (t : Str) (h : t.head? = some '@') :
    isOperator t = false ∧ operandValue s t = Except.error Exn.invalid_argument := by
  cases t with
  | nil => cases h
  | cons c r =>
    simp only [List.head?_cons, Option.some.injEq] at h
    subst h
    constructor
    · simp [isOperator]
    · unfold operandValue
      have hc : isCellReference ('@' :: r) = false := by
        unfold isCellReference
        rw [if_neg (by simp)]
        have : ('@' :: r).takeWhile isalpha = [] := by
          rw [List.takeWhile_cons, show isalpha '@' = false from by decide]
          rfl
        simp [this]
      rw [hc]
      simp only [Bool.false_eq_true, if_false]
      exact stod_error_of_head '@' r (by decide) (by decide) (by decide) (by decide) (by decide)

theorem tokenizeStep_hw1 (st : TokState) (ch : Char) (hch : ch ≠ '@')
    (hin : st.inFunction = false) :
    tokenizeStep st ch =
      { tokens := (HW1.FormulaParser.tokenizeStep (st.tokens, st.token) ch).1,
        token := (HW1.FormulaParser.tokenizeStep (st.tokens, st.token) ch).2,
        inFunction := false } := by
  unfold tokenizeStep HW1.FormulaParser.tokenizeStep flush
  rw [if_neg hch, hin]
  simp only [Bool.false_eq_true, if_false]
  by_cases h1 : isspace ch = true
  · simp only [h1, if_true]
  · simp only [h1, if_false]
    by_cases h2 : ch = '+' ∨ ch = '-' ∨ ch = '*' ∨ ch = '/'
    · simp only [h2, if_true]
      try (cases st; simp_all)
    · simp only [h2, if_false]
      try (cases st; simp_all)

theorem tokenizeLoop_hw1 (l : Str) (st : TokState) (hl : '@' ∉ l)
    (hin : st.inFunction = false) :
    l.foldl tokenizeStep st =
      { tokens := (l.foldl HW1.FormulaParser.tokenizeStep (st.tokens, st.token)).1,
        token := (l.foldl HW1.FormulaParser.tokenizeStep (st.tokens, st.token)).2,
        inFunction := false } := by
  induction l generalizing st with
  | nil =>
    cases st
    simp_all
  | cons c r ih =>
    have hc : c ≠ '@' := fun h => hl (h ▸ List.mem_cons_self _ _)
    have hr : '@' ∉ r := fun h => hl (List.mem_cons_of_mem _ h)
    rw [List.foldl_cons, List.foldl_cons, tokenizeStep_hw1 st c hc hin]
    rw [ih _ hr rfl]

end FormulaCell


theorem positionalSum_append (xs ys : Str) :
    positionalSum (xs ++ ys) = positionalSum xs * 26 ^ ys.length + positionalSum ys := by
  induction xs with
  | nil => simp [positionalSum]
  | cons x xs ih =>
    show positionalSum (x :: (xs ++ ys)) = _
    simp only [positionalSum, ih, List.length_append, pow_add]
    ring

namespace Spreadsheet

theorem getColumnLabelLoop_sum (fuel : Nat) (col : Int) (acc : Str) (hfuel : col < fuel)
    (hcol : -1 ≤ col) :
    positionalSum (getColumnLabelLoop fuel col acc)
      = (col + 1) * 26 ^ acc.length + positionalSum acc := by
  induction fuel generalizing col acc with
  | zero =>
    have : col = -1 := by omega
    subst this
    simp [getColumnLabelLoop]
  | succ fuel ih =>
    unfold getColumnLabelLoop
    by_cases hc : col ≥ 0
    · rw [if_pos hc, ih _ _ (by push_cast at hfuel; omega) (by omega)]
      have hletter := (isUpper_letter (col % 26).toNat (by omega)).2
      simp only [positionalSum, List.length_cons, pow_succ, hletter]
      have h1 : (((col % 26).toNat + 65 : Nat) : Int) = col % 26 + 65 := by omega
      rw [h1]
      have h2 := Int.ediv_add_emod col 26
      have h3 : col / 26 - 1 + 1 = col / 26 := by ring
      rw [h3]
      have h4 : col + 1 = 26 * (col / 26) + (col % 26 + 1) := by omega
      rw [h4]
      ring
    · rw [if_neg hc]
      have : col = -1 := by omega
      subst this
      simp

theorem getColumnLabelLoop_of_label (fuel : Nat) (xs acc : Str)
    (hup : ∀ ch ∈ xs, isUpper ch = true) (hfuel : positionalSum xs - 1 < fuel) :
    getColumnLabelLoop fuel (positionalSum xs - 1) acc = xs ++ acc := by
  induction fuel generalizing xs acc with
  | zero =>
    have h0 := positionalSum_nonneg xs hup
    have hb := (positionalSum_bounds xs hup).1
    rcases List.eq_nil_or_concat xs with h | ⟨ys, ch, h⟩
    · subst h; rfl
    · rw [List.concat_eq_append] at h
      exfalso
      have hlen : 1 ≤ xs.length := by rw [h]; simp
      have hp : (26 : Int) ^ 1 ≤ 26 ^ xs.length := pow_le_pow_right₀ (by norm_num) hlen
      simp at hfuel
      omega
  | succ fuel ih =>
    rcases List.eq_nil_or_concat xs with h | ⟨ys, ch, h⟩
    · subst h
      simp [getColumnLabelLoop, positionalSum]
    · rw [List.concat_eq_append] at h
      subst h
      have hys : ∀ c ∈ ys, isUpper c = true := fun c hc => hup c (by simp [hc])
      have hch := isUpper_bounds ch (hup ch (by simp))
      have hps := positionalSum_nonneg ys hys
      have hsum : positionalSum (ys ++ [ch]) = positionalSum ys * 26 + ((ch.toNat : Int) - 64) := by
        rw [positionalSum_append]
        simp [positionalSum]
        ring
      rw [hsum] at hfuel ⊢
      unfold getColumnLabelLoop
      rw [if_pos (by omega)]
      have hdiv : (positionalSum ys * 26 + ((ch.toNat : Int) - 64) - 1) / 26 - 1
          = positionalSum ys - 1 := by omega
      have hmod : ((positionalSum ys * 26 + ((ch.toNat : Int) - 64) - 1) % 26).toNat + 65
          = ch.toNat := by omega
      rw [hdiv, hmod, Char.ofNat_toNat, ih ys _ hys (by push_cast at hfuel; omega)]
      simp

theorem getColumnLabel_sum (c : Int) (h0 : 0 ≤ c) :
    positionalSum (getColumnLabel c) = c + 1 := by
  unfold getColumnLabel
  rw [getColumnLabelLoop_sum _ _ _ (by omega) (by omega)]
  simp [positionalSum]

theorem getColumnLabel_of_label (xs : Str) (hup : ∀ ch ∈ xs, isUpper ch = true) :
    getColumnLabel (positionalSum xs - 1) = xs := by
  unfold getColumnLabel
  have h0 := positionalSum_nonneg xs hup
  rw [getColumnLabelLoop_of_label _ xs [] hup (by omega)]
  simp

end Spreadsheet

theorem foldlM_invariant {α β ε : Type} (P : β → Prop) (f : β → α → Except ε β)
    (hstep : ∀ b a b1, P b → f b a = Except.ok b1 → P b1) (l : List α) (b b1 : β)
    (hb : P b) (h : l.foldlM f b = Except.ok b1) : P b1 := by
  induction l generalizing b with
  | nil =>
    simp only [List.foldlM_nil] at h
    injection h with h
    rw [← h]; exact hb
  | cons a l ih =>
    rw [List.foldlM_cons] at h
    cases hf : f b a with
    | error e => rw [hf] at h; cases h
    | ok b2 =>
      rw [hf] at h
      exact ih b2 (hstep b a b2 hb hf) h

theorem foldlM_error {α β ε : Type} (P : β → Prop) (E : ε) (f : β → α → Except ε β)
    (hstep : ∀ b a b1, P b → f b a = Except.ok b1 → P b1)
    (herr : ∀ b a e, P b → f b a = Except.error e → e = E)
    (l : List α) (x : α) (hx : x ∈ l) (hfail : ∀ b, P b → f b x = Except.error E)
    (b : β) (hb : P b) : l.foldlM f b = Except.error E := by
  induction l generalizing b with
  | nil => cases hx
  | cons a l ih =>
    rw [List.foldlM_cons]
    cases hf : f b a with
    | error e =>
      rw [herr b a e hb hf]
      rfl
    | ok b2 =>
      rcases List.mem_cons.1 hx with h | h
      · subst h
        rw [hfail b hb] at hf
        cases hf
      · exact ih h b2 (hstep b a b2 hb hf)

theorem foldlM_error_only {α β ε : Type} (P : β → Prop) (E : ε) (f : β → α → Except ε β)
    (hstep : ∀ b a b1, P b → f b a = Except.ok b1 → P b1)
    (herr : ∀ b a e, P b → f b a = Except.error e → e = E)
    (l : List α) (b : β) (e : ε) (hb : P b) (h : l.foldlM f b = Except.error e) : e = E := by
  induction l generalizing b with
  | nil => simp only [List.foldlM_nil] at h; cases h
  | cons a l ih =>
    rw [List.foldlM_cons] at h
    cases hf : f b a with
    | error e1 =>
      rw [hf] at h
      injection h with h
      rw [← h]
      exact herr b a e1 hb hf
    | ok b2 =>
      rw [hf] at h
      exact ih b2 (hstep b a b2 hb hf) h

namespace Dynamic2DVector

theorem store_ok (v : Dynamic2DVector) (i j : Int) (x : Option Cell)
    (h : 0 ≤ i ∧ i < v.rows ∧ 0 ≤ j ∧ j < v.cols) :
    v.store i j x
      = Except.ok { v with data := fun r c => if r = i ∧ c = j then x else v.data r c } := by
  unfold store
  rw [if_pos h]

theorem store_extent (v v1 : Dynamic2DVector) (i j : Int) (x : Option Cell)
    (h : v.store i j x = Except.ok v1) : v1.rows = v.rows ∧ v1.cols = v.cols := by
  unfold store at h
  split at h
  · injection h with h
    rw [← h]
    exact ⟨rfl, rfl⟩
  · cases h

theorem store_error (v : Dynamic2DVector) (i j : Int) (x : Option Cell) (e : HW1.Fault)
    (h : v.store i j x = Except.error e) : e = HW1.Fault.out_of_bounds := by
  unfold store at h
  split at h
  · cases h
  · injection h with h
    exact h.symm

theorem storeRow_ok (src t : Dynamic2DVector) (i : Int) (m : Nat)
    (hi : 0 ≤ i ∧ i < t.rows) (hm : (m : Int) ≤ t.cols) :
    (List.range m).foldlM (fun t1 (j : Nat) => t1.store i (j : Int) (src.data i (j : Int))) t
      = Except.ok { t with data := fun r c =>
          (if r = i ∧ 0 ≤ c ∧ c < (m : Int) then src.data r c else t.data r c) } := by
  induction m with
  | zero =>
    simp only [List.range_zero, List.foldlM_nil]
    show Except.ok t = _
    congr 1
    cases t
    simp only [mk.injEq, true_and]
    funext r c
    rw [if_neg (by push_cast; omega)]
  | succ m ih =>
    have hs := store_ok { t with data := fun r c =>
        (if r = i ∧ 0 ≤ c ∧ c < (m : Int) then src.data r c else t.data r c) } i (m : Int)
      (src.data i (m : Int)) (by simp only; push_cast at hm; omega)
    simp only [List.range_succ, List.foldlM_append, ih (by push_cast at hm; omega),
      List.foldlM_cons, List.foldlM_nil, bind, Except.bind, hs, pure, Except.pure]
    congr 1
    simp only [mk.injEq, true_and]
    funext r c
    by_cases h1 : r = i ∧ c = (m : Int)
    · rw [if_pos h1, if_pos (by push_cast; omega), h1.1, h1.2]
    · rw [if_neg h1]
      by_cases h2 : r = i ∧ 0 ≤ c ∧ c < (m : Int)
      · rw [if_pos h2, if_pos (by push_cast; omega)]
      · rw [if_neg h2, if_neg (by push_cast; omega)]

theorem copyRows_empty (src : Dynamic2DVector) (n : Nat) (t : Dynamic2DVector) :
    (List.range n).foldlM (fun t0 (i : Nat) =>
        (List.range 0).foldlM
          (fun t1 (j : Nat) => t1.store (i : Int) (j : Int) (src.data (i : Int) (j : Int))) t0) t
      = Except.ok t := by
  induction n with
  | zero => rfl
  | succ n ih =>
    rw [List.range_succ, List.foldlM_append, ih]
    rfl

theorem copyRows_ok (src t : Dynamic2DVector) (n m : Nat)
    (hn : (n : Int) ≤ t.rows) (hm : (m : Int) ≤ t.cols) :
    (List.range n).foldlM (fun t0 (i : Nat) =>
        (List.range m).foldlM
          (fun t1 (j : Nat) => t1.store (i : Int) (j : Int) (src.data (i : Int) (j : Int))) t0) t
      = Except.ok { t with data := fun r c =>
          (if 0 ≤ r ∧ r < (n : Int) ∧ 0 ≤ c ∧ c < (m : Int) then src.data r c
            else t.data r c) } := by
  induction n with
  | zero =>
    simp only [List.range_zero, List.foldlM_nil]
    show Except.ok t = _
    congr 1
    cases t
    simp only [mk.injEq, true_and]
    funext r c
    rw [if_neg (by push_cast; omega)]
  | succ n ih =>
    have hs := storeRow_ok src { t with data := fun r c =>
        (if 0 ≤ r ∧ r < (n : Int) ∧ 0 ≤ c ∧ c < (m : Int) then src.data r c
          else t.data r c) } (n : Int) m (by simp only; push_cast at hn; omega)
      (by simpa using hm)
    simp only [List.range_succ, List.foldlM_append, ih (by push_cast at hn; omega),
      List.foldlM_cons, List.foldlM_nil, bind, Except.bind, hs, pure, Except.pure]
    congr 1
    simp only [mk.injEq, true_and]
    funext r c
    by_cases h1 : r = (n : Int) ∧ 0 ≤ c ∧ c < (m : Int)
    · rw [if_pos h1, if_pos (by push_cast; omega)]
    · rw [if_neg h1]
      by_cases h2 : 0 ≤ r ∧ r < (n : Int) ∧ 0 ≤ c ∧ c < (m : Int)
      · rw [if_pos h2, if_pos (by push_cast; omega)]
      · rw [if_neg h2, if_neg (by push_cast; omega)]

theorem copyLoop_ok (src temp : Dynamic2DVector)
    (h : 0 < src.rows → 0 < src.cols → src.rows ≤ temp.rows ∧ src.cols ≤ temp.cols) :
    copyLoop src temp = Except.ok { temp with data := fun r c =>
      (if 0 ≤ r ∧ r < src.rows ∧ 0 ≤ c ∧ c < src.cols then src.data r c
        else temp.data r c) } := by
  unfold copyLoop
  by_cases hrow : 0 < src.rows
  · by_cases hcol : 0 < src.cols
    · obtain ⟨h1, h2⟩ := h hrow hcol
      rw [copyRows_ok src temp _ _ (by omega) (by omega)]
      congr 1
      simp only [mk.injEq, true_and]
      funext r c
      have e1 : ((src.rows.toNat : Nat) : Int) = src.rows := by omega
      have e2 : ((src.cols.toNat : Nat) : Int) = src.cols := by omega
      rw [e1, e2]
    · have h0 : src.cols.toNat = 0 := by omega
      rw [h0, copyRows_empty]
      congr 1
      cases temp
      simp only [mk.injEq, true_and]
      funext r c
      rw [if_neg (by omega)]
  · have h0 : src.rows.toNat = 0 := by omega
    rw [h0]
    simp only [List.range_zero, List.foldlM_nil]
    show Except.ok temp = _
    congr 1
    cases temp
    simp only [mk.injEq, true_and]
    funext r c
    rw [if_neg (by omega)]

theorem copyLoop_error (src temp : Dynamic2DVector) (hr : 0 < src.rows) (hc : 0 < src.cols)
    (h : temp.rows < src.rows ∨ temp.cols < src.cols) (ht : 0 ≤ temp.rows ∧ 0 ≤ temp.cols) :
    copyLoop src temp = Except.error HW1.Fault.out_of_bounds := by
  unfold copyLoop
  have hinner_step : ∀ (i : Nat) (b : Dynamic2DVector) (a : Nat) (b1 : Dynamic2DVector),
      (b.rows = temp.rows ∧ b.cols = temp.cols) →
      b.store (i : Int) (a : Int) (src.data (i : Int) (a : Int)) = Except.ok b1 →
      (b1.rows = temp.rows ∧ b1.cols = temp.cols) := by
    intro i b a b1 hb hs
    obtain ⟨h1, h2⟩ := store_extent b b1 _ _ _ hs
    exact ⟨h1.trans hb.1, h2.trans hb.2⟩
  have hinner_err : ∀ (i : Nat) (b : Dynamic2DVector) (a : Nat) (e : HW1.Fault),
      (b.rows = temp.rows ∧ b.cols = temp.cols) →
      b.store (i : Int) (a : Int) (src.data (i : Int) (a : Int)) = Except.error e →
      e = HW1.Fault.out_of_bounds := fun i b a e _ hs => store_error b _ _ _ e hs
  apply foldlM_error (fun b : Dynamic2DVector => b.rows = temp.rows ∧ b.cols = temp.cols)
    HW1.Fault.out_of_bounds _ _ _ _
    (if temp.rows < src.rows then temp.rows.toNat else 0) _ _ temp ⟨rfl, rfl⟩
  · intro b a b1 hb hs
    exact foldlM_invariant _ _ (hinner_step a) _ b b1 hb hs
  · intro b a e hb hs
    exact foldlM_error_only _ _ _ (hinner_step a) (hinner_err a) _ b e hb hs
  · rw [List.mem_range]
    split <;> omega
  · intro b hb
    apply foldlM_error (fun b : Dynamic2DVector => b.rows = temp.rows ∧ b.cols = temp.cols)
      HW1.Fault.out_of_bounds _ (hinner_step _) (hinner_err _) _
      (if temp.cols < src.cols then temp.cols.toNat else 0) _ _ b hb
    · rw [List.mem_range]
      split <;> omega
    · intro b2 hb2
      unfold store
      rw [if_neg]
      rw [hb2.1, hb2.2]
      by_cases h1 : temp.rows < src.rows
      · rw [if_pos h1]
        omega
      · rw [if_neg h1]
        have h2 : temp.cols < src.cols := by omega
        rw [if_pos h2]
        omega

theorem resize_eq (v : Dynamic2DVector) (newRows newCols : Int) :
    v.resize newRows newCols =
      if newRows ≤ 0 ∨ newCols ≤ 0 then Except.error (HW1.Fault.exception Exn.invalid_argument)
      else if newRows ≤ v.rows ∧ newCols ≤ v.cols then Except.ok v
      else if (0 < v.rows ∧ 0 < v.cols) ∧ (newRows < v.rows ∨ newCols < v.cols) then
        Except.error HW1.Fault.out_of_bounds
      else Except.ok { rows := newRows, cols := newCols, data := fun r c =>
        (if 0 ≤ r ∧ r < v.rows ∧ 0 ≤ c ∧ c < v.cols then v.data r c else none) } := by
  unfold resize
  by_cases h1 : newRows ≤ 0 ∨ newCols ≤ 0
  · rw [if_pos h1, if_pos h1]
  · rw [if_neg h1, if_neg h1]
    by_cases h2 : newRows ≤ v.rows ∧ newCols ≤ v.cols
    · rw [if_pos h2, if_pos h2]
    · rw [if_neg h2, if_neg h2]
      by_cases h3 : (0 < v.rows ∧ 0 < v.cols) ∧ (newRows < v.rows ∨ newCols < v.cols)
      · rw [if_pos h3]
        exact copyLoop_error v (new newRows newCols) h3.1.1 h3.1.2 h3.2
          ⟨by simp only [new]; omega, by simp only [new]; omega⟩
      · rw [if_neg h3]
        rw [copyLoop_ok v (new newRows newCols) (by
          intro hr hc
          simp only [new]
          omega)]
        rfl

end Dynamic2DVector


namespace HW1

namespace FormulaParser

theorem isNumberLoop_shape (l : Str) (decimalPoint : Bool)
    (h : isNumberLoop l decimalPoint = true) :
    (∀ c ∈ l, isdigit c = true ∨ c = '.') ∧
      l.count '.' ≤ (if decimalPoint = true then 0 else 1) := by
  induction l generalizing decimalPoint with
  | nil => simp
  | cons c rest ih =>
    unfold isNumberLoop at h
    by_cases hd : isdigit c = true
    · rw [if_pos hd] at h
      obtain ⟨h1, h2⟩ := ih decimalPoint h
      have hne : c ≠ '.' := by
        intro hc
        rw [hc] at hd
        exact absurd hd (by decide)
      refine ⟨?_, ?_⟩
      · intro x hx
        rcases List.mem_cons.1 hx with rfl | hx
        · exact Or.inl hd
        · exact h1 x hx
      · rw [List.count_cons_of_ne hne.symm]
        exact h2
    · rw [if_neg hd] at h
      by_cases hdot : c = '.' ∧ decimalPoint = false
      · rw [if_pos hdot] at h
        obtain ⟨h1, h2⟩ := ih true h
        refine ⟨?_, ?_⟩
        · intro x hx
          rcases List.mem_cons.1 hx with rfl | hx
          · exact Or.inr hdot.1
          · exact h1 x hx
        · rw [hdot.1, List.count_cons_self, hdot.2]
          simp only [if_true] at h2
          simp only [Bool.false_eq_true, if_false]
          omega
      · rw [if_neg hdot] at h
        cases h

theorem isNumber_shape (token : Str) (h : isNumber token = true) :
    ∃ sign body, token = sign ++ body ∧ (sign = [] ∨ sign = ['+'] ∨ sign = ['-']) ∧
      token ≠ [] ∧ (∀ c ∈ body, isdigit c = true ∨ c = '.') ∧ body.count '.' ≤ 1 := by
  cases token with
  | nil => cases h
  | cons c rest =>
    unfold isNumber at h
    simp only [] at h
    by_cases hs : c = '+' ∨ c = '-'
    · rw [if_pos hs] at h
      obtain ⟨h1, h2⟩ := isNumberLoop_shape rest false h
      refine ⟨[c], rest, rfl, ?_, by simp, h1, by simpa using h2⟩
      rcases hs with hs | hs
      · exact Or.inr (Or.inl (by rw [hs]))
      · exact Or.inr (Or.inr (by rw [hs]))
    · rw [if_neg hs] at h
      obtain ⟨h1, h2⟩ := isNumberLoop_shape (c :: rest) false h
      exact ⟨[], c :: rest, rfl, Or.inl rfl, by simp, h1, by simpa using h2⟩

end FormulaParser

end HW1


namespace HW1

theorem getlineLoop_piece (d : Char) (cur piece rest : Str) (h : d ∉ piece) :
    getlineLoop d cur (piece ++ d :: rest) = (cur ++ piece) :: getlineLoop d [] rest := by
  induction piece generalizing cur with
  | nil => simp [getlineLoop]
  | cons x xs ih =>
    have hx : x ≠ d := fun hh => h (hh ▸ List.mem_cons_self _ _)
    have hxs : d ∉ xs := fun hh => h (List.mem_cons_of_mem _ hh)
    show getlineLoop d cur (x :: (xs ++ d :: rest)) = _
    rw [getlineLoop, if_neg hx, ih _ hxs]
    simp

theorem getlineLoop_last (d : Char) (cur piece : Str) (h : d ∉ piece) :
    getlineLoop d cur piece = if cur ++ piece = [] then [] else [cur ++ piece] := by
  induction piece generalizing cur with
  | nil => simp [getlineLoop]
  | cons x xs ih =>
    have hx : x ≠ d := fun hh => h (hh ▸ List.mem_cons_self _ _)
    have hxs : d ∉ xs := fun hh => h (List.mem_cons_of_mem _ hh)
    rw [getlineLoop, if_neg hx, ih _ hxs]
    simp

theorem getlineAll_lines (rows : List Str) (h : ∀ r ∈ rows, '\n' ∉ r) :
    getlineAll '\n' (rows.flatMap (fun r => r ++ ['\n'])) = rows := by
  induction rows with
  | nil => rfl
  | cons r rows ih =>
    have hr := h r (List.mem_cons_self _ _)
    have hrows : ∀ x ∈ rows, '\n' ∉ x := fun x hx => h x (List.mem_cons_of_mem _ hx)
    have e : (r :: rows).flatMap (fun r => r ++ ['\n'])
        = r ++ '\n' :: rows.flatMap (fun r => r ++ ['\n']) := by
      simp
    unfold getlineAll at ih ⊢
    rw [e, getlineLoop_piece _ _ _ _ hr, ih hrows]
    rfl

theorem intercalate_cons_cons {α : Type} (sep a b : List α) (l : List (List α)) :
    List.intercalate sep (a :: b :: l) = a ++ sep ++ List.intercalate sep (b :: l) := by
  simp [List.intercalate, List.intersperse]

theorem getlineAll_fields (cs : List Str) (h : ∀ c ∈ cs, ',' ∉ c) :
    (getlineAll ',' (List.intercalate [','] cs)).length ≤ cs.length ∧
    ∀ j, (getlineAll ',' (List.intercalate [','] cs)).getD j [] = cs.getD j [] := by
  induction cs with
  | nil =>
    refine ⟨by simp [getlineAll, getlineLoop, List.intercalate], ?_⟩
    intro j
    simp [getlineAll, getlineLoop, List.intercalate]
  | cons c cs ih =>
    have hc := h c (List.mem_cons_self _ _)
    have hcs : ∀ x ∈ cs, ',' ∉ x := fun x hx => h x (List.mem_cons_of_mem _ hx)
    cases cs with
    | nil =>
      have e : List.intercalate [','] [c] = c := by simp [List.intercalate, List.intersperse]
      unfold getlineAll
      rw [e, getlineLoop_last _ _ _ hc]
      by_cases hcn : c = []
      · subst hcn
        refine ⟨by simp, ?_⟩
        intro j
        cases j <;> simp
      · rw [List.nil_append, if_neg hcn]
        exact ⟨by simp, fun j => rfl⟩
    | cons c1 rest =>
      obtain ⟨ih1, ih2⟩ := ih hcs
      have e : List.intercalate [','] (c :: c1 :: rest)
          = c ++ ',' :: List.intercalate [','] (c1 :: rest) := by
        rw [intercalate_cons_cons]
        simp
      unfold getlineAll at ih1 ih2 ⊢
      rw [e, getlineLoop_piece _ _ _ _ hc]
      refine ⟨by simp only [List.length_cons] at ih1 ⊢; omega, ?_⟩
      intro j
      cases j with
      | zero => rfl
      | succ j =>
        rw [List.getD_cons_succ, List.getD_cons_succ]
        exact ih2 j

namespace Spreadsheet

theorem setCellContent_ok (s : Spreadsheet) (row col : Nat) (content : Str)
    (hr : row < s.totalRows) (hc : col < s.totalCols) :
    ∃ t, s.setCellContent (row : Int) (col : Int) content = Except.ok t ∧
      t.totalRows = s.totalRows ∧ t.totalCols = s.totalCols ∧
      (∀ i j, (t.grid i j).computedContent = (s.grid i j).computedContent) ∧
      (∀ i j, (t.grid i j).content
        = if i = row ∧ j = col then content else (s.grid i j).content) := by
  unfold setCellContent
  rw [if_pos (by omega)]
  refine ⟨_, rfl, rfl, rfl, ?_, ?_⟩
  · intro i j
    simp only [Int.toNat_ofNat]
    split <;> rfl
  · intro i j
    simp only [Int.toNat_ofNat]
    split <;> rfl

end Spreadsheet

namespace FileManager

theorem loadFields_ok (row : Nat) (fields : List Str) (col : Nat) (s : Spreadsheet)
    (hr : row < s.totalRows) (hc : col + fields.length ≤ s.totalCols) :
    ∃ t, loadFields row col fields s = Except.ok t ∧
      t.totalRows = s.totalRows ∧ t.totalCols = s.totalCols ∧
      (∀ i j, (t.grid i j).computedContent = (s.grid i j).computedContent) ∧
      (∀ i j, (t.grid i j).content
        = if i = row ∧ col ≤ j ∧ j < col + fields.length then fields.getD (j - col) []
          else (s.grid i j).content) := by
  induction fields generalizing col s with
  | nil =>
    refine ⟨s, rfl, rfl, rfl, fun _ _ => rfl, ?_⟩
    intro i j
    rw [if_neg (by simp only [List.length_nil]; omega)]
  | cons f rest ih =>
    simp only [List.length_cons] at hc
    obtain ⟨s1, h1, hr1, hc1, hcomp1, hcont1⟩ :=
      Spreadsheet.setCellContent_ok s row col f hr (by omega)
    obtain ⟨t, h2, hr2, hc2, hcomp2, hcont2⟩ :=
      ih (col + 1) s1 (by rw [hr1]; exact hr) (by rw [hc1]; omega)
    refine ⟨t, ?_, hr2.trans hr1, hc2.trans hc1, fun i j => (hcomp2 i j).trans (hcomp1 i j), ?_⟩
    · unfold loadFields
      rw [h1]
      exact h2
    · intro i j
      rw [hcont2 i j, hcont1 i j]
      simp only [List.length_cons]
      by_cases ha : i = row ∧ col + 1 ≤ j ∧ j < col + 1 + rest.length
      · rw [if_pos ha, if_pos (by omega)]
        have : j - col = (j - (col + 1)) + 1 := by omega
        rw [this, List.getD_cons_succ]
      · rw [if_neg ha]
        by_cases hb : i = row ∧ j = col
        · rw [if_pos hb, if_pos (by omega)]
          have : j - col = 0 := by omega
          rw [this, List.getD_cons_zero]
        · rw [if_neg hb, if_neg (by omega)]

theorem loadLines_ok (lines : List Str) (row : Nat) (s : Spreadsheet)
    (hr : row + lines.length ≤ s.totalRows)
    (hf : ∀ l ∈ lines, (getlineAll ',' l).length ≤ s.totalCols) :
    ∃ t, loadLines row lines s = Except.ok t ∧
      t.totalRows = s.totalRows ∧ t.totalCols = s.totalCols ∧
      (∀ i j, (t.grid i j).computedContent = (s.grid i j).computedContent) ∧
      (∀ i j, (t.grid i j).content
        = if row ≤ i ∧ i < row + lines.length ∧
            j < (getlineAll ',' (lines.getD (i - row) [])).length then
            (getlineAll ',' (lines.getD (i - row) [])).getD j []
          else (s.grid i j).content) := by
  induction lines generalizing row s with
  | nil =>
    refine ⟨s, rfl, rfl, rfl, fun _ _ => rfl, ?_⟩
    intro i j
    rw [if_neg (by simp only [List.length_nil]; omega)]
  | cons l rest ih =>
    simp only [List.length_cons] at hr
    obtain ⟨s1, h1, hr1, hc1, hcomp1, hcont1⟩ :=
      loadFields_ok row (getlineAll ',' l) 0 s (by omega)
        (by have := hf l (List.mem_cons_self _ _); omega)
    obtain ⟨t, h2, hr2, hc2, hcomp2, hcont2⟩ :=
      ih (row + 1) s1 (by rw [hr1]; omega)
        (fun x hx => by rw [hc1]; exact hf x (List.mem_cons_of_mem _ hx))
    refine ⟨t, ?_, hr2.trans hr1, hc2.trans hc1, fun i j => (hcomp2 i j).trans (hcomp1 i j), ?_⟩
    · unfold loadLines
      rw [h1]
      exact h2
    · intro i j
      rw [hcont2 i j, hcont1 i j]
      simp only [List.length_cons]
      by_cases ha : row + 1 ≤ i ∧ i < row + 1 + rest.length ∧
          j < (getlineAll ',' (rest.getD (i - (row + 1)) [])).length
      · have e : i - row = (i - (row + 1)) + 1 := by omega
        rw [if_pos ha, e, List.getD_cons_succ, if_pos ⟨by omega, by omega, ha.2.2⟩]
      · rw [if_neg ha]
        by_cases hb : i = row
        · subst hb
          have e : i - i = 0 := by omega
          rw [e, List.getD_cons_zero]
          simp only [Nat.sub_zero, Nat.zero_le, Nat.zero_add, true_and, le_refl]
          by_cases hj : j < (getlineAll ',' l).length
          · rw [if_pos hj, if_pos ⟨by omega, hj⟩]
          · rw [if_neg hj, if_neg (by omega)]
        · rw [if_neg (by omega), if_neg]
          intro hh
          apply ha
          have e : i - row = (i - (row + 1)) + 1 := by omega
          rw [e, List.getD_cons_succ] at hh
          exact ⟨by omega, by omega, hh.2.2⟩

theorem rowText_eq_hw1 (s : Spreadsheet) (i : Nat) :
    rowText s i = List.intercalate [','] ((List.range s.totalCols).map
      (fun (j : Nat) => (s.grid i j).content)) := by
  unfold rowText
  cases hn : s.totalCols with
  | zero => rfl
  | succ n =>
    rw [List.range_succ, GTUSpreadsheet.FileManager.intercalate_snoc, List.flatMap_append]
    congr 1
    · apply FormulaCell.flatMap_congr_mem
      intro j hj
      have hj1 : j < n := List.mem_range.1 hj
      rw [if_pos (by push_cast; omega)]
    · simp only [List.flatMap_cons, List.flatMap_nil, List.append_nil]
      rw [if_neg (by push_cast; omega)]
      simp

theorem saveFileAs_lines (s : Spreadsheet) :
    saveFileAs s = ((List.range s.totalRows).map (rowText s)).flatMap (fun r => r ++ ['\n']) := by
  unfold saveFileAs
  rw [List.flatMap_map]

theorem rowText_clean (s : Spreadsheet) (hs : SeparatorFree s) (i : Nat)
    (hi : i < s.totalRows) : '\n' ∉ rowText s i := by
  unfold rowText
  intro hmem
  rw [List.mem_flatMap] at hmem
  obtain ⟨j, hj, hmem⟩ := hmem
  rcases List.mem_append.1 hmem with h | h
  · exact (hs i j hi (List.mem_range.1 hj)).2 h
  · split at h
    · rw [List.mem_singleton] at h
      exact absurd h (by decide)
    · cases h

theorem loadFile_saveFileAs (s s0 : Spreadsheet) (hs : SeparatorFree s)
    (hrows : s0.totalRows = s.totalRows) (hcols : s0.totalCols = s.totalCols) :
    ∃ t, loadFile (saveFileAs s) s0 = Except.ok t ∧
      t.totalRows = s.totalRows ∧ t.totalCols = s.totalCols ∧
      ∀ i j, i < s.totalRows → j < s.totalCols →
        (t.grid i j).content = (s.grid i j).content ∧
        (t.grid i j).computedContent = (s0.grid i j).computedContent := by
  have hlines : getlineAll '\n' (saveFileAs s) = (List.range s.totalRows).map (rowText s) := by
    rw [saveFileAs_lines]
    apply getlineAll_lines
    intro r hr
    rw [List.mem_map] at hr
    obtain ⟨i, hi, rfl⟩ := hr
    exact rowText_clean s hs i (List.mem_range.1 hi)
  have hfields : ∀ i, i < s.totalRows →
      (getlineAll ',' (rowText s i)).length ≤ s.totalCols ∧
      ∀ j, j < s.totalCols →
        (getlineAll ',' (rowText s i)).getD j [] = (s.grid i j).content := by
    intro i hi
    have hclean : ∀ c ∈ (List.range s.totalCols).map (fun (j : Nat) => (s.grid i j).content),
        ',' ∉ c := by
      intro c hc
      rw [List.mem_map] at hc
      obtain ⟨j, hj, rfl⟩ := hc
      exact (hs i j hi (List.mem_range.1 hj)).1
    obtain ⟨h1, h2⟩ := getlineAll_fields _ hclean
    rw [← rowText_eq_hw1] at h1 h2
    refine ⟨by simpa using h1, ?_⟩
    intro j hj
    rw [h2 j, List.getD_eq_getElem?_getD, List.getElem?_map, List.getElem?_range hj]
    rfl
  unfold loadFile
  rw [hlines]
  obtain ⟨t, h1, hr1, hc1, hcomp, hcont⟩ :=
    loadLines_ok ((List.range s.totalRows).map (rowText s)) 0 s0.clear
      (by simp [Spreadsheet.clear, hrows])
      (by
        intro l hl
        rw [List.mem_map] at hl
        obtain ⟨i, hi, rfl⟩ := hl
        have := (hfields i (List.mem_range.1 hi)).1
        simpa [Spreadsheet.clear, hcols] using this)
  refine ⟨t, h1, ?_, ?_, ?_⟩
  · rw [hr1]; exact hrows
  · rw [hc1]; exact hcols
  · intro i j hi hj
    have hline : ((List.range s.totalRows).map (rowText s)).getD (i - 0) [] = rowText s i := by
      rw [Nat.sub_zero, List.getD_eq_getElem?_getD, List.getElem?_map, List.getElem?_range hi]
      rfl
    obtain ⟨hf1, hf2⟩ := hfields i hi
    refine ⟨?_, ?_⟩
    · rw [hcont i j, hline]
      simp only [List.length_map, List.length_range, Nat.zero_le, Nat.zero_add, true_and]
      by_cases hjl : j < (getlineAll ',' (rowText s i)).length
      · rw [if_pos ⟨hi, hjl⟩]
        exact hf2 j hj
      · rw [if_neg (fun hh => hjl hh.2)]
        have hd : (getlineAll ',' (rowText s i)).getD j [] = [] :=
          List.getD_eq_default _ _ (by omega)
        rw [← hf2 j hj, hd]
        simp [Spreadsheet.clear, hrows, hcols, hi, hj]
    · rw [hcomp i j]
      simp [Spreadsheet.clear, hrows, hcols, hi, hj]

end FileManager

end HW1

namespace HW1

namespace Spreadsheet

theorem getCellContentByOperand_congr_hw1 (s t : Spreadsheet) (disp disp' : Cell → Except Fault Str)
    (hA : SheetAgree s t)
    (hD : ∀ i j, i < s.totalRows → j < s.totalCols → disp' (t.grid i j) = disp (s.grid i j))
    (operand : Str) :
    getCellContentByOperand disp' t operand = getCellContentByOperand disp s operand := by
  unfold getCellContentByOperand
  simp only [hA.1, hA.2.1]
  cases stoiF (operand.filter (fun ch => !isalpha ch && isdigit ch)) with
  | error f => rfl
  | ok n =>
    cases columnToIndex (operand.filter isalpha) with
    | error f => rfl
    | ok col =>
      simp only
      by_cases h : n - 1 ≥ 0 ∧ col ≥ 0 ∧ n - 1 < s.totalRows ∧ col < s.totalCols
      · rw [if_pos h, if_pos h]
        exact hD _ _ (by omega) (by omega)
      · rw [if_neg h, if_neg h]

end Spreadsheet

namespace FormulaParser

theorem getNumericValue_congr_hw1 (s t : Spreadsheet) (disp disp' : Cell → Except Fault Str)
    (hA : SheetAgree s t)
    (hD : ∀ i j, i < s.totalRows → j < s.totalCols → disp' (t.grid i j) = disp (s.grid i j))
    (token : Str) :
    getNumericValue disp' t token = getNumericValue disp s token := by
  unfold getNumericValue
  rw [Spreadsheet.getCellContentByOperand_congr_hw1 s t disp disp' hA hD]

theorem evaluateStep_congr_hw1 (s t : Spreadsheet) (disp disp' : Cell → Except Fault Str)
    (hA : SheetAgree s t)
    (hD : ∀ i j, i < s.totalRows → j < s.totalCols → disp' (t.grid i j) = disp (s.grid i j))
    (st : ℚ × Str) (token : Str) :
    evaluateStep disp' t st token = evaluateStep disp s st token := by
  unfold evaluateStep
  rw [getNumericValue_congr_hw1 s t disp disp' hA hD]

theorem evaluateLoop_congr_hw1 (s t : Spreadsheet) (disp disp' : Cell → Except Fault Str)
    (hA : SheetAgree s t)
    (hD : ∀ i j, i < s.totalRows → j < s.totalCols → disp' (t.grid i j) = disp (s.grid i j))
    (tokens : List Str) (st : ℚ × Str) :
    evaluateLoop disp' t st tokens = evaluateLoop disp s st tokens := by
  induction tokens generalizing st with
  | nil => rfl
  | cons token rest ih =>
    rw [evaluateLoop, evaluateLoop, evaluateStep_congr_hw1 s t disp disp' hA hD]
    cases evaluateStep disp s st token with
    | error f => rfl
    | ok st1 => exact ih st1

theorem evaluateExpression_congr_hw1 (s t : Spreadsheet) (disp disp' : Cell → Except Fault Str)
    (hA : SheetAgree s t)
    (hD : ∀ i j, i < s.totalRows → j < s.totalCols → disp' (t.grid i j) = disp (s.grid i j))
    (tokens : List Str) :
    evaluateExpression disp' t tokens = evaluateExpression disp s tokens := by
  unfold evaluateExpression
  rw [evaluateLoop_congr_hw1 s t disp disp' hA hD]

theorem rangeLoop_congr_hw1 {σ : Type} (s t : Spreadsheet) (disp disp' : Cell → Except Fault Str)
    (hA : SheetAgree s t)
    (hD : ∀ i j, i < s.totalRows → j < s.totalCols → disp' (t.grid i j) = disp (s.grid i j))
    (step : σ → Str → Except Fault σ) (cells : List (Int × Int)) (st : σ) :
    rangeLoop disp' t step st cells = rangeLoop disp s step st cells := by
  induction cells generalizing st with
  | nil => rfl
  | cons p rest ih =>
    rw [rangeLoop, rangeLoop]
    unfold Spreadsheet.getCellValue
    simp only [hA.1, hA.2.1]
    by_cases h : 0 ≤ p.1 ∧ p.1 < s.totalRows ∧ 0 ≤ p.2 ∧ p.2 < s.totalCols
    · rw [if_pos h, if_pos h]
      simp only
      rw [hD _ _ (by omega) (by omega)]
      cases disp (s.grid p.1.toNat p.2.toNat) with
      | error f => rfl
      | ok content =>
        simp only
        cases step st content with
        | error f => rfl
        | ok st1 => exact ih st1
    · rw [if_neg h, if_neg h]

theorem applyFunction_congr_hw1 (s t : Spreadsheet) (disp disp' : Cell → Except Fault Str)
    (hA : SheetAgree s t)
    (hD : ∀ i j, i < s.totalRows → j < s.totalCols → disp' (t.grid i j) = disp (s.grid i j))
    (functionName : Str) (startRow startCol endRow endCol : Int) :
    applyFunction disp' t functionName startRow startCol endRow endCol
      = applyFunction disp s functionName startRow startCol endRow endCol := by
  unfold applyFunction calculateSum calculateMax calculateMin calculateStddev countCells
  simp only [rangeLoop_congr_hw1 s t disp disp' hA hD]

theorem evaluateFunction_congr_hw1 (s t : Spreadsheet) (disp disp' : Cell → Except Fault Str)
    (hA : SheetAgree s t)
    (hD : ∀ i j, i < s.totalRows → j < s.totalCols → disp' (t.grid i j) = disp (s.grid i j))
    (formula : Str) :
    evaluateFunction disp' t formula = evaluateFunction disp s formula := by
  unfold evaluateFunction
  simp only [applyFunction_congr_hw1 s t disp disp' hA hD]

theorem parseFormula_congr_hw1 (s t : Spreadsheet) (disp disp' : Cell → Except Fault Str)
    (hA : SheetAgree s t)
    (hD : ∀ i j, i < s.totalRows → j < s.totalCols → disp' (t.grid i j) = disp (s.grid i j))
    (formula : Str) :
    parseFormula disp' t formula = parseFormula disp s formula := by
  unfold parseFormula
  cases formula with
  | nil => rfl
  | cons c rest =>
    simp only [evaluateFunction_congr_hw1 s t disp disp' hA hD,
      evaluateExpression_congr_hw1 s t disp disp' hA hD]

end FormulaParser

namespace Cell

theorem getCellContent_congr_hw1 (s t : Spreadsheet) (hA : SheetAgree s t) (fuel : Nat) :
    ∀ i j, i < s.totalRows → j < s.totalCols →
      getCellContent fuel t (t.grid i j) = getCellContent fuel s (s.grid i j) := by
  induction fuel with
  | zero =>
    intro i j _ _
    rfl
  | succ fuel ih =>
    intro i j hi hj
    obtain ⟨hcontent, hcomputed⟩ := hA.2.2 i j hi hj
    have hform : (t.grid i j).isFormula = (s.grid i j).isFormula := by
      unfold isFormula
      rw [hcontent]
    rw [getCellContent, getCellContent, hcontent, hcomputed, hform,
      FormulaParser.parseFormula_congr_hw1 s t (getCellContent fuel s) (getCellContent fuel t) hA ih]

end Cell

end HW1


/-! ## The claims -/

/-- C1: `evaluateExpression` is a strict left-to-right fold without operator precedence.
For every token sequence `t0 op1 t1 ... opn tn` of numeric literals and operators in which
no divisor is zero the result is `(...((v0 op1 v1) op2 v2)... opn vn)`; the tokens of
`2+3*4` evaluate to 20, and the formula `=2+3*4` is cached as `20.00`. -/
theorem C1_evaluateExpression_left_to_right :
    (∀ (s : Spreadsheet) (t0 : Str) (v0 : ℚ) (rest : List (Str × Str × ℚ)),
      FormulaCell.IsLiteral t0 v0 →
      (∀ x ∈ rest, FormulaCell.isOperator x.1 = true ∧ FormulaCell.IsLiteral x.2.1 x.2.2 ∧
        (x.1 = ['/'] → x.2.2 ≠ 0)) →
      FormulaCell.evaluateExpression s (FormulaCell.interleave t0 rest)
        = Except.ok (FormulaCell.leftFold v0 (rest.map (fun x => (x.1, x.2.2))))) ∧
    (∀ s : Spreadsheet,
      FormulaCell.evaluateExpression s (FormulaCell.tokenize "2+3*4".toList) = Except.ok 20 ∧
      FormulaCell.evaluate s "=2+3*4".toList = "20.00".toList) := by
  have hgen : ∀ (s : Spreadsheet) (t0 : Str) (v0 : ℚ) (rest : List (Str × Str × ℚ)),
      FormulaCell.IsLiteral t0 v0 →
      (∀ x ∈ rest, FormulaCell.isOperator x.1 = true ∧ FormulaCell.IsLiteral x.2.1 x.2.2 ∧
        (x.1 = ['/'] → x.2.2 ≠ 0)) →
      FormulaCell.evaluateExpression s (FormulaCell.interleave t0 rest)
        = Except.ok (FormulaCell.leftFold v0 (rest.map (fun x => (x.1, x.2.2)))) := by
    intro s t0 v0 rest h0 hrest
    obtain ⟨hno, hnr, hv⟩ := h0
    obtain ⟨cur1, h1⟩ := FormulaCell.evaluateLoop_pairs s rest hrest v0 []
    simp only [FormulaCell.evaluateExpression, FormulaCell.interleave, FormulaCell.evaluateLoop,
      FormulaCell.evaluateStep, hno, FormulaCell.operandValue, hnr, hv, if_true, h1,
      Bool.false_eq_true, if_false]
  refine ⟨hgen, fun s => ?_⟩
  have htok : FormulaCell.tokenize "2+3*4".toList
      = FormulaCell.interleave ['2'] [(['+'], ['3'], 3), (['*'], ['4'], 4)] := by decide
  have hval : FormulaCell.evaluateExpression s (FormulaCell.tokenize "2+3*4".toList)
      = Except.ok 20 := by
    rw [htok, hgen s ['2'] 2 [(['+'], ['3'], 3), (['*'], ['4'], 4)] (by decide!) (by decide!)]
    decide!
  refine ⟨hval, ?_⟩
  have hf : "=2+3*4".toList = '=' :: "2+3*4".toList := by decide
  rw [hf, FormulaCell.evaluate_arith_ok s _ 20 hval]
  decide!

/-- Witness for C1: the general statement applied to the tokens `2`, `+`, `3`, `*`, `4`. -/
theorem C1_witness :
    FormulaCell.evaluateExpression (Spreadsheet.create 21 8)
        (FormulaCell.interleave ['2'] [(['+'], ['3'], 3), (['*'], ['4'], 4)])
      = Except.ok (FormulaCell.leftFold 2 [(['+'], 3), (['*'], 4)]) :=
  C1_evaluateExpression_left_to_right.1 (Spreadsheet.create 21 8) ['2'] 2
    [(['+'], ['3'], 3), (['*'], ['4'], 4)] (by decide!) (by decide!)

/-- C2: direct dependency propagation. On the fresh sheet, after `A1 = 5` and
`B1 = "=A1+1"` the cell B1 has dependency list `[A1]` and a cached value denoting 6;
after `A1 = 10` its cached value denotes 11. In general, when every cell a formula cell
refers to is a non-formula cell and one of its dependencies is set to a numeric text,
`setCellContent` returns and the formula cell caches the evaluation of its formula over
the sheet after the call. -/
theorem C2_direct_dependency_propagation :
    Spreadsheet.observeAfter [(0, 0, "5".toList), (0, 1, "=A1+1".toList)]
        (fun s => s.getCell 0 1)
      = Except.ok (some (Cell.FormulaCell "=A1+1".toList "6.00".toList [(0, 0)])) ∧
    stod "6.00".toList = Except.ok 6 ∧
    Spreadsheet.observeAfter
        [(0, 0, "5".toList), (0, 1, "=A1+1".toList), (0, 0, "10".toList)]
        (fun s => s.getCell 0 1)
      = Except.ok (some (Cell.FormulaCell "=A1+1".toList "11.00".toList [(0, 0)])) ∧
    stod "11.00".toList = Except.ok 11 ∧
    (∀ (s : Spreadsheet) (row col r c : Int) (content f cv : Str) (deps : List (Int × Int)),
      0 ≤ row → row < s.totalRows → 0 ≤ col → col < s.totalCols →
      FormulaCell.isNumber content = true →
      s.getCell r c = some (Cell.FormulaCell f cv deps) →
      (row, col) ∈ deps →
      (∀ q ∈ deps ++ FormulaCell.readCells f, s.isFormulaAt q = false) →
      ∃ s1, s.setCellContent row col content = Except.ok s1 ∧
        s1.getCell r c = some (Cell.FormulaCell f (FormulaCell.evaluate s1 f) deps)) := by
  refine ⟨by decide!, by decide!, by decide!, by decide!, ?_⟩
  intro s row col r c content f cv deps hr0 hr1 hc0 hc1 hnum hcell hdep hval
  obtain ⟨hne, heq, hat⟩ := FormulaCell.isNumber_head content hnum
  have hX : s.isFormulaAt (row, col) = false :=
    hval (row, col) (List.mem_append_left _ hdep)
  have hother : (r, c) ≠ (row, col) := by
    intro h
    cases h
    simp [Spreadsheet.isFormulaAt, hcell, Cell.isFormula] at hX
  apply Spreadsheet.setCellContent_value_consistent s row col r c content f cv deps
    hr0 hr1 hc0 hc1 hne heq hat hcell hother hdep
  intro q hq _ hd
  exfalso
  have hq1 := hval q (List.mem_append_right _ hq)
  unfold Spreadsheet.isFormulaAt at hq1
  cases hg : s.getCell q.1 q.2 with
  | none => rw [hg] at hd; simp [Spreadsheet.dependsOn] at hd
  | some cell =>
    rw [hg] at hd hq1
    cases cell <;> simp_all [Spreadsheet.dependsOn, Cell.isFormula]

/-- Witness for C2: the general statement on the sheet `A1 = 5`, `B1 = "=A1+1"`,
for the edit `A1 = 10`. -/
theorem C2_witness :
    ∃ s1, Spreadsheet.sampleDirect.setCellContent 0 0 "10".toList = Except.ok s1 ∧
      s1.getCell 0 1 = some (Cell.FormulaCell "=A1+1".toList
        (FormulaCell.evaluate s1 "=A1+1".toList) [(0, 0)]) :=
  C2_direct_dependency_propagation.2.2.2.2 Spreadsheet.sampleDirect 0 0 0 1 "10".toList
    "=A1+1".toList "6.00".toList [(0, 0)] (by decide) (by decide) (by decide) (by decide)
    (by decide!) (by decide!) (by decide) (by decide!)

/-- C3: recalculation is a single pass over direct dependents. With `A1 = 1`,
`B1 = "=A1+1"`, `C1 = "=B1+1"` (cached 2.00 and 3.00), after `A1 = 5` the cell B1 caches
6.00 while C1 still caches 3.00; in general `recalculateDependencies(row, col)` leaves
every slot unchanged that is not a formula cell with `(row, col)` in its dependency
list. -/
theorem C3_single_pass_direct_dependents :
    Spreadsheet.observeAfter
        [(0, 0, "1".toList), (0, 1, "=A1+1".toList), (0, 2, "=B1+1".toList)]
        (fun s => (s.getCell 0 1, s.getCell 0 2))
      = Except.ok (some (Cell.FormulaCell "=A1+1".toList "2.00".toList [(0, 0)]),
          some (Cell.FormulaCell "=B1+1".toList "3.00".toList [(0, 1)])) ∧
    Spreadsheet.observeAfter
        [(0, 0, "1".toList), (0, 1, "=A1+1".toList), (0, 2, "=B1+1".toList),
          (0, 0, "5".toList)]
        (fun s => (s.getCell 0 1, s.getCell 0 2))
      = Except.ok (some (Cell.FormulaCell "=A1+1".toList "6.00".toList [(0, 0)]),
          some (Cell.FormulaCell "=B1+1".toList "3.00".toList [(0, 1)])) ∧
    (∀ (s : Spreadsheet) (row col r c : Int),
      Spreadsheet.dependsOn (s.grid r c) row col = false →
      (s.recalculateDependencies row col).grid r c = s.grid r c) := by
  refine ⟨by decide!, by decide!, ?_⟩
  intro s row col r c hd
  rcases (Spreadsheet.recalculateDependencies_frame s row col).2.2 r c with h | ⟨h, _⟩
  · exact h
  · rw [hd] at h
    cases h

/-- Witness for C3: the cell `C1 = "=A1+B1"` of the sample sheet does not depend on B2,
so a pass for B2 leaves it unchanged. -/
theorem C3_witness :
    (Spreadsheet.sampleChain.recalculateDependencies 1 1).grid 0 2
      = Spreadsheet.sampleChain.grid 0 2 :=
  C3_single_pass_direct_dependents.2.2 Spreadsheet.sampleChain 1 1 0 2 (by decide)

/-- C4: `evaluate` never propagates an error. It is a total function of the formula and
the sheet; every exception of its body is cached as exactly `#ERROR`; this is the
outcome for an unrecognised function name, a missing parenthesis, a missing `..`, an
invalid reference in a range, an operand that cannot be resolved (missing cell,
non-numeric content or literal) and a division by zero; and the recalculation pass
re-evaluates every dependent of the changed coordinate, also after an earlier dependent
has failed (B1 = `=1/A1` fails, C1 = `=A1+1` is still refreshed). -/
theorem C4_evaluate_never_propagates :
    (∀ (s : Spreadsheet) (f : Str),
      (∃ e, FormulaCell.evaluateBody s f = Except.error e ∧
        FormulaCell.evaluate s f = "#ERROR".toList) ∨
      (∃ v, FormulaCell.evaluateBody s f = Except.ok v ∧ FormulaCell.evaluate s f = v)) ∧
    (∀ (s : Spreadsheet) (f funcName range : Str), FormulaCell.isFunction f = true →
      FormulaCell.parseFunctionAndRange f = Except.ok (funcName, range) →
      funcName ∉ FormulaCell.recognisedNames →
      FormulaCell.evaluate s f = "#ERROR".toList) ∧
    (∀ (s : Spreadsheet) (f : Str), FormulaCell.isFunction f = true →
      (findChar '(' f = none ∨ findChar ')' f = none) →
      FormulaCell.evaluate s f = "#ERROR".toList) ∧
    (∀ (s : Spreadsheet) (f funcName range : Str), FormulaCell.isFunction f = true →
      FormulaCell.parseFunctionAndRange f = Except.ok (funcName, range) →
      findDotDot range = none →
      FormulaCell.evaluate s f = "#ERROR".toList) ∧
    (∀ (s : Spreadsheet) (f funcName range start stop : Str) (e : Exn),
      FormulaCell.isFunction f = true →
      FormulaCell.parseFunctionAndRange f = Except.ok (funcName, range) →
      FormulaCell.parseRange range = Except.ok (start, stop) →
      (Spreadsheet.parseCellReference start = Except.error e ∨
        Spreadsheet.parseCellReference stop = Except.error e) →
      FormulaCell.evaluate s f = "#ERROR".toList) ∧
    (∀ (s : Spreadsheet) (rest t : Str) (e : Exn), t ∈ FormulaCell.tokenize rest →
      FormulaCell.isOperator t = false →
      FormulaCell.operandValue s t = Except.error e →
      FormulaCell.evaluate s ('=' :: rest) = "#ERROR".toList) ∧
    (∀ (s : Spreadsheet) (t : Str) (row col : Int), FormulaCell.isCellReference t = true →
      Spreadsheet.parseCellReference t = Except.ok (row, col) →
      (s.getCell row col = none ∨
        ∃ cell, s.getCell row col = some cell ∧
          FormulaCell.isNumber cell.getContent = false) →
      FormulaCell.operandValue s t = Except.error Exn.runtime_error) ∧
    (∀ (s : Spreadsheet) (rest : Str) (pre : List Str) (t : Str) (post : List Str),
      FormulaCell.tokenize rest = pre ++ ['/'] :: t :: post →
      FormulaCell.operandValue s t = Except.ok 0 →
      FormulaCell.evaluate s ('=' :: rest) = "#ERROR".toList) ∧
    (∀ (s : Spreadsheet) (row col r c : Int) (f cv : Str) (deps : List (Int × Int)),
      s.getCell r c = some (Cell.FormulaCell f cv deps) → (row, col) ∈ deps →
      ∃ sv, Spreadsheet.Frame row col s sv ∧
        (s.recalculateDependencies row col).grid r c
          = some (Cell.FormulaCell f (FormulaCell.evaluate sv f) deps)) ∧
    Spreadsheet.observeAfter
        [(0, 0, "1".toList), (0, 1, "=1/A1".toList), (0, 2, "=A1+1".toList),
          (0, 0, "0".toList)]
        (fun s => (s.contentAt (0, 1), s.contentAt (0, 2)))
      = Except.ok (some "#ERROR".toList, some "1.00".toList) := by
  refine ⟨?_, FormulaCell.evaluate_unknown_function, FormulaCell.evaluate_missing_parenthesis,
    FormulaCell.evaluate_missing_separator, FormulaCell.evaluate_invalid_range_reference,
    FormulaCell.evaluate_failing_operand, FormulaCell.operandValue_missing_or_text,
    FormulaCell.evaluate_division_by_zero, Spreadsheet.recalculate_visits_dependent,
    by decide!⟩
  intro s f
  unfold FormulaCell.evaluate
  cases h : FormulaCell.evaluateBody s f with
  | error e => exact Or.inl ⟨e, rfl, rfl⟩
  | ok v => exact Or.inr ⟨v, rfl, rfl⟩

/-- Witness for C4: the failure classes at concrete formulas on the sheet `A1 = 5`,
`B1 = "=A1+1"`, and the pass at the dependent B1. -/
theorem C4_witness :
    FormulaCell.evaluate Spreadsheet.sampleDirect "@FOO(A1..A2)".toList = "#ERROR".toList ∧
    FormulaCell.evaluate Spreadsheet.sampleDirect "@SUM A1..A2)".toList = "#ERROR".toList ∧
    FormulaCell.evaluate Spreadsheet.sampleDirect "@SUM(A1:A2)".toList = "#ERROR".toList ∧
    FormulaCell.evaluate Spreadsheet.sampleDirect "@SUM(A1..?)".toList = "#ERROR".toList ∧
    FormulaCell.evaluate Spreadsheet.sampleDirect ('=' :: "A1+x".toList) = "#ERROR".toList ∧
    FormulaCell.operandValue Spreadsheet.sampleDirect "C1".toList
      = Except.error Exn.runtime_error ∧
    FormulaCell.evaluate Spreadsheet.sampleDirect ('=' :: "A1/0".toList) = "#ERROR".toList ∧
    (∃ sv, Spreadsheet.Frame 0 0 Spreadsheet.sampleDirect sv ∧
      (Spreadsheet.sampleDirect.recalculateDependencies 0 0).grid 0 1
        = some (Cell.FormulaCell "=A1+1".toList
            (FormulaCell.evaluate sv "=A1+1".toList) [(0, 0)])) :=
  ⟨C4_evaluate_never_propagates.2.1 Spreadsheet.sampleDirect "@FOO(A1..A2)".toList
      "FOO".toList "A1..A2".toList (by decide) (by decide) (by decide),
    C4_evaluate_never_propagates.2.2.1 Spreadsheet.sampleDirect "@SUM A1..A2)".toList
      (by decide) (Or.inl (by decide)),
    C4_evaluate_never_propagates.2.2.2.1 Spreadsheet.sampleDirect "@SUM(A1:A2)".toList
      "SUM".toList "A1:A2".toList (by decide) (by decide) (by decide),
    C4_evaluate_never_propagates.2.2.2.2.1 Spreadsheet.sampleDirect "@SUM(A1..?)".toList
      "SUM".toList "A1..?".toList "A1".toList "?".toList Exn.runtime_error (by decide)
      (by decide) (by decide) (Or.inr (by decide)),
    C4_evaluate_never_propagates.2.2.2.2.2.1 Spreadsheet.sampleDirect "A1+x".toList
      "x".toList Exn.invalid_argument (by decide) (by decide) (by decide!),
    C4_evaluate_never_propagates.2.2.2.2.2.2.1 Spreadsheet.sampleDirect "C1".toList 0 2
      (by decide) (by decide) (Or.inr ⟨Cell.ValueCell [], by decide, by decide⟩),
    C4_evaluate_never_propagates.2.2.2.2.2.2.2.1 Spreadsheet.sampleDirect "A1/0".toList
      ["A1".toList] "0".toList [] (by decide) (by decide!),
    C4_evaluate_never_propagates.2.2.2.2.2.2.2.2.1 Spreadsheet.sampleDirect 0 0 0 1
      "=A1+1".toList "6.00".toList [(0, 0)] (by decide!) (by decide)⟩

/-- C5: for a text without `@`, `tokenize` returns tokens whose concatenation is the text
with its white space removed, none of them empty, each either one of the single
characters `+ - * /` or free of those characters and of white space; `A1+B2*3` yields
`[A1, +, B2, *, 3]`. -/
theorem C5_tokenize_plain_text :
    (∀ f : Str, '@' ∉ f →
      (FormulaCell.tokenize f).flatten = f.filter (fun c => !isspace c) ∧
      (∀ t ∈ FormulaCell.tokenize f, t ≠ []) ∧
      (∀ t ∈ FormulaCell.tokenize f,
        (t = ['+'] ∨ t = ['-'] ∨ t = ['*'] ∨ t = ['/']) ∨
        (∀ c ∈ t, isspace c = false ∧ c ≠ '+' ∧ c ≠ '-' ∧ c ≠ '*' ∧ c ≠ '/'))) ∧
    FormulaCell.tokenize "A1+B2*3".toList
      = ["A1".toList, "+".toList, "B2".toList, "*".toList, "3".toList] := by
  refine ⟨?_, by decide⟩
  intro f hf
  obtain ⟨h1, h2, h3⟩ := FormulaCell.tokenizeLoop_plain f
    { tokens := [], token := [], inFunction := false } hf rfl
    (fun t ht => by cases ht) (fun c hc => by cases hc)
  have hall : ∀ t ∈ FormulaCell.tokenize f,
      t ≠ [] ∧ (FormulaCell.isOperator t = true ∨ FormulaCell.PlainToken t) := by
    intro t ht
    rcases FormulaCell.mem_flush _ _ _ ht with h | ⟨h, hn⟩
    · exact h1 t h
    · rw [h]; exact ⟨hn, Or.inr h2⟩
  refine ⟨?_, fun t ht => (hall t ht).1, ?_⟩
  · unfold FormulaCell.tokenize
    rw [FormulaCell.flatten_flush, h3]
    simp
  · intro t ht
    rcases (hall t ht).2 with h | h
    · left
      simp only [FormulaCell.isOperator, Bool.or_eq_true, decide_eq_true_eq] at h
      rcases h with ((h | h) | h) | h
      · exact Or.inl h
      · exact Or.inr (Or.inl h)
      · exact Or.inr (Or.inr (Or.inl h))
      · exact Or.inr (Or.inr (Or.inr h))
    · right
      exact h

/-- Witness for C5: the general statement at the text `A1 + B2`. -/
theorem C5_witness :
    (FormulaCell.tokenize "A1 + B2".toList).flatten
        = "A1 + B2".toList.filter (fun c => !isspace c) ∧
      (∀ t ∈ FormulaCell.tokenize "A1 + B2".toList, t ≠ []) ∧
      (∀ t ∈ FormulaCell.tokenize "A1 + B2".toList,
        (t = ['+'] ∨ t = ['-'] ∨ t = ['*'] ∨ t = ['/']) ∨
        (∀ c ∈ t, isspace c = false ∧ c ≠ '+' ∧ c ≠ '-' ∧ c ≠ '*' ∧ c ≠ '/')) :=
  C5_tokenize_plain_text.1 "A1 + B2".toList (by decide)

/-- C6: a function call is one atomic token. For a body without `@` and `)`, the text
`@body)` is tokenized to exactly itself, also when the body holds white space or
operators; followed by further text, the call is emitted verbatim and the text after its
`)` is tokenized by the ordinary rules; `@SUM(A1..A3)+1` yields
`[@SUM(A1..A3), +, 1]`. -/
theorem C6_tokenize_function_call :
    (∀ body : Str, '@' ∉ body → ')' ∉ body →
      FormulaCell.tokenize ('@' :: body ++ [')']) = ['@' :: body ++ [')']]) ∧
    (∀ body rest : Str, '@' ∉ body → ')' ∉ body →
      FormulaCell.tokenize ('@' :: body ++ ')' :: rest)
        = ('@' :: body ++ [')']) :: FormulaCell.tokenize rest) ∧
    FormulaCell.tokenize "@SUM(A1..A3)".toList = ["@SUM(A1..A3)".toList] ∧
    FormulaCell.tokenize "@SUM(A1 .. A3+1)".toList = ["@SUM(A1 .. A3+1)".toList] ∧
    FormulaCell.tokenize "@SUM(A1..A3)+1".toList
      = ["@SUM(A1..A3)".toList, "+".toList, "1".toList] := by
  refine ⟨?_, FormulaCell.tokenize_call, by decide, by decide, by decide⟩
  intro body h1 h2
  have h := FormulaCell.tokenize_call body [] h1 h2
  simpa [FormulaCell.tokenize, FormulaCell.flush] using h

/-- Witness for C6: the call `@SUM(A1 .. A3)` followed by `*2`. -/
theorem C6_witness :
    FormulaCell.tokenize ('@' :: "SUM(A1 .. A3".toList ++ ')' :: "*2".toList)
      = ('@' :: "SUM(A1 .. A3".toList ++ [')']) :: FormulaCell.tokenize "*2".toList :=
  C6_tokenize_function_call.2.1 "SUM(A1 .. A3".toList "*2".toList (by decide) (by decide)

/-- C7: after `setContent(f)` or construction with a formula `f` that begins with `=`,
the dependency list is exactly the list of results of `parseCellReference` on the
reference-shaped tokens of the text after `=`, in token order (and the operation
returns whenever each of them parses); the list the cell had before plays no part;
for `=A1+1` the list is `[(0,0)]`. -/
theorem C7_dependencies_from_reference_tokens :
    (∀ (old : List (Int × Int)) (rest : Str) (deps : List (Int × Int)),
      FormulaCell.updateDependencies old ('=' :: rest) = Except.ok deps ↔
        List.Forall₂ (fun t d => Spreadsheet.parseCellReference t = Except.ok d)
          ((FormulaCell.tokenize rest).filter FormulaCell.isCellReference) deps) ∧
    (∀ (s : Spreadsheet) (oldFormula oldComputed : Str) (oldDeps : List (Int × Int))
        (rest : Str) (deps : List (Int × Int)),
      List.Forall₂ (fun t d => Spreadsheet.parseCellReference t = Except.ok d)
          ((FormulaCell.tokenize rest).filter FormulaCell.isCellReference) deps →
      FormulaCell.setContent s oldFormula oldComputed oldDeps ('=' :: rest)
          = Except.ok (Cell.FormulaCell ('=' :: rest)
              (FormulaCell.evaluate s ('=' :: rest)) deps) ∧
      FormulaCell.new s ('=' :: rest)
          = Except.ok (Cell.FormulaCell ('=' :: rest)
              (FormulaCell.evaluate s ('=' :: rest)) deps)) ∧
    (∀ (s : Spreadsheet) (f1 c1 f2 c2 : Str) (d1 d2 : List (Int × Int)) (newContent : Str),
      FormulaCell.setContent s f1 c1 d1 newContent
        = FormulaCell.setContent s f2 c2 d2 newContent) ∧
    FormulaCell.updateDependencies [(4, 4), (5, 5)] "=A1+1".toList = Except.ok [(0, 0)] := by
  have h1 : ∀ (old : List (Int × Int)) (rest : Str) (deps : List (Int × Int)),
      FormulaCell.updateDependencies old ('=' :: rest) = Except.ok deps ↔
        List.Forall₂ (fun t d => Spreadsheet.parseCellReference t = Except.ok d)
          ((FormulaCell.tokenize rest).filter FormulaCell.isCellReference) deps := by
    intro old rest deps
    simp only [FormulaCell.updateDependencies, FormulaCell.clear, List.head?_cons, List.drop,
      reduceCtorEq, ne_eq, not_true_eq_false, false_and, or_self, if_false,
      FormulaCell.collectDependencies_iff, List.nil_append, exists_eq_left']
  refine ⟨h1, ?_, ?_, by decide⟩
  · intro s oldFormula oldComputed oldDeps rest deps hf
    have ha := (h1 oldDeps rest deps).2 hf
    have hb := (h1 [] rest deps).2 hf
    simp only [FormulaCell.setContent, FormulaCell.new, ha, hb, and_self]
  · intro s f1 c1 f2 c2 d1 d2 newContent
    simp only [FormulaCell.setContent, FormulaCell.updateDependencies, FormulaCell.clear]

/-- Witness for C7: the formula `=A1+B2`, whose reference tokens parse to `(0,0)` and
`(1,1)`, set on a cell that previously depended on `(4,4)`. -/
theorem C7_witness :
    FormulaCell.setContent Spreadsheet.sampleDirect "=C3".toList "#ERROR".toList [(4, 4)]
        ('=' :: "A1+B2".toList)
      = Except.ok (Cell.FormulaCell ('=' :: "A1+B2".toList)
          (FormulaCell.evaluate Spreadsheet.sampleDirect ('=' :: "A1+B2".toList))
          [(0, 0), (1, 1)]) :=
  (C7_dependencies_from_reference_tokens.2.1 Spreadsheet.sampleDirect "=C3".toList
    "#ERROR".toList [(4, 4)] "A1+B2".toList [(0, 0), (1, 1)]
    (by
      have ht : (FormulaCell.tokenize "A1+B2".toList).filter FormulaCell.isCellReference
          = ["A1".toList, "B2".toList] := by decide
      rw [ht]
      exact List.Forall₂.cons (by decide) (List.Forall₂.cons (by decide) List.Forall₂.nil))).1

/-- C8 (failing input): the range function `@SUM(A1..A3)` records no dependency at all;
the sheet keeps showing the sum `6.00` after A1 is changed from 1 to 10, although the
formula then evaluates to `15.00`. -/
theorem C8_range_function_records_no_dependency :
    FormulaCell.updateDependencies [] "@SUM(A1..A3)".toList = Except.ok [] ∧
    FormulaCell.tokenize "SUM(A1..A3)".toList = ["SUM(A1..A3)".toList] ∧
    FormulaCell.isCellReference "SUM(A1..A3)".toList = false ∧
    Spreadsheet.observeAfter
        [(0, 0, "1".toList), (1, 0, "2".toList), (2, 0, "3".toList),
          (0, 1, "@SUM(A1..A3)".toList)]
        (fun s => s.getCell 0 1)
      = Except.ok (some (Cell.FormulaCell "@SUM(A1..A3)".toList "6.00".toList [])) ∧
    Spreadsheet.observeAfter
        [(0, 0, "1".toList), (1, 0, "2".toList), (2, 0, "3".toList),
          (0, 1, "@SUM(A1..A3)".toList), (0, 0, "10".toList)]
        (fun s => (s.getCell 0 1, FormulaCell.evaluate s "@SUM(A1..A3)".toList))
      = Except.ok (some (Cell.FormulaCell "@SUM(A1..A3)".toList "6.00".toList []),
          "15.00".toList) := by
  refine ⟨by decide, by decide, by decide, by decide!, by decide!⟩

/-- C9 (failing input): the `@` branch of `setCellContent` runs no recalculation pass.
With `A1 = 1` and `B1 = "=A1+1"` (cached 2.00), after `A1 = "@SUM(C1..C2)"` (displayed
0.00) the dependent B1 still caches 2.00, while its formula evaluates to 1.00 on the
sheet after the call. -/
theorem C9_function_edit_runs_no_recalculation :
    Spreadsheet.observeAfter
        [(0, 0, "1".toList), (0, 1, "=A1+1".toList), (0, 0, "@SUM(C1..C2)".toList)]
        (fun s => (s.contentAt (0, 0), s.getCell 0 1, FormulaCell.evaluate s "=A1+1".toList))
      = Except.ok (some "0.00".toList,
          some (Cell.FormulaCell "=A1+1".toList "2.00".toList [(0, 0)]), "1.00".toList) := by
  decide!

/-- C10 (counterexample): with `A1 = 1`, `C1 = "=A1+1"` and `B1 = "=A1+C1"`, after the
edit `A1 = 5` the dependent B1 caches 7.00 (computed from the stale C1 = 2.00, which the
scan reaches later) although its formula evaluates to 11.00 over the sheet after the
call. -/
theorem C10_counterexample :
    Spreadsheet.observeAfter
        [(0, 0, "1".toList), (0, 2, "=A1+1".toList), (0, 1, "=A1+C1".toList),
          (0, 0, "5".toList)]
        (fun s => (s.getCell 0 1, s.contentAt (0, 2), FormulaCell.evaluate s "=A1+C1".toList))
      = Except.ok (some (Cell.FormulaCell "=A1+C1".toList "7.00".toList [(0, 0), (0, 2)]),
          some "6.00".toList, "11.00".toList) := by
  decide!

/-- C10 (amended): after `setCellContent` puts a value text into the cell X, every formula
cell F whose dependency list contains X caches the evaluation of its formula over the
sheet after the call, provided every formula cell that F refers to and that itself has X
in its dependency list comes strictly before F in the row-major scan. -/
theorem C10_consistency_after_one_pass (s : Spreadsheet) (row col r c : Int)
    (content f cv : Str) (deps : List (Int × Int))
    (hr0 : 0 ≤ row) (hr1 : row < s.totalRows) (hc0 : 0 ≤ col) (hc1 : col < s.totalCols)
    (hne : content ≠ []) (heq : content.head? ≠ some '=') (hat : content.head? ≠ some '@')
    (hcell : s.getCell r c = some (Cell.FormulaCell f cv deps))
    (hother : (r, c) ≠ (row, col))
    (hdep : (row, col) ∈ deps)
    (hread : ∀ q ∈ FormulaCell.readCells f, q ≠ (row, col) →
      Spreadsheet.dependsOn (s.getCell q.1 q.2) row col = true →
      Spreadsheet.scanBefore q (r, c)) :
    ∃ s1, s.setCellContent row col content = Except.ok s1 ∧
      s1.getCell r c = some (Cell.FormulaCell f (FormulaCell.evaluate s1 f) deps) :=
  Spreadsheet.setCellContent_value_consistent s row col r c content f cv deps
    hr0 hr1 hc0 hc1 hne heq hat hcell hother hdep hread

/-- Witness for C10: on the sheet `A1 = 1`, `B1 = "=A1+1"`, `C1 = "=A1+B1"` the cell C1
reads the dependent B1, which precedes it in the scan; after `A1 = 5` it is consistent. -/
theorem C10_witness :
    ∃ s1, Spreadsheet.sampleChain.setCellContent 0 0 "5".toList = Except.ok s1 ∧
      s1.getCell 0 2 = some (Cell.FormulaCell "=A1+B1".toList
        (FormulaCell.evaluate s1 "=A1+B1".toList) [(0, 0), (0, 1)]) :=
  C10_consistency_after_one_pass Spreadsheet.sampleChain 0 0 0 2 "5".toList "=A1+B1".toList
    "3.00".toList [(0, 0), (0, 1)] (by decide) (by decide) (by decide) (by decide)
    (by decide) (by decide) (by decide) (by decide!) (by decide) (by decide) (by decide!)

/-- C11: SUM skips non-numeric cells. When both corner references parse,
`getValuesFromRange` returns the numbers of exactly the cells of the rectangle whose
displayed content parses as a number (each cell of `[startRow..endRow] x
[startCol..endCol]` visited once), and `calculateSum` of them is the sum over the
rectangle with the other cells contributing nothing; it is 0 when no cell of the range is
numeric (in particular for an empty range); for `A1 = 1`, `A2 = 2`, `A3 = "x"` the sum
over `A1..A3` is 3. -/
theorem C11_sum_skips_non_numeric :
    (∀ (s : Spreadsheet) (start stop : Str) (sr sc er ec : Int),
      Spreadsheet.parseCellReference start = Except.ok (sr, sc) →
      Spreadsheet.parseCellReference stop = Except.ok (er, ec) →
      FormulaCell.getValuesFromRange s start stop
        = Except.ok ((FormulaCell.rectangle sr sc er ec).filterMap
            (FormulaCell.parsedNumber s)) ∧
      FormulaCell.calculateSum ((FormulaCell.rectangle sr sc er ec).filterMap
            (FormulaCell.parsedNumber s))
        = ((FormulaCell.rectangle sr sc er ec).map
            (fun p => (FormulaCell.parsedNumber s p).getD 0)).sum ∧
      ((∀ p ∈ FormulaCell.rectangle sr sc er ec, FormulaCell.parsedNumber s p = none) →
        FormulaCell.calculateSum ((FormulaCell.rectangle sr sc er ec).filterMap
            (FormulaCell.parsedNumber s)) = 0)) ∧
    (∀ (sr sc er ec : Int),
      (FormulaCell.rectangle sr sc er ec).Nodup ∧
      ∀ p : Int × Int, p ∈ FormulaCell.rectangle sr sc er ec ↔
        (sr ≤ p.1 ∧ p.1 ≤ er) ∧ (sc ≤ p.2 ∧ p.2 ≤ ec)) ∧
    FormulaCell.calculateSum [] = 0 ∧
    Spreadsheet.observeAfter [(0, 0, "1".toList), (1, 0, "2".toList), (2, 0, "x".toList)]
        (fun s => (FormulaCell.getValuesFromRange s "A1".toList "A3".toList,
          FormulaCell.evaluate s "@SUM(A1..A3)".toList))
      = Except.ok (Except.ok [1, 2], "3.00".toList) := by
  refine ⟨?_, ?_, by decide!, by decide!⟩
  · intro s start stop sr sc er ec h1 h2
    refine ⟨FormulaCell.getValuesFromRange_eq s start stop sr sc er ec h1 h2, ?_, ?_⟩
    · rw [FormulaCell.calculateSum_eq_sum, FormulaCell.sum_filterMap_eq]
    · intro hnone
      rw [FormulaCell.filterMap_eq_nil_of_none _ _ hnone]
      rfl
  · intro sr sc er ec
    exact ⟨FormulaCell.rectangle_nodup sr sc er ec, FormulaCell.mem_rectangle sr sc er ec⟩

/-- Witness for C11: the range `A1..A3` on the sheet `A1 = 5`, `B1 = "=A1+1"`. -/
theorem C11_witness :
    FormulaCell.getValuesFromRange Spreadsheet.sampleDirect "A1".toList "A3".toList
        = Except.ok ((FormulaCell.rectangle 0 0 2 0).filterMap
            (FormulaCell.parsedNumber Spreadsheet.sampleDirect)) ∧
      FormulaCell.calculateSum ((FormulaCell.rectangle 0 0 2 0).filterMap
            (FormulaCell.parsedNumber Spreadsheet.sampleDirect))
        = ((FormulaCell.rectangle 0 0 2 0).map
            (fun p => (FormulaCell.parsedNumber Spreadsheet.sampleDirect p).getD 0)).sum ∧
      ((∀ p ∈ FormulaCell.rectangle 0 0 2 0,
          FormulaCell.parsedNumber Spreadsheet.sampleDirect p = none) →
        FormulaCell.calculateSum ((FormulaCell.rectangle 0 0 2 0).filterMap
            (FormulaCell.parsedNumber Spreadsheet.sampleDirect)) = 0) :=
  C11_sum_skips_non_numeric.1 Spreadsheet.sampleDirect "A1".toList "A3".toList 0 0 2 0
    (by decide) (by decide)

/-- C12: `calculateAverage` returns 0 for the empty list and otherwise the sum of the
values divided by their number; the values come from `getValuesFromRange`, so their
number is the number of cells of the range whose content parses as a number; for
`A1 = 1`, `A2 = 2`, `A3 = "x"` the average over `A1..A3` is 1.50. -/
theorem C12_average_of_numeric_values :
    FormulaCell.calculateAverage [] = 0 ∧
    (∀ values : List ℚ, values ≠ [] →
      FormulaCell.calculateAverage values = values.sum / (values.length : ℚ)) ∧
    (∀ (s : Spreadsheet) (start stop : Str) (sr sc er ec : Int),
      Spreadsheet.parseCellReference start = Except.ok (sr, sc) →
      Spreadsheet.parseCellReference stop = Except.ok (er, ec) →
      ∃ values, FormulaCell.getValuesFromRange s start stop = Except.ok values ∧
        values.length = ((FormulaCell.rectangle sr sc er ec).filter
          (fun p => (FormulaCell.parsedNumber s p).isSome)).length) ∧
    Spreadsheet.observeAfter [(0, 0, "1".toList), (1, 0, "2".toList), (2, 0, "x".toList)]
        (fun s => FormulaCell.evaluate s "@AVER(A1..A3)".toList)
      = Except.ok "1.50".toList := by
  refine ⟨by decide!, ?_, ?_, by decide!⟩
  · intro values hne
    unfold FormulaCell.calculateAverage
    have hl : values.length ≠ 0 := fun h => hne (List.length_eq_zero.1 h)
    rw [if_neg hl, FormulaCell.calculateSum_eq_sum]
  · intro s start stop sr sc er ec h1 h2
    exact ⟨_, FormulaCell.getValuesFromRange_eq s start stop sr sc er ec h1 h2,
      FormulaCell.length_filterMap_eq _ _⟩

/-- Witness for C12: the list `[1, 2]` and the range `A1..A3` of the sample sheet. -/
theorem C12_witness :
    FormulaCell.calculateAverage [1, 2] = ([1, 2] : List ℚ).sum / (([1, 2] : List ℚ).length : ℚ) ∧
    ∃ values, FormulaCell.getValuesFromRange Spreadsheet.sampleDirect "A1".toList "A3".toList
        = Except.ok values ∧
      values.length = ((FormulaCell.rectangle 0 0 2 0).filter
        (fun p => (FormulaCell.parsedNumber Spreadsheet.sampleDirect p).isSome)).length :=
  ⟨C12_average_of_numeric_values.2.1 [1, 2] (by decide),
    C12_average_of_numeric_values.2.2.1 Spreadsheet.sampleDirect "A1".toList "A3".toList
      0 0 2 0 (by decide) (by decide)⟩

/-- C13: `calculateMax` and `calculateMin` are total; on a non-empty list they return an
element of the list that is respectively `>=` and `<=` every element, and on the empty
list both return 0. -/
theorem C13_max_min_extreme_element :
    (∀ values : List ℚ, values ≠ [] →
      FormulaCell.calculateMax values ∈ values ∧
      (∀ x ∈ values, x ≤ FormulaCell.calculateMax values) ∧
      FormulaCell.calculateMin values ∈ values ∧
      (∀ x ∈ values, FormulaCell.calculateMin values ≤ x)) ∧
    FormulaCell.calculateMax [] = 0 ∧ FormulaCell.calculateMin [] = 0 ∧
    FormulaCell.calculateMax [2, 7, 4] = 7 ∧ FormulaCell.calculateMin [2, 7, 4] = 2 := by
  refine ⟨?_, rfl, rfl, by decide!, by decide!⟩
  intro values hne
  cases values with
  | nil => exact absurd rfl hne
  | cons v0 rest =>
    obtain ⟨h1, h2⟩ := FormulaCell.calculateMax_foldl rest v0
    obtain ⟨h3, h4⟩ := FormulaCell.calculateMin_foldl rest v0
    exact ⟨h1, h2, h3, h4⟩

/-- Witness for C13: the list `[2, 7, 4]`. -/
theorem C13_witness :
    FormulaCell.calculateMax [2, 7, 4] ∈ ([2, 7, 4] : List ℚ) ∧
      (∀ x ∈ ([2, 7, 4] : List ℚ), x ≤ FormulaCell.calculateMax [2, 7, 4]) ∧
      FormulaCell.calculateMin [2, 7, 4] ∈ ([2, 7, 4] : List ℚ) ∧
      (∀ x ∈ ([2, 7, 4] : List ℚ), FormulaCell.calculateMin [2, 7, 4] ≤ x) :=
  C13_max_min_extreme_element.1 [2, 7, 4] (by decide)


/-- C14: STDDEV is the population standard deviation. `calculateStdDev` returns 0 for
every list with fewer than 2 values; for a list with at least 2 values it returns the
library square root of `mean(x^2) - mean(x)^2`, a non-negative quantity, and the result is
the non-negative real square root of it up to the twelve decimals of the modelled
library function, exactly so whenever that root is rational; for the values 2, 4 it
returns 1. -/
theorem C14_population_standard_deviation :
    (∀ values : List ℚ, values.length < 2 → FormulaCell.calculateStdDev values = 0) ∧
    (∀ values : List ℚ, 2 ≤ values.length →
      FormulaCell.calculateStdDev values
        = sqrtModel (FormulaCell.meanSquareMinusSquareMean values) ∧
      0 ≤ FormulaCell.meanSquareMinusSquareMean values ∧
      0 ≤ FormulaCell.calculateStdDev values ∧
      ((FormulaCell.calculateStdDev values : ℚ) : ℝ)
        ≤ Real.sqrt ((FormulaCell.meanSquareMinusSquareMean values : ℚ) : ℝ) ∧
      Real.sqrt ((FormulaCell.meanSquareMinusSquareMean values : ℚ) : ℝ)
        < ((FormulaCell.calculateStdDev values : ℚ) : ℝ) + 1 / 10 ^ 12 ∧
      (∀ t : ℚ, 0 ≤ t → FormulaCell.meanSquareMinusSquareMean values = t * t →
        FormulaCell.calculateStdDev values = t)) ∧
    FormulaCell.calculateStdDev [2, 4] = 1 ∧
    Spreadsheet.observeAfter [(0, 0, "2".toList), (1, 0, "4".toList)]
        (fun s => FormulaCell.evaluate s "@STDDEV(A1..A2)".toList)
      = Except.ok "1.00".toList := by
  have hsmall : ∀ values : List ℚ, values.length < 2 →
      FormulaCell.calculateStdDev values = 0 := by
    intro values h
    unfold FormulaCell.calculateStdDev
    rw [if_pos (by omega)]
  have hexact : FormulaCell.calculateStdDev [2, 4] = 1 := by
    rw [FormulaCell.calculateStdDev_eq [2, 4] (by decide)]
    have hm : FormulaCell.meanSquareMinusSquareMean [2, 4] = 1 * 1 := by decide!
    rw [hm]
    exact sqrtModel_mul_self 1 zero_le_one
  have hsheet : Spreadsheet.observeAfter [(0, 0, "2".toList), (1, 0, "4".toList)]
      (fun s => FormulaCell.evaluate s "@STDDEV(A1..A2)".toList)
        = Except.ok "1.00".toList := by
    have hvals : Spreadsheet.observeAfter [(0, 0, "2".toList), (1, 0, "4".toList)]
        (fun s => FormulaCell.getValuesFromRange s "A1".toList "A2".toList)
          = Except.ok (Except.ok [2, 4]) := by decide!
    obtain ⟨s, hs, hv⟩ := Spreadsheet.observeAfter_ok _ _ _ hvals
    have happ : FormulaCell.applyFunction "STDDEV".toList [2, 4] = Except.ok 1 := by
      unfold FormulaCell.applyFunction
      rw [if_neg (by decide), if_neg (by decide), if_neg (by decide), if_neg (by decide),
        if_pos (by decide), hexact]
    have hev : FormulaCell.evaluate s "@STDDEV(A1..A2)".toList = "1.00".toList := by
      rw [FormulaCell.evaluate_of_values s "@STDDEV(A1..A2)".toList "STDDEV".toList
        "A1..A2".toList "A1".toList "A2".toList [2, 4] 1 (by decide) (by decide) (by decide)
        hv happ]
      decide!
    rw [Spreadsheet.observeAfter_of_setAll _ _ s hs, hev]
  refine ⟨hsmall, ?_, hexact, hsheet⟩
  · intro values h
    have heq := FormulaCell.calculateStdDev_eq values h
    have hv := FormulaCell.meanSquareMinusSquareMean_nonneg values
    have hb := sqrtModel_bounds _ hv
    have hr := sqrtModel_nonneg (FormulaCell.meanSquareMinusSquareMean values)
    rw [heq]
    refine ⟨rfl, hv, hr, ?_, ?_, ?_⟩
    · rw [Real.le_sqrt (by exact_mod_cast hr) (by exact_mod_cast hv), pow_two]
      exact_mod_cast hb.1
    · have hpos : (0 : ℝ) < ((sqrtModel (FormulaCell.meanSquareMinusSquareMean values) : ℚ) : ℝ)
          + 1 / 10 ^ 12 := by
        have : (0 : ℝ) ≤ ((sqrtModel (FormulaCell.meanSquareMinusSquareMean values) : ℚ) : ℝ) := by
          exact_mod_cast hr
        positivity
      rw [Real.sqrt_lt' hpos, pow_two]
      have h2 := (Rat.cast_lt (K := ℝ)).2 hb.2
      push_cast at h2
      exact h2
    · intro t ht hsq
      rw [hsq]
      exact sqrtModel_mul_self t ht

/-- Witness for C14: the values 2, 4, whose `mean(x^2) - mean(x)^2` is `1 * 1`. -/
theorem C14_witness :
    FormulaCell.calculateStdDev [] = 0 ∧ FormulaCell.calculateStdDev [2, 4] = 1 :=
  ⟨C14_population_standard_deviation.1 [] (by decide),
    (C14_population_standard_deviation.2.1 [2, 4] (by decide)).2.2.2.2.2 1 zero_le_one
      (by decide!)⟩


/-- C15 (counterexample): on the sheet `A1 = 1`, `A2 = 2`, `A3 = "x"` the formula
`@SUM(A1..A3)` is cached as `3.00`, while the spellings `@sum(A1..A3)` and `@SuM(A1..A3)`
are cached as `#ERROR`. -/
theorem C15_counterexample :
    Spreadsheet.observeAfter [(0, 0, "1".toList), (1, 0, "2".toList), (2, 0, "x".toList)]
        (fun s => (FormulaCell.evaluate s "@SUM(A1..A3)".toList,
          FormulaCell.evaluate s "@sum(A1..A3)".toList,
          FormulaCell.evaluate s "@SuM(A1..A3)".toList))
      = Except.ok ("3.00".toList, "#ERROR".toList, "#ERROR".toList) := by
  decide!

/-- C15 (amended): `evaluate` recognises each range function in exactly two spellings,
all upper case and capitalised: the capitalised spelling gives the same cached value as
the upper-case one on every range text, and every other name (such as `sum` or `SuM`)
gives `#ERROR`. -/
theorem C15_function_names_two_spellings :
    (∀ (s : Spreadsheet) (body : Str),
      FormulaCell.evaluate s ('@' :: "Sum".toList ++ '(' :: body)
        = FormulaCell.evaluate s ('@' :: "SUM".toList ++ '(' :: body) ∧
      FormulaCell.evaluate s ('@' :: "Aver".toList ++ '(' :: body)
        = FormulaCell.evaluate s ('@' :: "AVER".toList ++ '(' :: body) ∧
      FormulaCell.evaluate s ('@' :: "Max".toList ++ '(' :: body)
        = FormulaCell.evaluate s ('@' :: "MAX".toList ++ '(' :: body) ∧
      FormulaCell.evaluate s ('@' :: "Min".toList ++ '(' :: body)
        = FormulaCell.evaluate s ('@' :: "MIN".toList ++ '(' :: body) ∧
      FormulaCell.evaluate s ('@' :: "Stddev".toList ++ '(' :: body)
        = FormulaCell.evaluate s ('@' :: "STDDEV".toList ++ '(' :: body)) ∧
    (∀ (s : Spreadsheet) (name body : Str), '(' ∉ name →
      ('@' :: name ++ '(' :: body).length < 2 ^ 64 →
      name ∉ FormulaCell.recognisedNames →
      FormulaCell.evaluate s ('@' :: name ++ '(' :: body) = "#ERROR".toList) ∧
    "sum".toList ∉ FormulaCell.recognisedNames ∧
    "SuM".toList ∉ FormulaCell.recognisedNames := by
  refine ⟨?_, FormulaCell.evaluate_unknown_name, by decide, by decide⟩
  intro s body
  refine ⟨?_, ?_, ?_, ?_, ?_⟩
  · exact FormulaCell.evaluate_same_function s _ _ body (by decide) (by decide) (by decide)
      (by decide) (by decide) (by decide) (fun values => by
        unfold FormulaCell.applyFunction
        rw [if_pos (by decide), if_pos (by decide)])
  · exact FormulaCell.evaluate_same_function s _ _ body (by decide) (by decide) (by decide)
      (by decide) (by decide) (by decide) (fun values => by
        unfold FormulaCell.applyFunction
        rw [if_neg (by decide), if_pos (by decide), if_neg (by decide), if_pos (by decide)])
  · exact FormulaCell.evaluate_same_function s _ _ body (by decide) (by decide) (by decide)
      (by decide) (by decide) (by decide) (fun values => by
        unfold FormulaCell.applyFunction
        rw [if_neg (by decide), if_neg (by decide), if_pos (by decide), if_neg (by decide),
          if_neg (by decide), if_pos (by decide)])
  · exact FormulaCell.evaluate_same_function s _ _ body (by decide) (by decide) (by decide)
      (by decide) (by decide) (by decide) (fun values => by
        unfold FormulaCell.applyFunction
        rw [if_neg (by decide), if_neg (by decide), if_neg (by decide), if_pos (by decide),
          if_neg (by decide), if_neg (by decide), if_neg (by decide), if_pos (by decide)])
  · exact FormulaCell.evaluate_same_function s _ _ body (by decide) (by decide) (by decide)
      (by decide) (by decide) (by decide) (fun values => by
        unfold FormulaCell.applyFunction
        rw [if_neg (by decide), if_neg (by decide), if_neg (by decide), if_neg (by decide),
          if_pos (by decide), if_neg (by decide), if_neg (by decide), if_neg (by decide),
          if_neg (by decide), if_pos (by decide)])

/-- Witness for C15: the name `sum` on the range text `A1..A3)`. -/
theorem C15_witness :
    FormulaCell.evaluate Spreadsheet.sampleDirect ('@' :: "sum".toList ++ '(' :: "A1..A3)".toList)
      = "#ERROR".toList :=
  C15_function_names_two_spellings.2.1 Spreadsheet.sampleDirect "sum".toList "A1..A3)".toList
    (by decide) (by decide) (by decide)

/-- C17: division by zero gives the error sentinel. `applyOperator` raises on a zero
divisor, and for every `=` formula whose evaluation reaches a division whose right
operand is 0, `evaluateExpression` raises and `evaluate` caches exactly `#ERROR`
(it returns a text, the error does not escape); `=5/0` is cached as `#ERROR`. -/
theorem C17_division_by_zero_is_error :
    (∀ a : ℚ, FormulaCell.applyOperator a 0 ['/'] = Except.error Exn.runtime_error) ∧
    (∀ (s : Spreadsheet) (rest : Str) (pre : List Str) (t : Str) (post : List Str)
        (st : ℚ × Str),
      FormulaCell.tokenize rest = pre ++ ['/'] :: t :: post →
      FormulaCell.evaluateLoop s (0, []) pre = Except.ok st →
      FormulaCell.operandValue s t = Except.ok 0 →
      FormulaCell.evaluateExpression s (FormulaCell.tokenize rest)
        = Except.error Exn.runtime_error ∧
      FormulaCell.evaluate s ('=' :: rest) = "#ERROR".toList) ∧
    (∀ s : Spreadsheet, FormulaCell.evaluate s "=5/0".toList = "#ERROR".toList) := by
  have hgen : ∀ (s : Spreadsheet) (rest : Str) (pre : List Str) (t : Str) (post : List Str)
      (st : ℚ × Str),
      FormulaCell.tokenize rest = pre ++ ['/'] :: t :: post →
      FormulaCell.evaluateLoop s (0, []) pre = Except.ok st →
      FormulaCell.operandValue s t = Except.ok 0 →
      FormulaCell.evaluateExpression s (FormulaCell.tokenize rest)
        = Except.error Exn.runtime_error ∧
      FormulaCell.evaluate s ('=' :: rest) = "#ERROR".toList := by
    intro s rest pre t post st htok hpre hv
    have hl := FormulaCell.evaluateLoop_division_reached s pre t post (0, []) st hpre hv
    have he : FormulaCell.evaluateExpression s (FormulaCell.tokenize rest)
        = Except.error Exn.runtime_error := by
      unfold FormulaCell.evaluateExpression
      rw [htok, hl]
    exact ⟨he, FormulaCell.evaluate_arith_error s rest _ he⟩
  refine ⟨?_, hgen, ?_⟩
  · intro a
    simp [FormulaCell.applyOperator]
  · intro s
    have hf : "=5/0".toList = '=' :: "5/0".toList := by decide
    rw [hf]
    have hpre : FormulaCell.evaluateLoop s (0, []) ["5".toList] = Except.ok (5, []) := by
      have h5 : FormulaCell.operandValue s "5".toList = Except.ok 5 := by
        unfold FormulaCell.operandValue
        rw [if_neg (by decide)]
        decide!
      simp only [FormulaCell.evaluateLoop, FormulaCell.evaluateStep, h5]
      rw [if_neg (by decide)]
      simp
    have h0 : FormulaCell.operandValue s "0".toList = Except.ok 0 := by
      unfold FormulaCell.operandValue
      rw [if_neg (by decide)]
      decide!
    exact (hgen s "5/0".toList ["5".toList] "0".toList [] (5, []) (by decide) hpre h0).2

/-- Witness for C17: the formula `=A1/0` on the sheet `A1 = 5`, `B1 = "=A1+1"`. -/
theorem C17_witness :
    FormulaCell.evaluateExpression Spreadsheet.sampleDirect (FormulaCell.tokenize "A1/0".toList)
        = Except.error Exn.runtime_error ∧
      FormulaCell.evaluate Spreadsheet.sampleDirect ('=' :: "A1/0".toList) = "#ERROR".toList :=
  C17_division_by_zero_is_error.2.1 Spreadsheet.sampleDirect "A1/0".toList ["A1".toList]
    "0".toList [] (5, []) (by decide) (by decide!) (by decide!)

/-- C18 (counterexample): on the fresh sheet the formula `=A1+1` in B1 is cached as
`#ERROR`, a text that denotes no number; so are `=Z99+1` (a coordinate outside the grid)
and `=A2+1` with the text `x` in A2. -/
theorem C18_counterexample :
    Spreadsheet.observeAfter [(0, 1, "=A1+1".toList)] (fun s => s.getCell 0 1)
      = Except.ok (some (Cell.FormulaCell "=A1+1".toList "#ERROR".toList [(0, 0)])) ∧
    stod "#ERROR".toList = Except.error Exn.invalid_argument ∧
    Spreadsheet.observeAfter [(1, 0, "x".toList)]
        (fun s => (FormulaCell.evaluate s "=Z99+1".toList,
          FormulaCell.evaluate s "=A2+1".toList))
      = Except.ok ("#ERROR".toList, "#ERROR".toList) := by
  refine ⟨by decide!, by decide, by decide!⟩

/-- C18 (amended): in the expression evaluator an operand that references a coordinate
outside the grid, a null cell, or a cell whose displayed content is empty or not numeric
makes `fetchValueFromReference` raise, and the formula is cached as `#ERROR`. -/
theorem C18_unresolvable_reference_is_error (s : Spreadsheet) (rest t : Str) (row col : Int)
    (ht : t ∈ FormulaCell.tokenize rest) (hc : FormulaCell.isCellReference t = true)
    (hp : Spreadsheet.parseCellReference t = Except.ok (row, col))
    (h : s.getCell row col = none ∨
      ∃ cell, s.getCell row col = some cell ∧ FormulaCell.isNumber cell.getContent = false) :
    FormulaCell.fetchValueFromReference s t = Except.error Exn.runtime_error ∧
    FormulaCell.evaluate s ('=' :: rest) = "#ERROR".toList := by
  have hv := FormulaCell.operandValue_missing_or_text s t row col hc hp h
  refine ⟨?_, FormulaCell.evaluate_failing_operand s rest t _ ht
    (FormulaCell.isCellReference_not_operator t hc) hv⟩
  unfold FormulaCell.operandValue at hv
  rw [if_pos hc] at hv
  exact hv

/-- Witness for C18: the operand `C1` (an empty cell) of `=C1+1` on the sample sheet. -/
theorem C18_witness :
    FormulaCell.fetchValueFromReference Spreadsheet.sampleDirect "C1".toList
        = Except.error Exn.runtime_error ∧
      FormulaCell.evaluate Spreadsheet.sampleDirect ('=' :: "C1+1".toList) = "#ERROR".toList :=
  C18_unresolvable_reference_is_error Spreadsheet.sampleDirect "C1+1".toList "C1".toList 0 2
    (by decide) (by decide) (by decide) (Or.inr ⟨Cell.ValueCell [], by decide, by decide⟩)


/-- C20: for every upper-case letter `L` in `A..Z` and every row number `N` with
`1 <= N <= 2^31 - 1`, `parseCellReference` applied to `L` followed by the decimal digits
of `N` returns row `N - 1` and a column `col` with `getColumnLabel col = L`. -/
theorem C20_reference_round_trip (L : Char) (N : Nat) (hA : 65 ≤ L.toNat) (hZ : L.toNat ≤ 90)
    (_h1 : 1 ≤ N) (hmax : N ≤ 2147483647) :
    ∃ col, Spreadsheet.parseCellReference (L :: Nat.toDigits 10 N)
        = Except.ok ((N : Int) - 1, col) ∧
      Spreadsheet.getColumnLabel col = [L] := by
  obtain ⟨hd1, hd2, hd3⟩ := toDigits_spec N
  have halpha : isalpha L = true := by
    simp only [isalpha, Bool.or_eq_true, Bool.and_eq_true, decide_eq_true_eq]
    exact Or.inl ⟨hA, hZ⟩
  have hsplit : Spreadsheet.splitReference (L :: Nat.toDigits 10 N) [] []
      = Except.ok ([L], Nat.toDigits 10 N) := by
    unfold Spreadsheet.splitReference
    rw [if_pos halpha, Spreadsheet.splitReference_digits _ _ _ hd1]
    simp
  have hstoi := stoi_digits (Nat.toDigits 10 N) hd2 hd1 (by rw [hd3]; exact hmax)
  rw [hd3] at hstoi
  refine ⟨(L.toNat : Int) - 65, ?_, ?_⟩
  · unfold Spreadsheet.parseCellReference
    rw [hsplit]
    simp only [hd2, if_false, hstoi]
  · rw [Spreadsheet.getColumnLabel_single _ (by omega) (by omega)]
    have : ((L.toNat : Int) - 65).toNat + 65 = L.toNat := by omega
    rw [this, Char.ofNat_toNat]

/-- Witness for C20: the reference `C12`. -/
theorem C20_witness :
    ∃ col, Spreadsheet.parseCellReference ('C' :: Nat.toDigits 10 12)
        = Except.ok (((12 : Nat) : Int) - 1, col) ∧
      Spreadsheet.getColumnLabel col = ['C'] :=
  C20_reference_round_trip 'C' 12 (by decide) (by decide) (by decide) (by decide)


/-- C16: division by zero is silently 0 in the HW1 evaluator. `applyOperator(a, 0, "/")`
is 0 for every `a`; hence, whatever the cells display, `parseFormula` of an expression
whose last two tokens are `/` and an operand of value 0 returns 0 as soon as the
evaluation of the tokens before them returns; `=5/0` gives 0. -/
theorem C16_hw1_division_by_zero_is_zero :
    (∀ a : ℚ, HW1.FormulaParser.applyOperator a 0 ['/'] = 0) ∧
    (∀ (disp : HW1.Cell → Except HW1.Fault Str) (s : HW1.Spreadsheet) (rest : Str)
        (pre : List Str) (t : Str) (st : ℚ × Str),
      HW1.FormulaParser.tokenize rest = pre ++ [['/'], t] →
      HW1.FormulaParser.evaluateLoop disp s (0, []) pre = Except.ok st →
      HW1.FormulaParser.isOperator t = false →
      HW1.FormulaParser.getNumericValue disp s t = Except.ok 0 →
      HW1.FormulaParser.parseFormula disp s ('=' :: rest) = Except.ok 0) ∧
    (∀ (disp : HW1.Cell → Except HW1.Fault Str) (s : HW1.Spreadsheet),
      HW1.FormulaParser.parseFormula disp s "=5/0".toList = Except.ok 0) := by
  refine ⟨HW1.FormulaParser.applyOperator_zero_divisor,
    HW1.FormulaParser.parseFormula_final_division, ?_⟩
  intro disp s
  have h5 := HW1.FormulaParser.getNumericValue_literal disp s "5".toList 5 (by decide)
    (by decide!)
  have h0 := HW1.FormulaParser.getNumericValue_literal disp s "0".toList 0 (by decide)
    (by decide!)
  have hpre : HW1.FormulaParser.evaluateLoop disp s (0, []) ["5".toList]
      = Except.ok (5, []) := by
    simp only [HW1.FormulaParser.evaluateLoop, HW1.FormulaParser.evaluateStep, h5]
    rw [if_neg (by decide)]
    simp
  have hf : "=5/0".toList = '=' :: "5/0".toList := by decide
  rw [hf]
  exact HW1.FormulaParser.parseFormula_final_division disp s "5/0".toList ["5".toList]
    "0".toList (5, []) (by decide) hpre (by decide) h0

/-- Witness for C16: the formula `=A1/0` on the HW1 sheet with `A1 = 4`. -/
theorem C16_witness :
    HW1.FormulaParser.parseFormula (HW1.Cell.getCellContent 5 HW1.formulaSheet)
      HW1.formulaSheet ('=' :: "A1/0".toList) = Except.ok 0 :=
  C16_hw1_division_by_zero_is_zero.2.1 (HW1.Cell.getCellContent 5 HW1.formulaSheet)
    HW1.formulaSheet "A1/0".toList ["A1".toList] "0".toList (4, []) (by decide) (by decide!)
    (by decide) (by decide!)

/-- C19 (failing input): on the HW1 sheet whose cell A1 holds the text `-`, the operand
`A1` displays `-`, which `isNumber` accepts although it has no digit, and
`getNumericValue` raises `invalid_argument` from `stod` instead of returning 0, whatever
the bound on nested evaluations; the operand `A99999999999` raises `out_of_range` from
`stoi` before the bounds check that would give `INVALID`. Operands with an empty or
out-of-grid referent (`B7`, `ZZ7`) do resolve to 0. -/
theorem C19_hw1_reference_operand_raises :
    (∀ fuel : Nat,
      HW1.Spreadsheet.getCellContentByOperand
          (HW1.Cell.getCellContent (fuel + 1) HW1.minusSheet) HW1.minusSheet "A1".toList
        = Except.ok "-".toList ∧
      HW1.FormulaParser.getNumericValue
          (HW1.Cell.getCellContent (fuel + 1) HW1.minusSheet) HW1.minusSheet "A1".toList
        = Except.error (HW1.Fault.exception Exn.invalid_argument)) ∧
    HW1.FormulaParser.isCellReference "A1".toList = true ∧
    HW1.FormulaParser.isNumber "-".toList = true ∧
    stod "-".toList = Except.error Exn.invalid_argument ∧
    (∀ disp : HW1.Cell → Except HW1.Fault Str,
      HW1.FormulaParser.getNumericValue disp HW1.minusSheet "A99999999999".toList
        = Except.error (HW1.Fault.exception Exn.out_of_range)) ∧
    HW1.FormulaParser.getNumericValue (HW1.Cell.getCellContent 5 HW1.minusSheet)
        HW1.minusSheet "B7".toList = Except.ok 0 ∧
    HW1.FormulaParser.getNumericValue (HW1.Cell.getCellContent 5 HW1.minusSheet)
        HW1.minusSheet "ZZ7".toList = Except.ok 0 := by
  refine ⟨?_, by decide, by decide, by decide, ?_, by decide!, by decide!⟩
  · intro fuel
    have hcell : HW1.Cell.getCellContent (fuel + 1) HW1.minusSheet (HW1.minusSheet.grid 0 0)
        = Except.ok "-".toList := rfl
    have hop : HW1.Spreadsheet.getCellContentByOperand
        (HW1.Cell.getCellContent (fuel + 1) HW1.minusSheet) HW1.minusSheet "A1".toList
          = Except.ok "-".toList := by
      unfold HW1.Spreadsheet.getCellContentByOperand
      have h1 : HW1.stoiF ("A1".toList.filter (fun ch => !isalpha ch && isdigit ch))
          = Except.ok 1 := by decide
      have h2 : HW1.Spreadsheet.columnToIndex ("A1".toList.filter isalpha)
          = Except.ok 0 := by decide
      simp only [h1, h2]
      rw [if_pos (by decide)]
      exact hcell
    refine ⟨hop, ?_⟩
    unfold HW1.FormulaParser.getNumericValue
    rw [if_neg (by decide), if_pos (by decide), hop]
    simp only []
    rw [if_pos (by decide)]
    decide
  · intro disp
    unfold HW1.FormulaParser.getNumericValue
    rw [if_neg (by decide), if_pos (by decide)]
    unfold HW1.Spreadsheet.getCellContentByOperand
    have h1 : HW1.stoiF ("A99999999999".toList.filter (fun ch => !isalpha ch && isdigit ch))
        = Except.error (HW1.Fault.exception Exn.out_of_range) := by decide
    simp only [h1]


/-- C21 (counterexample): the label of column 26 is `AA`, and `parseCellReference` on
`AA1` returns column 0, not 26. -/
theorem C21_counterexample :
    Spreadsheet.getColumnLabel 26 = "AA".toList ∧
    Spreadsheet.parseCellReference (Spreadsheet.getColumnLabel 26 ++ ['1'])
      = Except.ok (0, 0) := by
  decide

/-- C21 (amended): for every column `c >= 0`, `parseCellReference` applied to
`getColumnLabel c` followed by `1` returns row 0 and the index of the first letter of the
label, a column in `0..25`; this column is `c` exactly when `c <= 25`, that is when the
label has one letter. -/
theorem C21_label_round_trip_single_letter (c : Int) (h0 : 0 ≤ c) :
    ∃ col, Spreadsheet.parseCellReference (Spreadsheet.getColumnLabel c ++ ['1'])
        = Except.ok (0, col) ∧
      0 ≤ col ∧ col ≤ 25 ∧ (col = c ↔ c ≤ 25) ∧
      (c ≤ 25 ↔ (Spreadsheet.getColumnLabel c).length = 1) := by
  obtain ⟨hne, hup⟩ := Spreadsheet.getColumnLabel_upper c h0
  cases hl : Spreadsheet.getColumnLabel c with
  | nil => exact absurd hl hne
  | cons c0 cs =>
    have hc0 := hup c0 (by rw [hl]; exact List.mem_cons_self _ _)
    simp only [isUpper, Bool.and_eq_true, decide_eq_true_eq] at hc0
    have hparse := Spreadsheet.parseCellReference_label _ c0 cs hl hup
    rw [hl] at hparse
    refine ⟨(c0.toNat : Int) - 65, hparse, by omega, by omega, ?_, ?_⟩
    · constructor
      · intro h; omega
      · intro h
        have hs := Spreadsheet.getColumnLabel_single c h0 (by omega)
        rw [hl] at hs
        have h1 : c0 = Char.ofNat (c.toNat + 65) := by
          injection hs
        rw [h1, (Spreadsheet.isUpper_letter c.toNat (by omega)).2]
        omega
    · constructor
      · intro h
        have hs := Spreadsheet.getColumnLabel_single c h0 (by omega)
        rw [hl] at hs
        rw [hs]; rfl
      · intro h
        by_contra hgt
        have hlen := Spreadsheet.getColumnLabelLoop_length (c.toNat + 1) c [] (by omega) (by omega)
        have : Spreadsheet.getColumnLabel c = c0 :: cs := hl
        unfold Spreadsheet.getColumnLabel at this
        rw [this] at hlen
        simp only [List.length_nil] at hlen
        omega

/-- Witness for C21: column 2, whose label is `C`. -/
theorem C21_witness :
    ∃ col, Spreadsheet.parseCellReference (Spreadsheet.getColumnLabel 2 ++ ['1'])
        = Except.ok (0, col) ∧
      0 ≤ col ∧ col ≤ 25 ∧ (col = 2 ↔ (2 : Int) ≤ 25) ∧
      ((2 : Int) ≤ 25 ↔ (Spreadsheet.getColumnLabel 2).length = 1) :=
  C21_label_round_trip_single_letter 2 (by decide)

/-- C23 (counterexample): `parseCellReference` accepts the lower-case column of `a1`
(column 32), the digits before the letter of `1A` and the interleaving `A1B2` (letters
`AB`, digits `12`). -/
theorem C23_counterexample :
    Spreadsheet.parseCellReference "a1".toList = Except.ok (0, 32) ∧
    Spreadsheet.parseCellReference "1A".toList = Except.ok (0, 0) ∧
    Spreadsheet.parseCellReference "A1B2".toList = Except.ok (11, 0) := by
  decide

/-- C23 (amended): `parseCellReference` raises exactly when the text holds a character
that is neither a letter (of either case) nor a decimal digit, or no letter, or no digit,
or when its digits, read in order, exceed the largest `int`; otherwise it returns the
number of the digits minus 1 as the row and the code of the first letter minus the code
of `A` as the column. -/
theorem C23_parseCellReference_failure (ref : Str) :
    ((∃ e, Spreadsheet.parseCellReference ref = Except.error e) ↔
      ((∃ ch ∈ ref, isalpha ch = false ∧ isdigit ch = false) ∨ ref.filter isalpha = [] ∨
        ref.filter isdigit = [] ∨ 2147483647 < natOfDigits (ref.filter isdigit))) ∧
    (∀ row col : Int, Spreadsheet.parseCellReference ref = Except.ok (row, col) →
      row = (natOfDigits (ref.filter isdigit) : Int) - 1 ∧
      ∃ c0 cs, ref.filter isalpha = c0 :: cs ∧ col = (c0.toNat : Int) - 65) := by
  have hall : (ref.all (fun ch => isalpha ch || isdigit ch) = true) ↔
      ¬ ∃ ch ∈ ref, isalpha ch = false ∧ isdigit ch = false := by
    rw [List.all_eq_true]
    constructor
    · rintro h ⟨ch, hch, ha, hd⟩
      have := h ch hch
      rw [ha, hd] at this
      cases this
    · intro h ch hch
      cases ha : isalpha ch with
      | true => rfl
      | false =>
        cases hd : isdigit ch with
        | true => rfl
        | false => exact absurd ⟨ch, hch, ha, hd⟩ h
  have key := Spreadsheet.parseCellReference_eq ref
  by_cases h1 : ref.all (fun ch => isalpha ch || isdigit ch) = true
  · have hno := hall.1 h1
    rw [if_pos h1] at key
    by_cases hcol : ref.filter isalpha = []
    · rw [hcol] at key
      simp only [] at key
      rw [key]
      exact ⟨⟨fun _ => Or.inr (Or.inl hcol), fun _ => ⟨_, rfl⟩⟩, fun _ _ h => by cases h⟩
    · obtain ⟨c0, cs, hcs⟩ := List.exists_cons_of_ne_nil hcol
      rw [hcs] at key
      simp only [] at key
      by_cases hrow : ref.filter isdigit = []
      · rw [if_pos hrow] at key
        rw [key]
        exact ⟨⟨fun _ => Or.inr (Or.inr (Or.inl hrow)), fun _ => ⟨_, rfl⟩⟩,
          fun _ _ h => by cases h⟩
      · rw [if_neg hrow] at key
        by_cases hbig : 2147483647 < natOfDigits (ref.filter isdigit)
        · rw [if_pos hbig] at key
          rw [key]
          exact ⟨⟨fun _ => Or.inr (Or.inr (Or.inr hbig)), fun _ => ⟨_, rfl⟩⟩,
            fun _ _ h => by cases h⟩
        · rw [if_neg hbig] at key
          rw [key]
          refine ⟨⟨?_, ?_⟩, ?_⟩
          · rintro ⟨e, he⟩
            cases he
          · rintro (h | h | h | h)
            · exact absurd h hno
            · exact absurd h hcol
            · exact absurd h hrow
            · exact absurd h hbig
          · intro row col h
            injection h with h
            injection h with hr hc
            exact ⟨hr.symm, c0, cs, hcs, hc.symm⟩
  · rw [if_neg h1] at key
    rw [key]
    refine ⟨⟨fun _ => Or.inl ?_, fun _ => ⟨_, rfl⟩⟩, fun _ _ h => by cases h⟩
    by_contra hno
    exact h1 (hall.2 hno)

/-- Witness for C23: the text `A1B2`, which is accepted with row 11 and column 0. -/
theorem C23_witness :
    (natOfDigits ("A1B2".toList.filter isdigit) : Int) - 1 = 11 ∧
    ∃ c0 cs, "A1B2".toList.filter isalpha = c0 :: cs ∧ (0 : Int) = (c0.toNat : Int) - 65 := by
  obtain ⟨h1, h2⟩ := (C23_parseCellReference_failure "A1B2".toList).2 11 0 (by decide)
  exact ⟨h1.symm, h2⟩

/-- C24: `parseRange` splits on the first occurrence of `..`. It raises exactly when the
text does not contain `..`; otherwise it returns `(start, end)` with
`start ++ ".." ++ end` equal to the text, where `start` is a prefix of the text that does
not contain `..` and is no longer than the part before any occurrence of `..`. -/
theorem C24_parseRange_first_separator (range : Str) :
    ((∃ e, FormulaCell.parseRange range = Except.error e) ↔
      ¬ List.IsInfix ['.', '.'] range) ∧
    ((FormulaCell.parseRange range = Except.error Exn.runtime_error ∧
        ¬ List.IsInfix ['.', '.'] range) ∨
      ∃ start stop, FormulaCell.parseRange range = Except.ok (start, stop) ∧
        start ++ ['.', '.'] ++ stop = range ∧
        List.IsPrefix start range ∧
        ¬ List.IsInfix ['.', '.'] start ∧
        ∀ pre post : Str, pre ++ ['.', '.'] ++ post = range → start.length ≤ pre.length) ∧
    FormulaCell.parseRange "A1..B2".toList = Except.ok ("A1".toList, "B2".toList) ∧
    FormulaCell.parseRange "A1...B2".toList = Except.ok ("A1".toList, ".B2".toList) ∧
    FormulaCell.parseRange "A1..B2..C3".toList = Except.ok ("A1".toList, "B2..C3".toList) ∧
    FormulaCell.parseRange "A1.B2".toList = Except.error Exn.runtime_error := by
  refine ⟨?_, ?_, by decide, by decide, by decide, by decide⟩
  · rcases findDotDot_spec range with ⟨hn, hno⟩ | ⟨k, hk, hdec, _, _⟩
    · unfold FormulaCell.parseRange
      rw [hn]
      exact ⟨fun _ => hno, fun _ => ⟨_, rfl⟩⟩
    · unfold FormulaCell.parseRange
      rw [hk]
      refine ⟨?_, fun h => absurd ⟨_, _, hdec⟩ h⟩
      rintro ⟨e, he⟩
      cases he
  · rcases findDotDot_spec range with ⟨hn, hno⟩ | ⟨k, hk, hdec, hkl, hmin⟩
    · left
      unfold FormulaCell.parseRange
      rw [hn]
      exact ⟨rfl, hno⟩
    · right
      have hlen : (range.take k).length = k := by
        rw [List.length_take]; omega
      refine ⟨range.take k, range.drop (k + 2), ?_, hdec, List.take_prefix _ _, ?_, ?_⟩
      · unfold FormulaCell.parseRange
        rw [hk]
        simp [substr]
      · rintro ⟨a, b, hab⟩
        have h1 : a ++ ['.', '.'] ++ (b ++ ['.', '.'] ++ range.drop (k + 2)) = range := by
          conv_rhs => rw [← hdec, ← hab]
          simp
        have h2 := hmin _ _ h1
        have h3 := congrArg List.length hab
        simp only [List.length_append, List.length_cons, List.length_nil, hlen] at h3
        omega
      · intro pre post hpp
        rw [hlen]
        exact hmin pre post hpp

/-- Witness for C24: the text `A1...B2`, split at its first two dots. -/
theorem C24_witness :
    (FormulaCell.parseRange "A1...B2".toList = Except.error Exn.runtime_error ∧
        ¬ List.IsInfix ['.', '.'] "A1...B2".toList) ∨
      ∃ start stop, FormulaCell.parseRange "A1...B2".toList = Except.ok (start, stop) ∧
        start ++ ['.', '.'] ++ stop = "A1...B2".toList ∧
        List.IsPrefix start "A1...B2".toList ∧
        ¬ List.IsInfix ['.', '.'] start ∧
        ∀ pre post : Str, pre ++ ['.', '.'] ++ post = "A1...B2".toList →
          start.length ≤ pre.length :=
  (C24_parseRange_first_separator "A1...B2".toList).2.1

/-- C25: swapped range corners are not normalised. When both corner references parse and
the start row exceeds the end row or the start column exceeds the end column,
`getValuesFromRange` returns the empty list without raising; `@SUM(B2..A1)` is cached
as `0.00`, which denotes 0, on every sheet. -/
theorem C25_swapped_corners_empty_iteration :
    (∀ (s : Spreadsheet) (start stop : Str) (sr sc er ec : Int),
      Spreadsheet.parseCellReference start = Except.ok (sr, sc) →
      Spreadsheet.parseCellReference stop = Except.ok (er, ec) →
      (er < sr ∨ ec < sc) →
      FormulaCell.getValuesFromRange s start stop = Except.ok []) ∧
    (∀ s : Spreadsheet, FormulaCell.evaluate s "@SUM(B2..A1)".toList = "0.00".toList) ∧
    stod "0.00".toList = Except.ok 0 ∧
    Spreadsheet.observeAfter [(0, 0, "1".toList), (1, 1, "2".toList),
        (0, 2, "@SUM(B2..A1)".toList)] (fun s => s.getCell 0 2)
      = Except.ok (some (Cell.FormulaCell "@SUM(B2..A1)".toList "0.00".toList [])) := by
  have hgen : ∀ (s : Spreadsheet) (start stop : Str) (sr sc er ec : Int),
      Spreadsheet.parseCellReference start = Except.ok (sr, sc) →
      Spreadsheet.parseCellReference stop = Except.ok (er, ec) →
      (er < sr ∨ ec < sc) →
      FormulaCell.getValuesFromRange s start stop = Except.ok [] := by
    intro s start stop sr sc er ec h1 h2 h
    rw [FormulaCell.getValuesFromRange_eq s start stop sr sc er ec h1 h2,
      FormulaCell.rectangle_eq_nil sr sc er ec h]
    rfl
  refine ⟨hgen, ?_, by decide!, by decide!⟩
  intro s
  have hv := hgen s "B2".toList "A1".toList 1 1 0 0 (by decide) (by decide) (by decide)
  have := FormulaCell.evaluate_of_values s "@SUM(B2..A1)".toList "SUM".toList
    "B2..A1".toList "B2".toList "A1".toList [] 0 (by decide) (by decide) (by decide) hv
    (by decide!)
  rw [this]
  decide!

/-- Witness for C25: the corners `B2` and `A1` on the sample sheet. -/
theorem C25_witness :
    FormulaCell.getValuesFromRange Spreadsheet.sampleDirect "B2".toList "A1".toList
      = Except.ok [] :=
  C25_swapped_corners_empty_iteration.1 Spreadsheet.sampleDirect "B2".toList "A1".toList
    1 1 0 0 (by decide) (by decide) (by decide)


/-- C22 (counterexample): for the eight-letter label `AAAAAAAA` the positional number is
8353082582, above the largest `int`; the accumulation overflows in both variants and
`columnToIndex` does not return that number. -/
theorem C22_counterexample :
    bijectiveBase26 "AAAAAAAA".toList = 8353082582 ∧
    Spreadsheet.columnToIndex "AAAAAAAA".toList
      = Except.error HW1.Fault.signed_overflow ∧
    HW1.Spreadsheet.columnToIndex "AAAAAAAA".toList
      = Except.error HW1.Fault.signed_overflow := by
  decide

/-- C22 (amended): for every string of upper-case letters whose positional sum
`sum over i of (l_i + 1) * 26^(n-1-i)` fits an `int` (every label of at most six letters
does), `columnToIndex` of HW1 and of HW2 returns that sum minus 1; when the sum does not
fit, the accumulation overflows. On the labels where it returns, `columnToIndex` is
strictly increasing in the length-then-lexicographic order; `A`, `Z`, `AA` give 0, 25,
26. -/
theorem C22_columnToIndex_bijective_base26 :
    (∀ label : Str, (∀ ch ∈ label, isUpper ch = true) →
      positionalSum label ≤ 2147483647 →
      Spreadsheet.columnToIndex label = Except.ok (bijectiveBase26 label) ∧
      HW1.Spreadsheet.columnToIndex label = Except.ok (bijectiveBase26 label)) ∧
    (∀ label : Str, (∀ ch ∈ label, isUpper ch = true) → label.length ≤ 6 →
      positionalSum label ≤ 2147483647) ∧
    (∀ label : Str, (∀ ch ∈ label, isUpper ch = true) →
      2147483647 < positionalSum label →
      Spreadsheet.columnToIndex label = Except.error HW1.Fault.signed_overflow ∧
      HW1.Spreadsheet.columnToIndex label = Except.error HW1.Fault.signed_overflow) ∧
    (∀ (a b : Str) (va vb : Int), (∀ ch ∈ a, isUpper ch = true) →
      (∀ ch ∈ b, isUpper ch = true) → labelBefore a b = true →
      (Spreadsheet.columnToIndex a = Except.ok va →
        Spreadsheet.columnToIndex b = Except.ok vb → va < vb) ∧
      (HW1.Spreadsheet.columnToIndex a = Except.ok va →
        HW1.Spreadsheet.columnToIndex b = Except.ok vb → va < vb)) ∧
    Spreadsheet.columnToIndex "A".toList = Except.ok 0 ∧
    Spreadsheet.columnToIndex "Z".toList = Except.ok 25 ∧
    Spreadsheet.columnToIndex "AA".toList = Except.ok 26 ∧
    HW1.Spreadsheet.columnToIndex "A".toList = Except.ok 0 ∧
    HW1.Spreadsheet.columnToIndex "Z".toList = Except.ok 25 ∧
    HW1.Spreadsheet.columnToIndex "AA".toList = Except.ok 26 := by
  refine ⟨?_, ?_, ?_, ?_, by decide, by decide, by decide, by decide, by decide, by decide⟩
  · intro label hup hfit
    rw [Spreadsheet.columnToIndex_eq label hup, HW1.Spreadsheet.columnToIndex_eq_hw1 label hup,
      if_pos hfit]
    exact ⟨rfl, rfl⟩
  · intro label hup hlen
    have := positionalSum_short label hup hlen
    omega
  · intro label hup hbig
    rw [Spreadsheet.columnToIndex_eq label hup, HW1.Spreadsheet.columnToIndex_eq_hw1 label hup,
      if_neg (by omega)]
    exact ⟨rfl, rfl⟩
  · intro a b va vb ha hb hlt
    have hps := positionalSum_lt_of_labelBefore a b ha hb hlt
    have key : ∀ (l : Str) (v : Int),
        (if positionalSum l ≤ 2147483647 then (Except.ok (bijectiveBase26 l) : Except HW1.Fault Int)
          else Except.error HW1.Fault.signed_overflow) = Except.ok v →
        v = positionalSum l - 1 := by
      intro l v h
      by_cases hfit : positionalSum l ≤ 2147483647
      · rw [if_pos hfit] at h
        injection h with h
        rw [← h]; rfl
      · rw [if_neg hfit] at h
        cases h
    constructor
    · intro h1 h2
      rw [Spreadsheet.columnToIndex_eq a ha] at h1
      rw [Spreadsheet.columnToIndex_eq b hb] at h2
      rw [key a va h1, key b vb h2]
      omega
    · intro h1 h2
      rw [HW1.Spreadsheet.columnToIndex_eq_hw1 a ha] at h1
      rw [HW1.Spreadsheet.columnToIndex_eq_hw1 b hb] at h2
      rw [key a va h1, key b vb h2]
      omega

/-- Witness for C22: the labels `Z` and `AA`, with numbers 25 and 26. -/
theorem C22_witness :
    (Spreadsheet.columnToIndex "AA".toList = Except.ok (bijectiveBase26 "AA".toList) ∧
      HW1.Spreadsheet.columnToIndex "AA".toList = Except.ok (bijectiveBase26 "AA".toList)) ∧
    ((25 : Int) < 26) :=
  ⟨C22_columnToIndex_bijective_base26.1 "AA".toList (by decide) (by decide),
    (C22_columnToIndex_bijective_base26.2.2.2.1 "Z".toList "AA".toList 25 26 (by decide)
      (by decide) (by decide)).1 (by decide) (by decide)⟩


/-- C26 (failing input): the formula `=A99999999999` has the reference-shaped token
`A99999999999`, on which `parseCellReference` raises `out_of_range`; `updateDependencies`
lets it through, so the constructor of the formula cell raises on every sheet and
`setCellContent` raises instead of returning, although `evaluate` turns the same failure
into `#ERROR`. The same holds for the `@` formula `@SUM(A1..A3)+A99999999999`. -/
theorem C26_malformed_reference_escapes_setCellContent :
    FormulaCell.isCellReference "A99999999999".toList = true ∧
    Spreadsheet.parseCellReference "A99999999999".toList = Except.error Exn.out_of_range ∧
    FormulaCell.updateDependencies [] "=A99999999999".toList
      = Except.error Exn.out_of_range ∧
    (∀ s : Spreadsheet,
      FormulaCell.new s "=A99999999999".toList = Except.error Exn.out_of_range ∧
      FormulaCell.new s "@SUM(A1..A3)+A99999999999".toList
        = Except.error Exn.out_of_range ∧
      FormulaCell.evaluate s "=A99999999999".toList = "#ERROR".toList) ∧
    Spreadsheet.observeAfter [(0, 0, "=A99999999999".toList)] (fun s => s.getCell 0 0)
      = Except.error Exn.out_of_range ∧
    Spreadsheet.observeAfter [(0, 0, "@SUM(A1..A3)+A99999999999".toList)]
        (fun s => s.getCell 0 0)
      = Except.error Exn.out_of_range := by
  refine ⟨by decide, by decide, by decide, ?_, by decide, by decide⟩
  intro s
  refine ⟨?_, ?_, ?_⟩
  · unfold FormulaCell.new
    rw [show FormulaCell.updateDependencies [] "=A99999999999".toList
      = Except.error Exn.out_of_range from by decide]
  · unfold FormulaCell.new
    rw [show FormulaCell.updateDependencies [] "@SUM(A1..A3)+A99999999999".toList
      = Except.error Exn.out_of_range from by decide]
  · have hv : FormulaCell.operandValue s "A99999999999".toList
        = Except.error Exn.out_of_range := by
      unfold FormulaCell.operandValue FormulaCell.fetchValueFromReference
      rw [if_pos (by decide), show Spreadsheet.parseCellReference "A99999999999".toList
        = Except.error Exn.out_of_range from by decide]
    exact FormulaCell.evaluate_failing_operand s "A99999999999".toList "A99999999999".toList
      Exn.out_of_range (by decide) (by decide) hv

/-- C27 (failing input): `resizeGrid(2, 2)` on the fresh 21 x 8 sheet returns normally
and leaves `getTotalRows() = 2`, `getTotalCols() = 2`, while the cell container, whose
own `resize` does nothing for smaller dimensions, keeps its extent 21 x 8. Whenever
`resizeGrid` returns, the two counters are exactly the requested dimensions. -/
theorem C27_resizeGrid_shrinks_reported_dimensions :
    (SheetStore.create 21 8).dimensions = ((21, 8), (21, 8)) ∧
    ((SheetStore.create 21 8).resizeGrid 2 2).map SheetStore.dimensions
      = Except.ok ((2, 2), (21, 8)) ∧
    ((Dynamic2DVector.new 21 8).resize 2 2).map (fun v => (v.rows, v.cols))
      = Except.ok (21, 8) ∧
    ((SheetStore.create 21 8).resizeGrid 30 8).map SheetStore.dimensions
      = Except.ok ((30, 8), (30, 8)) ∧
    (∀ (st : SheetStore) (newRows newCols : Int),
      (st.resizeGrid newRows newCols).map (fun st1 => (st1.totalRows, st1.totalCols))
        = (st.resizeGrid newRows newCols).map (fun _ => (newRows, newCols))) := by
  refine ⟨by decide, by decide, by decide, by decide, SheetStore.resizeGrid_counters⟩

/-- C28 (failing input): `stoi` and `stod` convert a numeric prefix, so `setCellContent`
stores `3abc` as the `IntValueCell` 3 (displayed `3`) and `1.5xyz` as the
`DoubleValueCell` 1.5 (displayed `1.50`); a text becomes a `StringValueCell` exactly when
`stod` finds no numeric prefix. -/
theorem C28_numeric_prefix_is_classified_as_number :
    stoi "3abc".toList = Except.ok 3 ∧
    Spreadsheet.classifyValue "3abc".toList = Cell.IntValueCell 3 ∧
    stod "1.5xyz".toList = Except.ok (3 / 2) ∧
    Spreadsheet.classifyValue "1.5xyz".toList = Cell.DoubleValueCell (3 / 2) ∧
    Spreadsheet.observeAfter [(0, 0, "3abc".toList), (0, 1, "1.5xyz".toList)]
        (fun s => (s.getCell 0 0, s.getCell 0 1, s.contentAt (0, 0), s.contentAt (0, 1)))
      = Except.ok (some (Cell.IntValueCell 3), some (Cell.DoubleValueCell (3 / 2)),
          some "3".toList, some "1.50".toList) ∧
    (∀ content : Str, Spreadsheet.classifyValue content = Cell.StringValueCell content ↔
      ∃ e, stod content = Except.error e) := by
  refine ⟨by decide, by decide, by decide!, by decide!, by decide!,
    Spreadsheet.classifyValue_string_iff⟩

/-- C29 (failing input): after `setCellContent` with the texts `007` and `1.5` the raw
contents are `7` and `1.500000`, the renderings of the parsed values, not the texts; the
text cell `abc` and the formula cell `=A1+1` do keep their text. Appending `.` and then
`5` to the raw content of the cell holding `1`, as the keyboard handler does, ends with
the cell displaying `1.00`. -/
theorem C29_number_cells_drop_the_input_text :
    Spreadsheet.observeAfter [(0, 0, "007".toList), (0, 1, "1.5".toList),
        (0, 2, "abc".toList), (0, 3, "=A1+1".toList)]
        (fun s => ((s.getCell 0 0).map Cell.getRawContent,
          (s.getCell 0 1).map Cell.getRawContent, (s.getCell 0 2).map Cell.getRawContent,
          (s.getCell 0 3).map Cell.getRawContent))
      = Except.ok (some "7".toList, some "1.500000".toList, some "abc".toList,
          some "=A1+1".toList) ∧
    Spreadsheet.observeAfter [(0, 0, "1".toList), (0, 0, "1.".toList)]
        (fun s => (s.getCell 0 0).map Cell.getRawContent)
      = Except.ok (some "1.000000".toList) ∧
    Spreadsheet.observeAfter [(0, 0, "1".toList), (0, 0, "1.".toList),
        (0, 0, "1.0000005".toList)] (fun s => s.contentAt (0, 0))
      = Except.ok (some "1.00".toList) := by
  refine ⟨by decide!, by decide!, by decide!⟩

/-- C30 (failing input): on the sheet `A1 = 5`, `B1 = "=A1+1"` the first line written by
`saveFileAs` of HW2 is `5,6.00,,,,,,` where the serialisation of raw contents has
`5,=A1+1,,,,,,`: the formula cell is written as its computed value. On every sheet the
written text is, row by row, the displayed contents joined by `,` and ended by a newline.
`saveFileAs` of HW1 writes the formula text `=A1/8`. -/
theorem C30_saveFileAs_writes_computed_values :
    (FileManager.saveFileAs Spreadsheet.sampleDirect).take 13 = "5,6.00,,,,,,\n".toList ∧
    (FileManager.rawSerialisation Spreadsheet.sampleDirect).take 14
      = "5,=A1+1,,,,,,\n".toList ∧
    FileManager.saveFileAs Spreadsheet.sampleDirect
      ≠ FileManager.rawSerialisation Spreadsheet.sampleDirect ∧
    (∀ s : Spreadsheet, FileManager.saveFileAs s = FileManager.displayedSerialisation s) ∧
    (HW1.FileManager.saveFileAs HW1.formulaSheet).take 8 = "4,=A1/8,".toList := by
  refine ⟨by decide, by decide, by decide, FileManager.saveFileAs_eq, by decide⟩


/-- C33: a formula that refers to its own cell. When `f` is an `=` formula whose
dependency list contains the in-range cell X, `setCellContent(X, f)` returns, and the
value it leaves in X is the third of three evaluations of `f`: at construction against
the sheet before the call, after installation against the sheet in which X holds the
first value, and in the recalculation pass against a sheet in which X still holds the
second value (and which differs from it at most in cached values of other dependents of
X). When `f` refers to no cell but X the third evaluation is against exactly that sheet.
With A1 holding 5, `=A1+1` leaves `8.00` in A1, after `6.00` and `7.00`. -/
theorem C33_self_reference_three_evaluations (s : Spreadsheet) (row col : Int) (f : Str)
    (deps : List (Int × Int))
    (hr0 : 0 ≤ row) (hr1 : row < s.totalRows) (hc0 : 0 ≤ col) (hc1 : col < s.totalCols)
    (hf : f.head? = some '=') (hdeps : FormulaCell.updateDependencies [] f = Except.ok deps)
    (hself : (row, col) ∈ deps) :
    ∃ t sv,
      s.setCellContent row col f = Except.ok t ∧
      Spreadsheet.Frame row col
        (s.setAt row col (some (Cell.FormulaCell f
          (FormulaCell.evaluate
            (s.setAt row col (some (Cell.FormulaCell f (FormulaCell.evaluate s f) deps))) f)
          deps))) sv ∧
      sv.grid row col = some (Cell.FormulaCell f
          (FormulaCell.evaluate
            (s.setAt row col (some (Cell.FormulaCell f (FormulaCell.evaluate s f) deps))) f)
          deps) ∧
      t.getCell row col = some (Cell.FormulaCell f (FormulaCell.evaluate sv f) deps) ∧
      ((∀ q ∈ FormulaCell.readCells f, q = (row, col)) →
        FormulaCell.evaluate sv f =
          FormulaCell.evaluate (s.setAt row col (some (Cell.FormulaCell f
            (FormulaCell.evaluate
              (s.setAt row col (some (Cell.FormulaCell f (FormulaCell.evaluate s f) deps))) f)
            deps))) f) := by
  have hset := Spreadsheet.setCellContent_formula s row col f deps hr0 hr1 hc0 hc1 hf hdeps
  generalize hs2 : s.setAt row col (some (Cell.FormulaCell f
      (FormulaCell.evaluate
        (s.setAt row col (some (Cell.FormulaCell f (FormulaCell.evaluate s f) deps))) f)
      deps)) = s2 at hset ⊢
  generalize hv2 : FormulaCell.evaluate
      (s.setAt row col (some (Cell.FormulaCell f (FormulaCell.evaluate s f) deps))) f = v2
    at hs2 ⊢
  have hrows : s2.totalRows = s.totalRows := by rw [← hs2]; rfl
  have hcols : s2.totalCols = s.totalCols := by rw [← hs2]; rfl
  have hg2 : s2.grid row col = some (Cell.FormulaCell f v2 deps) := by
    rw [← hs2]
    exact Spreadsheet.setAt_grid_self _ _ _ _
  have hcell : s2.getCell row col = some (Cell.FormulaCell f v2 deps) := by
    unfold Spreadsheet.getCell
    rw [if_pos (by rw [hrows, hcols]; exact ⟨hr0, hr1, hc0, hc1⟩), hg2]
  obtain ⟨sv, hframe, hsv, hfin⟩ :=
    Spreadsheet.recalculate_visits_dependent_at s2 row col row col f v2 deps hcell hself
  have hfr := Spreadsheet.recalculateDependencies_frame s2 row col
  refine ⟨_, sv, hset, hframe, by rw [hsv, hg2], ?_, ?_⟩
  · unfold Spreadsheet.getCell
    rw [hfr.1, hfr.2.1, if_pos (by rw [hrows, hcols]; exact ⟨hr0, hr1, hc0, hc1⟩), hfin]
  · intro hread
    apply FormulaCell.evaluate_congr
    intro q hq
    rw [hread q hq]
    exact (Spreadsheet.contentAt_congr s2 sv (row, col) hframe.1 hframe.2.1 hsv).symm

/-- Witness for C33: the formula `=A1+1` put into A1, which holds 5. -/
theorem C33_witness :
    (∃ t sv,
      Spreadsheet.sampleDirect.setCellContent 0 0 "=A1+1".toList = Except.ok t ∧
      Spreadsheet.Frame 0 0
        (Spreadsheet.sampleDirect.setAt 0 0 (some (Cell.FormulaCell "=A1+1".toList
          (FormulaCell.evaluate
            (Spreadsheet.sampleDirect.setAt 0 0 (some (Cell.FormulaCell "=A1+1".toList
              (FormulaCell.evaluate Spreadsheet.sampleDirect "=A1+1".toList) [(0, 0)])))
            "=A1+1".toList)
          [(0, 0)]))) sv ∧
      sv.grid 0 0 = some (Cell.FormulaCell "=A1+1".toList
          (FormulaCell.evaluate
            (Spreadsheet.sampleDirect.setAt 0 0 (some (Cell.FormulaCell "=A1+1".toList
              (FormulaCell.evaluate Spreadsheet.sampleDirect "=A1+1".toList) [(0, 0)])))
            "=A1+1".toList)
          [(0, 0)]) ∧
      t.getCell 0 0
        = some (Cell.FormulaCell "=A1+1".toList (FormulaCell.evaluate sv "=A1+1".toList)
            [(0, 0)]) ∧
      ((∀ q ∈ FormulaCell.readCells "=A1+1".toList, q = (0, 0)) →
        FormulaCell.evaluate sv "=A1+1".toList =
          FormulaCell.evaluate (Spreadsheet.sampleDirect.setAt 0 0
            (some (Cell.FormulaCell "=A1+1".toList
              (FormulaCell.evaluate
                (Spreadsheet.sampleDirect.setAt 0 0 (some (Cell.FormulaCell "=A1+1".toList
                  (FormulaCell.evaluate Spreadsheet.sampleDirect "=A1+1".toList) [(0, 0)])))
                "=A1+1".toList)
              [(0, 0)]))) "=A1+1".toList)) ∧
    Spreadsheet.observeAfter [(0, 0, "5".toList), (0, 0, "=A1+1".toList)]
        (fun s => s.getCell 0 0)
      = Except.ok (some (Cell.FormulaCell "=A1+1".toList "8.00".toList [(0, 0)])) ∧
    FormulaCell.evaluate Spreadsheet.sampleDirect "=A1+1".toList = "6.00".toList ∧
    FormulaCell.evaluate
        (Spreadsheet.sampleDirect.setAt 0 0 (some (Cell.FormulaCell "=A1+1".toList
          "6.00".toList [(0, 0)]))) "=A1+1".toList = "7.00".toList ∧
    FormulaCell.evaluate
        (Spreadsheet.sampleDirect.setAt 0 0 (some (Cell.FormulaCell "=A1+1".toList
          "7.00".toList [(0, 0)]))) "=A1+1".toList = "8.00".toList ∧
    stod "8.00".toList = Except.ok 8 :=
  ⟨C33_self_reference_three_evaluations Spreadsheet.sampleDirect 0 0 "=A1+1".toList [(0, 0)]
      (by decide) (by decide) (by decide) (by decide) (by decide) (by decide) (by decide),
    by decide!, by decide!, by decide!, by decide!, by decide!⟩

/-- C34: a range-function call is no operand. For every sheet and every formula that
begins with `=` and whose remaining text contains `@`, `evaluate` caches `#ERROR`:
the tokenizer yields a token that starts with `@`, which is neither an operator nor
reference-shaped, and on which `stod` raises. -/
theorem C34_function_call_operand_is_error (s : Spreadsheet) (rest : Str) (h : '@' ∈ rest) :
    FormulaCell.evaluate s ('=' :: rest) = "#ERROR".toList ∧
    ∃ t ∈ FormulaCell.tokenize rest, t.head? = some '@' ∧
      FormulaCell.isOperator t = false ∧
      FormulaCell.operandValue s t = Except.error Exn.invalid_argument := by
  obtain ⟨t, ht, hh⟩ := FormulaCell.tokenize_at rest h
  obtain ⟨hop, hv⟩ := FormulaCell.operandValue_at s t hh
  exact ⟨FormulaCell.evaluate_failing_operand s rest t _ ht hop hv, t, ht, hh, hop, hv⟩

/-- Witness for C34: the formula `=@SUM(A1..A3)+1` on the sample sheet. -/
theorem C34_witness :
    FormulaCell.evaluate Spreadsheet.sampleDirect ('=' :: "@SUM(A1..A3)+1".toList)
        = "#ERROR".toList ∧
    ∃ t ∈ FormulaCell.tokenize "@SUM(A1..A3)+1".toList, t.head? = some '@' ∧
      FormulaCell.isOperator t = false ∧
      FormulaCell.operandValue Spreadsheet.sampleDirect t
        = Except.error Exn.invalid_argument :=
  C34_function_call_operand_is_error Spreadsheet.sampleDirect "@SUM(A1..A3)+1".toList
    (by decide)

/-- C35 (failing input): on the fresh 21 x 8 sheet `setCellContent(0, 0, "=A99999999999")`
raises `out_of_range` although the coordinates are in range. For every call: with
coordinates out of range it raises `out_of_range`; whenever it raises, the exception is
`out_of_range` and the sheet is the one before the call. -/
theorem C35_out_of_range_raised_for_coordinates_in_range :
    (Spreadsheet.create 21 8).setCellContent 0 0 "=A99999999999".toList
      = Except.error Exn.out_of_range ∧
    ((Spreadsheet.create 21 8).setCellContentOutcome 0 0 "=A99999999999".toList).2
      = some Exn.out_of_range ∧
    (∀ (s : Spreadsheet) (row col : Int) (content : Str),
      s.setCellContent row col content =
        match (s.setCellContentOutcome row col content).2 with
        | none => Except.ok (s.setCellContentOutcome row col content).1
        | some e => Except.error e) ∧
    (∀ (s : Spreadsheet) (row col : Int) (content : Str),
      (row < 0 ∨ row ≥ s.totalRows ∨ col < 0 ∨ col ≥ s.totalCols) →
      s.setCellContentOutcome row col content = (s, some Exn.out_of_range)) ∧
    (∀ (s : Spreadsheet) (row col : Int) (content : Str) (e : Exn),
      (s.setCellContentOutcome row col content).2 = some e →
      (s.setCellContentOutcome row col content).1 = s ∧ e = Exn.out_of_range) := by
  have hout : ((Spreadsheet.create 21 8).setCellContentOutcome 0 0 "=A99999999999".toList).2
      = some Exn.out_of_range := by decide
  refine ⟨?_, hout, Spreadsheet.setCellContent_outcome, ?_,
    Spreadsheet.setCellContentOutcome_raise⟩
  · rw [Spreadsheet.setCellContent_outcome, hout]
  intro s row col content h
  unfold Spreadsheet.setCellContentOutcome
  rw [if_pos h]

/-- C36: `recalculateDependencies(row, col)` changes nothing but cached results of
dependents. After the call the dimensions are the same, every slot holds a cell of the
same kind with the same raw content and the same dependency list, and every slot that
is not a formula cell with `(row, col)` in its dependency list holds the same cell,
computed value included. -/
theorem C36_recalculateDependencies_frame_effect (s : Spreadsheet) (row col : Int) :
    (s.recalculateDependencies row col).totalRows = s.totalRows ∧
    (s.recalculateDependencies row col).totalCols = s.totalCols ∧
    ∀ r c : Int,
      ((s.recalculateDependencies row col).grid r c).map Cell.kind
        = (s.grid r c).map Cell.kind ∧
      ((s.recalculateDependencies row col).grid r c).map Cell.getRawContent
        = (s.grid r c).map Cell.getRawContent ∧
      ((s.recalculateDependencies row col).grid r c).map Cell.getDependencies
        = (s.grid r c).map Cell.getDependencies ∧
      (Spreadsheet.dependsOn (s.grid r c) row col = false →
        (s.recalculateDependencies row col).grid r c = s.grid r c) ∧
      ((s.recalculateDependencies row col).getCell r c = none ↔ s.getCell r c = none) := by
  obtain ⟨h1, h2, h3⟩ := Spreadsheet.recalculateDependencies_frame s row col
  refine ⟨h1, h2, ?_⟩
  intro r c
  rcases h3 r c with h | ⟨hd, f, cv, cv1, deps, hs, ht⟩
  · refine ⟨by rw [h], by rw [h], by rw [h], fun _ => h, ?_⟩
    unfold Spreadsheet.getCell
    rw [h1, h2, h]
  · refine ⟨by rw [hs, ht]; rfl, by rw [hs, ht]; rfl, by rw [hs, ht]; rfl, ?_, ?_⟩
    · intro hno
      rw [hno] at hd
      cases hd
    · unfold Spreadsheet.getCell
      rw [h1, h2, hs, ht]
      split <;> simp

/-- C39: the two tokenizers agree on plain expressions. For every text without `@`,
`tokenize` of HW1 and `tokenize` of HW2 return the same token sequence. -/
theorem C39_tokenizers_agree_without_at (formula : Str) (h : '@' ∉ formula) :
    HW1.FormulaParser.tokenize formula = FormulaCell.tokenize formula := by
  unfold HW1.FormulaParser.tokenize FormulaCell.tokenize
  simp only []
  rw [FormulaCell.tokenizeLoop_hw1 formula _ h rfl]
  simp only [FormulaCell.flush]

/-- Witness for C39: the text `A1 + B2*3`, with five tokens in both variants. -/
theorem C39_witness :
    HW1.FormulaParser.tokenize "A1 + B2*3".toList = FormulaCell.tokenize "A1 + B2*3".toList ∧
    FormulaCell.tokenize "A1 + B2*3".toList
      = ["A1".toList, "+".toList, "B2".toList, "*".toList, "3".toList] :=
  ⟨C39_tokenizers_agree_without_at "A1 + B2*3".toList (by decide), by decide⟩


/-- C37 (failing input): resizing the 21 x 8 array to 30 x 5 copies the old slots
`(i, 5..7)` into rows of five slots, an access outside the allocated array; so does
`resizeGrid(30, 5)` on the fresh sheet. For every array and all new dimensions `resize`
is characterised: it throws for a non-positive dimension, returns at once when neither
dimension grows, runs outside the new array when a non-empty array grows in one
dimension while the other is smaller than the current one, and otherwise returns the new
array with every old slot at its index. -/
theorem C37_resize_writes_outside_the_new_array :
    (SheetStore.create 21 8).grid.resize 30 5 = Except.error HW1.Fault.out_of_bounds ∧
    ((SheetStore.create 21 8).resizeGrid 30 5).map SheetStore.dimensions
      = Except.error HW1.Fault.out_of_bounds ∧
    ((SheetStore.create 21 8).grid.resize 30 8).map
        (fun v => (v.rows, v.cols, v.data 20 7, v.data 21 0))
      = Except.ok (30, 8, some (Cell.ValueCell []), none) ∧
    (∀ (v : Dynamic2DVector) (newRows newCols : Int),
      v.resize newRows newCols =
        if newRows ≤ 0 ∨ newCols ≤ 0 then
          Except.error (HW1.Fault.exception Exn.invalid_argument)
        else if newRows ≤ v.rows ∧ newCols ≤ v.cols then Except.ok v
        else if (0 < v.rows ∧ 0 < v.cols) ∧ (newRows < v.rows ∨ newCols < v.cols) then
          Except.error HW1.Fault.out_of_bounds
        else Except.ok { rows := newRows, cols := newCols, data := fun r c =>
          (if 0 ≤ r ∧ r < v.rows ∧ 0 ≤ c ∧ c < v.cols then v.data r c else none) }) := by
  have h1 : (SheetStore.create 21 8).grid.resize 30 5
      = Except.error HW1.Fault.out_of_bounds := by
    rw [Dynamic2DVector.resize_eq, if_neg (by decide), if_neg (by decide), if_pos (by decide)]
  refine ⟨h1, ?_, ?_, Dynamic2DVector.resize_eq⟩
  · unfold SheetStore.resizeGrid
    rw [if_neg (by decide), h1]
    rfl
  · rw [Dynamic2DVector.resize_eq, if_neg (by decide), if_neg (by decide), if_neg (by decide)]
    decide

/-- C38 (counterexample): for the upper-case label `AAAAAAAA` the accumulation of
`columnToIndex` overflows, so no index is returned whose label could be compared; the
label of the eight-letter number 8353082582 is not reachable through an `int`. -/
theorem C38_counterexample :
    Spreadsheet.columnToIndex "AAAAAAAA".toList = Except.error HW1.Fault.signed_overflow ∧
    positionalSum "AAAAAAAA".toList = 8353082583 ∧
    (∀ ch ∈ "AAAAAAAA".toList, isUpper ch = true) := by
  decide

/-- C38 (amended): for every `c >= 0`, `getColumnLabel c` is a non-empty string of
upper-case letters whose positional number is `c`, and for `c <= 2^31 - 2`
`columnToIndex (getColumnLabel c) = c`; conversely, for every non-empty upper-case label
whose positional sum fits an `int`, `columnToIndex` returns an index whose
`getColumnLabel` is the label. -/
theorem C38_labels_and_indices_inverse :
    (∀ c : Int, 0 ≤ c →
      Spreadsheet.getColumnLabel c ≠ [] ∧
      (∀ ch ∈ Spreadsheet.getColumnLabel c, isUpper ch = true) ∧
      bijectiveBase26 (Spreadsheet.getColumnLabel c) = c ∧
      (c ≤ 2147483646 →
        Spreadsheet.columnToIndex (Spreadsheet.getColumnLabel c) = Except.ok c)) ∧
    (∀ label : Str, label ≠ [] → (∀ ch ∈ label, isUpper ch = true) →
      positionalSum label ≤ 2147483647 →
      ∃ v, Spreadsheet.columnToIndex label = Except.ok v ∧ 0 ≤ v ∧
        Spreadsheet.getColumnLabel v = label) ∧
    (∀ label : Str, (∀ ch ∈ label, isUpper ch = true) → label.length ≤ 6 →
      positionalSum label ≤ 2147483647) := by
  refine ⟨?_, ?_, ?_⟩
  · intro c h0
    obtain ⟨hne, hup⟩ := Spreadsheet.getColumnLabel_upper c h0
    have hsum := Spreadsheet.getColumnLabel_sum c h0
    refine ⟨hne, hup, by unfold bijectiveBase26; omega, ?_⟩
    intro hc
    rw [Spreadsheet.columnToIndex_eq _ hup, if_pos (by omega)]
    unfold bijectiveBase26
    rw [hsum]
    congr 1
    omega
  · intro label hne hup hfit
    refine ⟨bijectiveBase26 label, ?_, ?_, ?_⟩
    · rw [Spreadsheet.columnToIndex_eq label hup, if_pos hfit]
    · have hb := (positionalSum_bounds label hup).1
      have hlen : 1 ≤ label.length := by
        cases label with
        | nil => exact absurd rfl hne
        | cons x xs => simp
      have hp : (26 : Int) ^ 1 ≤ 26 ^ label.length := pow_le_pow_right₀ (by norm_num) hlen
      unfold bijectiveBase26
      omega
    · exact Spreadsheet.getColumnLabel_of_label label hup
  · intro label hup hlen
    have := positionalSum_short label hup hlen
    omega

/-- Witness for C38: column 27, whose label is `AB`, and the label `AB`. -/
theorem C38_witness :
    (Spreadsheet.getColumnLabel 27 ≠ [] ∧
      (∀ ch ∈ Spreadsheet.getColumnLabel 27, isUpper ch = true) ∧
      bijectiveBase26 (Spreadsheet.getColumnLabel 27) = 27 ∧
      ((27 : Int) ≤ 2147483646 →
        Spreadsheet.columnToIndex (Spreadsheet.getColumnLabel 27) = Except.ok 27)) ∧
    (∃ v, Spreadsheet.columnToIndex "AB".toList = Except.ok v ∧ 0 ≤ v ∧
        Spreadsheet.getColumnLabel v = "AB".toList) ∧
    Spreadsheet.getColumnLabel 27 = "AB".toList :=
  ⟨C38_labels_and_indices_inverse.1 27 (by decide),
    C38_labels_and_indices_inverse.2.1 "AB".toList (by decide) (by decide) (by decide),
    by decide⟩


/-- C32 (failing input): on the HW1 sheet with `A1 = 1`, `A2 = 2` and the text `x` in A3,
`@Aver(A1..A3)` returns 1: the sum 3 of the numeric cells is divided by `countCells`,
which counts the three non-empty cells, not the two numeric ones. Over `A1..A2` the
result is 1.5. -/
theorem C32_hw1_average_divides_by_non_empty_count :
    HW1.FormulaParser.evaluateFunction (HW1.Cell.getCellContent 5 HW1.averSheet)
        HW1.averSheet "@Aver(A1..A3)".toList = Except.ok 1 ∧
    HW1.FormulaParser.parseFormula (HW1.Cell.getCellContent 5 HW1.averSheet)
        HW1.averSheet "@Aver(A1..A3)".toList = Except.ok 1 ∧
    HW1.FormulaParser.calculateSum (HW1.Cell.getCellContent 5 HW1.averSheet)
        HW1.averSheet 0 0 2 0 = Except.ok 3 ∧
    HW1.FormulaParser.countCells (HW1.Cell.getCellContent 5 HW1.averSheet)
        HW1.averSheet 0 0 2 0 = Except.ok 3 ∧
    HW1.FormulaParser.isNumber "x".toList = false ∧
    HW1.FormulaParser.evaluateFunction (HW1.Cell.getCellContent 5 HW1.averSheet)
        HW1.averSheet "@Aver(A1..A2)".toList = Except.ok (3 / 2) := by
  refine ⟨by decide!, by decide!, by decide!, by decide!, by decide, by decide!⟩

/-- C40 (failing input): `isNumber` of HW1 accepts the texts `-`, `+`, `.` and `-.`,
which have no digit and on which `stod` throws `invalid_argument`; with `-` in A1 the
range functions `calculateSum`, `calculateMax`, `calculateMin` and `calculateStddev`
over A1 raise, and so does `getNumericValue` on the token `.`. What `isNumber` does
guarantee is the shape: an optional sign followed by digits and at most one `.`. -/
theorem C40_hw1_isNumber_accepts_texts_without_digit :
    HW1.FormulaParser.isNumber "-".toList = true ∧
    HW1.FormulaParser.isNumber "+".toList = true ∧
    HW1.FormulaParser.isNumber ".".toList = true ∧
    HW1.FormulaParser.isNumber "-.".toList = true ∧
    stod "-".toList = Except.error Exn.invalid_argument ∧
    stod "+".toList = Except.error Exn.invalid_argument ∧
    stod ".".toList = Except.error Exn.invalid_argument ∧
    stod "-.".toList = Except.error Exn.invalid_argument ∧
    HW1.FormulaParser.calculateSum (HW1.Cell.getCellContent 5 HW1.minusSheet)
        HW1.minusSheet 0 0 0 0 = Except.error (HW1.Fault.exception Exn.invalid_argument) ∧
    HW1.FormulaParser.calculateMax (HW1.Cell.getCellContent 5 HW1.minusSheet)
        HW1.minusSheet 0 0 0 0 = Except.error (HW1.Fault.exception Exn.invalid_argument) ∧
    HW1.FormulaParser.calculateMin (HW1.Cell.getCellContent 5 HW1.minusSheet)
        HW1.minusSheet 0 0 0 0 = Except.error (HW1.Fault.exception Exn.invalid_argument) ∧
    HW1.FormulaParser.calculateStddev (HW1.Cell.getCellContent 5 HW1.minusSheet)
        HW1.minusSheet 0 0 0 0 = Except.error (HW1.Fault.exception Exn.invalid_argument) ∧
    (∀ (disp : HW1.Cell → Except HW1.Fault Str) (s : HW1.Spreadsheet),
      HW1.FormulaParser.getNumericValue disp s ".".toList
        = Except.error (HW1.Fault.exception Exn.invalid_argument)) ∧
    (∀ token : Str, HW1.FormulaParser.isNumber token = true →
      ∃ sign body, token = sign ++ body ∧ (sign = [] ∨ sign = ['+'] ∨ sign = ['-']) ∧
        token ≠ [] ∧ (∀ c ∈ body, isdigit c = true ∨ c = '.') ∧ body.count '.' ≤ 1) := by
  refine ⟨by decide, by decide, by decide, by decide, by decide, by decide, by decide,
    by decide, by decide, by decide, by decide, by decide, ?_,
    HW1.FormulaParser.isNumber_shape⟩
  intro disp s
  unfold HW1.FormulaParser.getNumericValue
  rw [if_pos (by decide)]
  decide


/-- C31, counterexample: the round trip through `saveFileAs` and `loadFile` of HW1 does
not reproduce every grid state. The sheet with the text `a,b` in A1 is written as
`a,b,` and read back with `a` in A1 and `b` in B1; the function cell `@Sum(A1..A1)`,
displayed as `1.00` before saving, is displayed as its raw text after the file is read
into a new sheet of the same size. -/
theorem C31_counterexample :
    HW1.rawContents HW1.commaSheet = [["a,b".toList, []], [[], []]] ∧
    HW1.FileManager.saveFileAs HW1.commaSheet = "a,b,\n,\n".toList ∧
    (HW1.FileManager.loadFile (HW1.FileManager.saveFileAs HW1.commaSheet)
        HW1.commaSheet).map HW1.rawContents
      = Except.ok [[['a'], ['b']], [[], []]] ∧
    HW1.displayedContents 3 HW1.functionSheet
      = [[Except.ok ['1'], Except.ok "1.00".toList], [Except.ok [], Except.ok []]] ∧
    HW1.FileManager.saveFileAs HW1.functionSheet = "1,@Sum(A1..A1)\n,\n".toList ∧
    (HW1.FileManager.loadFile (HW1.FileManager.saveFileAs HW1.functionSheet)
        (HW1.Spreadsheet.create 2 2)).map (HW1.displayedContents 3)
      = Except.ok [[Except.ok ['1'], Except.ok "@Sum(A1..A1)".toList],
          [Except.ok [], Except.ok []]] := by
  refine ⟨by decide, by decide, by decide, by decide, by decide, by decide⟩

/-- C31, amended: for every grid state of HW1 in which no raw content holds a comma or a
newline, `loadFile` reads the text written by `saveFileAs` into a sheet of the same
size without a fault and every cell of the grid has its raw content again; when the
sheet read into holds the same computed contents as the saved one, every cell is
displayed as before as well. -/
theorem C31_round_trip_without_separators (s s0 : HW1.Spreadsheet)
    (hrows : s0.totalRows = s.totalRows) (hcols : s0.totalCols = s.totalCols)
    (hs : HW1.SeparatorFree s) :
    ∃ t, HW1.FileManager.loadFile (HW1.FileManager.saveFileAs s) s0 = Except.ok t ∧
      t.totalRows = s.totalRows ∧ t.totalCols = s.totalCols ∧
      (∀ i j, i < s.totalRows → j < s.totalCols →
        (t.grid i j).content = (s.grid i j).content) ∧
      ((∀ i j, i < s.totalRows → j < s.totalCols →
          (s0.grid i j).computedContent = (s.grid i j).computedContent) →
        ∀ fuel i j, i < s.totalRows → j < s.totalCols →
          HW1.Cell.getCellContent fuel t (t.grid i j)
            = HW1.Cell.getCellContent fuel s (s.grid i j)) := by
  obtain ⟨t, hload, hr, hc, hcells⟩ := HW1.FileManager.loadFile_saveFileAs s s0 hs hrows hcols
  refine ⟨t, hload, hr, hc, fun i j hi hj => (hcells i j hi hj).1, ?_⟩
  intro hcomputed fuel i j hi hj
  apply HW1.Cell.getCellContent_congr_hw1 s t ⟨hr, hc, ?_⟩ fuel i j hi hj
  intro a b ha hb
  exact ⟨(hcells a b ha hb).1, ((hcells a b ha hb).2).trans (hcomputed a b ha hb)⟩

/-- C31, witness: the sheet with `A1 = 1` and the function cell `B1 = "@Sum(A1..A1)"` is
saved and read back into itself; the displayed contents after reading are those before
saving. -/
theorem C31_witness :
    HW1.SeparatorFree HW1.functionSheet ∧
    (∃ t, HW1.FileManager.loadFile (HW1.FileManager.saveFileAs HW1.functionSheet)
        HW1.functionSheet = Except.ok t ∧
      t.totalRows = HW1.functionSheet.totalRows ∧ t.totalCols = HW1.functionSheet.totalCols ∧
      (∀ i j, i < HW1.functionSheet.totalRows → j < HW1.functionSheet.totalCols →
        (t.grid i j).content = (HW1.functionSheet.grid i j).content) ∧
      ((∀ i j, i < HW1.functionSheet.totalRows → j < HW1.functionSheet.totalCols →
          (HW1.functionSheet.grid i j).computedContent
            = (HW1.functionSheet.grid i j).computedContent) →
        ∀ fuel i j, i < HW1.functionSheet.totalRows → j < HW1.functionSheet.totalCols →
          HW1.Cell.getCellContent fuel t (t.grid i j)
            = HW1.Cell.getCellContent fuel HW1.functionSheet (HW1.functionSheet.grid i j))) ∧
    (HW1.FileManager.loadFile (HW1.FileManager.saveFileAs HW1.functionSheet)
        HW1.functionSheet).map (HW1.displayedContents 3)
      = Except.ok (HW1.displayedContents 3 HW1.functionSheet) := by
  have hs : HW1.SeparatorFree HW1.functionSheet := by
    intro i j hi hj
    have hi2 : i < 2 := hi
    have hj2 : j < 2 := hj
    interval_cases i <;> interval_cases j <;> decide
  exact ⟨hs, C31_round_trip_without_separators HW1.functionSheet HW1.functionSheet rfl rfl hs,
    by decide⟩


end GTUSpreadsheet
